import Mathlib

/-!
# CVA6 in-order pipeline timing model

A shallow embedding of `src/cpu/cva6/scoreboard.{hh,cc}`, of the two
predicates on `BranchData::Reason` in `src/cpu/cva6/pipe_data.cc`, of the
functional unit pipelines of `src/cpu/cva6/func_unit.{hh,cc}`, of the
construction, evaluation and draining of `src/cpu/cva6/pipeline.{hh,cc}`, of
the forwarded instruction batches of `src/cpu/cva6/pipe_data.cc`, of the
unsupported operations of `src/cpu/cva6/exec_context.hh` and of the draining
and thread priorities of `src/cpu/cva6/cpu.{hh,cc}`, followed by the
properties proved about them.

Conventions of the embedding.

* A `std::vector` member is a total map from slot number to value:
  `operator[]` performs no bounds check and the model has none either.
* `Scoreboard::Index` is `unsigned short`; every value stored at that type is
  reduced modulo `2 ^ 16` (`toIndex`, `incIndex`, `decIndex`).
* `Cycles` wraps a 64 bit unsigned counter; `Cycles::operator+` is `cyclesAdd`
  and `Cycles::operator++` is `cyclesInc`.
* Objects whose code is not among the sources (stages, channels, the activity
  recorder) are parameters: a state type `σ` and their methods as functions
  on it (`Collaborators`).
* A method that writes members takes the old state and returns the new one;
  where it also writes the instruction (`flatDestRegIdx`), the instruction is
  returned too. Along a history of calls the instructions live in a store
  indexed by address (`InstStore`), so that every call through the same
  pointer sees what the last markup wrote.
-/

namespace gem5.cva6

/-! ## Register identifiers -/

/-- The register classes told apart by the `switch` of `Scoreboard::findIndex`. -/
inductive RegClassType where
  | IntRegClass
  | FloatRegClass
  | VecRegClass
  | VecElemClass
  | VecPredRegClass
  | MatRegClass
  | CCRegClass
  | MiscRegClass
  | InvalidRegClass
  deriving DecidableEq, Repr

/-- A register reference: `classValue()` and `index()`. -/
structure RegId where
  classValue : RegClassType
  index : Nat
  deriving DecidableEq, Repr

/-- Modelled from the spec: the default constructed `RegId()` of
`cpu/reg_class.hh`, which is not among the sources. `markupInstDests` stores it
"to mark invalid/untracked dests", and the spec has invalid registers always
reported as not tracked, so its class is `InvalidRegClass`. -/
def RegId.invalid : RegId := ⟨RegClassType.InvalidRegClass, 0⟩

/-- The part of `BaseISA` the scoreboard uses: `RegId::flatten(*isa)`. -/
structure BaseISA where
  flatten : RegId → RegId

/-- The sizes of the register classes, `reg_classes.at(c)->numRegs()`. -/
abbrev RegClasses := RegClassType → Nat

/-! ## Machine arithmetic -/

/-- Conversion to `Scoreboard::Index` (`unsigned short`). -/
def toIndex (n : Nat) : Nat := n % 65536

/-- The operator `++` at type `Index`. -/
def incIndex (n : Nat) : Nat := (n + 1) % 65536

/-- The operator `--` at type `Index`: zero wraps to 65535. -/
def decIndex (n : Nat) : Nat := (n + 65535) % 65536

/-- Conversion to `unsigned`, the type of the register class offsets. -/
def toUnsigned (n : Nat) : Nat := n % 4294967296

/-- The sum of two `Cycles`: `Cycles::operator+` on the wrapped `uint64_t`. -/
def cyclesAdd (a b : Nat) : Nat := (a + b) % 18446744073709551616

/-- Overwrite one slot of a vector. -/
def setAt {α : Type} (v : Nat → α) (i : Nat) (x : α) : Nat → α :=
  fun j => if j = i then x else v j

/-! ## Instructions -/

/-- The part of `StaticInst` read by the scoreboard. -/
structure StaticInst where
  numDestRegs : Nat
  destRegIdx : Nat → RegId
  numSrcRegs : Nat
  srcRegIdx : Nat → RegId

/-- The part of `InstId` read by the scoreboard. -/
structure InstId where
  execSeqNum : Nat

/-- The part of `CVA6DynInst` read and written by the scoreboard. `isFault`
is the result of `isFault()`; `fuIndex` is the value as it is stored into the
`std::vector<int>` of FU indices. -/
structure CVA6DynInst where
  isFault : Bool
  staticInst : StaticInst
  id : InstId
  fuIndex : Int
  flatDestRegIdx : Nat → RegId

/-! ## The scoreboard -/

/-- The members of `class Scoreboard` (`scoreboard.hh`). -/
structure Scoreboard where
  intRegOffset : Nat
  floatRegOffset : Nat
  ccRegOffset : Nat
  vecRegOffset : Nat
  vecRegElemOffset : Nat
  vecPredRegOffset : Nat
  matRegOffset : Nat
  numRegs : Nat
  numResults : Nat → Nat
  numUnpredictableResults : Nat → Nat
  fuIndices : Nat → Int
  returnCycle : Nat → Nat
  writingInst : Nat → Nat

namespace Scoreboard

/-- The constant `Scoreboard::invalidFUIndex`. -/
def invalidFUIndex : Int := -1

/-- The constructor `Scoreboard::Scoreboard(name, reg_classes)`: the offsets
are running sums of the class sizes and every vector is filled with its
initial value. -/
def new (reg_classes : RegClasses) : Scoreboard :=
  let intRegOffset := 0
  let floatRegOffset := toUnsigned (intRegOffset + reg_classes RegClassType.IntRegClass)
  let ccRegOffset := toUnsigned (floatRegOffset + reg_classes RegClassType.FloatRegClass)
  let vecRegOffset := toUnsigned (ccRegOffset + reg_classes RegClassType.CCRegClass)
  let vecRegElemOffset := toUnsigned (vecRegOffset + reg_classes RegClassType.VecRegClass)
  let vecPredRegOffset := toUnsigned (vecRegElemOffset + reg_classes RegClassType.VecElemClass)
  let matRegOffset := toUnsigned (vecPredRegOffset + reg_classes RegClassType.VecPredRegClass)
  let numRegs := toUnsigned (matRegOffset + reg_classes RegClassType.MatRegClass)
  { intRegOffset := intRegOffset
    floatRegOffset := floatRegOffset
    ccRegOffset := ccRegOffset
    vecRegOffset := vecRegOffset
    vecRegElemOffset := vecRegElemOffset
    vecPredRegOffset := vecPredRegOffset
    matRegOffset := matRegOffset
    numRegs := numRegs
    numResults := fun _ => 0
    numUnpredictableResults := fun _ => 0
    fuIndices := fun _ => invalidFUIndex
    returnCycle := fun _ => 0
    writingInst := fun _ => 0 }

/-- The method `Scoreboard::findIndex`: `some index` when the register is in
the scoreboard (`true` with `scoreboard_index` set), `none` when it is not.
The `default:` branch of the `switch` has no register class left to match. -/
def findIndex (sb : Scoreboard) (reg : RegId) : Option Nat :=
  match reg.classValue with
  | RegClassType.IntRegClass => some (toIndex reg.index)
  | RegClassType.FloatRegClass => some (toIndex (sb.floatRegOffset + reg.index))
  | RegClassType.VecRegClass => some (toIndex (sb.vecRegOffset + reg.index))
  | RegClassType.VecElemClass => some (toIndex (sb.vecRegElemOffset + reg.index))
  | RegClassType.VecPredRegClass => some (toIndex (sb.vecPredRegOffset + reg.index))
  | RegClassType.MatRegClass => some (toIndex (sb.matRegOffset + reg.index))
  | RegClassType.CCRegClass => some (toIndex (sb.ccRegOffset + reg.index))
  | RegClassType.MiscRegClass => none
  | RegClassType.InvalidRegClass => none

/-- The body of the loop of `markupInstDests` for a destination that
`findIndex` placed at `index` (the write of `flatDestRegIdx` apart). -/
def markupDest (sb : Scoreboard) (inst : CVA6DynInst) (retire_time : Nat)
    (mark_unpredictable : Bool) (index : Nat) : Scoreboard :=
  let numUnpredictableResults :=
    if mark_unpredictable then
      setAt sb.numUnpredictableResults index (incIndex (sb.numUnpredictableResults index))
    else sb.numUnpredictableResults
  let numResults := setAt sb.numResults index (incIndex (sb.numResults index))
  let returnCycle := setAt sb.returnCycle index retire_time
  if inst.id.execSeqNum > sb.writingInst index then
    { sb with
      numUnpredictableResults := numUnpredictableResults
      numResults := numResults
      returnCycle := returnCycle
      writingInst := setAt sb.writingInst index inst.id.execSeqNum
      fuIndices := setAt sb.fuIndices index inst.fuIndex }
  else
    { sb with
      numUnpredictableResults := numUnpredictableResults
      numResults := numResults
      returnCycle := returnCycle }

/-- The `for` loop of `markupInstDests`, with `n` iterations left and
`dest_index` the current destination. -/
def markupLoop (isa : BaseISA) (retire_time : Nat) (mark_unpredictable : Bool) :
    Nat → Nat → Scoreboard → CVA6DynInst → Scoreboard × CVA6DynInst
  | 0, _, sb, inst => (sb, inst)
  | n + 1, dest_index, sb, inst =>
    let reg := isa.flatten (inst.staticInst.destRegIdx dest_index)
    match sb.findIndex reg with
    | some index =>
      markupLoop isa retire_time mark_unpredictable n (dest_index + 1)
        (sb.markupDest inst retire_time mark_unpredictable index)
        { inst with flatDestRegIdx := setAt inst.flatDestRegIdx dest_index reg }
    | none =>
      markupLoop isa retire_time mark_unpredictable n (dest_index + 1) sb
        { inst with flatDestRegIdx := setAt inst.flatDestRegIdx dest_index RegId.invalid }

/-- The method `Scoreboard::markupInstDests`; `isa` is
`thread_context->getIsaPtr()`. -/
def markupInstDests (sb : Scoreboard) (inst : CVA6DynInst) (retire_time : Nat)
    (isa : BaseISA) (mark_unpredictable : Bool) : Scoreboard × CVA6DynInst :=
  if inst.isFault then (sb, inst)
  else markupLoop isa retire_time mark_unpredictable inst.staticInst.numDestRegs 0 sb inst

/-- The `for` loop of `execSeqNumToWaitFor`, with `n` iterations left. -/
def execSeqNumLoop (sb : Scoreboard) (isa : BaseISA) (inst : CVA6DynInst) :
    Nat → Nat → Nat → Nat
  | 0, _, ret => ret
  | n + 1, src_index, ret =>
    let reg := isa.flatten (inst.staticInst.srcRegIdx src_index)
    match sb.findIndex reg with
    | some index =>
      execSeqNumLoop sb isa inst n (src_index + 1)
        (if sb.writingInst index > ret then sb.writingInst index else ret)
    | none => execSeqNumLoop sb isa inst n (src_index + 1) ret

/-- The method `Scoreboard::execSeqNumToWaitFor`: the returned sequence
number, and the scoreboard as the call leaves it. -/
def execSeqNumToWaitFor (sb : Scoreboard) (inst : CVA6DynInst) (isa : BaseISA) :
    Nat × Scoreboard :=
  if inst.isFault then (0, sb)
  else (execSeqNumLoop sb isa inst inst.staticInst.numSrcRegs 0 0, sb)

/-- The body of the loop of `clearInstDests` for a recorded destination that
`findIndex` placed at `index`. -/
def clearDest (sb : Scoreboard) (clear_unpredictable : Bool) (index : Nat) : Scoreboard :=
  let numUnpredictableResults :=
    if clear_unpredictable && sb.numUnpredictableResults index != 0 then
      setAt sb.numUnpredictableResults index (decIndex (sb.numUnpredictableResults index))
    else sb.numUnpredictableResults
  let numResults := setAt sb.numResults index (decIndex (sb.numResults index))
  if numResults index == 0 then
    { sb with
      numUnpredictableResults := numUnpredictableResults
      numResults := numResults
      returnCycle := setAt sb.returnCycle index 0
      writingInst := setAt sb.writingInst index 0
      fuIndices := setAt sb.fuIndices index invalidFUIndex }
  else
    { sb with
      numUnpredictableResults := numUnpredictableResults
      numResults := numResults }

/-- The `for` loop of `clearInstDests`, with `n` iterations left. -/
def clearLoop (inst : CVA6DynInst) (clear_unpredictable : Bool) :
    Nat → Nat → Scoreboard → Scoreboard
  | 0, _, sb => sb
  | n + 1, dest_index, sb =>
    let reg := inst.flatDestRegIdx dest_index
    match sb.findIndex reg with
    | some index =>
      clearLoop inst clear_unpredictable n (dest_index + 1)
        (sb.clearDest clear_unpredictable index)
    | none => clearLoop inst clear_unpredictable n (dest_index + 1) sb

/-- The method `Scoreboard::clearInstDests`. -/
def clearInstDests (sb : Scoreboard) (inst : CVA6DynInst) (clear_unpredictable : Bool) :
    Scoreboard :=
  if inst.isFault then sb
  else clearLoop inst clear_unpredictable inst.staticInst.numDestRegs 0 sb

/-- The local `cant_forward` of `canInstIssue`. `src_reg_fu` is an `int`
compared with an unsigned `size()`: it is converted to unsigned first, which
sends a negative value above every vector size, so the comparison holds only
for a value that is not negative and is below the size. -/
def cantForward (cant_forward_from_fu_indices : Option (List Bool)) (src_reg_fu : Int) : Bool :=
  src_reg_fu != invalidFUIndex &&
    (match cant_forward_from_fu_indices with
     | some v =>
       decide (0 ≤ src_reg_fu) && decide (src_reg_fu.toNat < v.length) &&
         v.getD src_reg_fu.toNat false
     | none => false)

/-- The local `num_relative_latencies` of `canInstIssue`. -/
def numRelativeLatencies (src_reg_relative_latencies : Option (List Nat)) : Nat :=
  match src_reg_relative_latencies with
  | some l => if l.length != 0 then l.length else 0
  | none => 0

/-- The local `default_relative_latency` of `canInstIssue`: the last
configured latency, `Cycles(0)` without one. -/
def defaultRelativeLatency (src_reg_relative_latencies : Option (List Nat)) : Nat :=
  match src_reg_relative_latencies with
  | some l => if l.length != 0 then l.getD (l.length - 1) 0 else 0
  | none => 0

/-- The local `relative_latency` of `canInstIssue` for the source register at
position `src_index` whose slot records the producing unit `src_reg_fu`. -/
def relativeLatency (src_reg_relative_latencies : Option (List Nat))
    (cant_forward_from_fu_indices : Option (List Bool)) (src_index : Nat) (src_reg_fu : Int) :
    Nat :=
  if cantForward cant_forward_from_fu_indices src_reg_fu then 0
  else if src_index ≥ numRelativeLatencies src_reg_relative_latencies then
    defaultRelativeLatency src_reg_relative_latencies
  else
    match src_reg_relative_latencies with
    | some l => l.getD src_index 0
    | none => 0

/-- The `while` loop of `canInstIssue`, with `n = num_srcs - src_index`
iterations left; it stops as soon as `ret` is false. -/
def canIssueLoop (sb : Scoreboard) (isa : BaseISA) (inst : CVA6DynInst)
    (src_reg_relative_latencies : Option (List Nat))
    (cant_forward_from_fu_indices : Option (List Bool)) (now : Nat) :
    Nat → Nat → Bool → Bool
  | 0, _, ret => ret
  | n + 1, src_index, ret =>
    if ret then
      let reg := isa.flatten (inst.staticInst.srcRegIdx src_index)
      match sb.findIndex reg with
      | some index =>
        let src_reg_fu := sb.fuIndices index
        let relative_latency :=
          relativeLatency src_reg_relative_latencies cant_forward_from_fu_indices
            src_index src_reg_fu
        if sb.returnCycle index > cyclesAdd now relative_latency ||
            sb.numUnpredictableResults index != 0 then
          canIssueLoop sb isa inst src_reg_relative_latencies cant_forward_from_fu_indices now
            n (src_index + 1) false
        else
          canIssueLoop sb isa inst src_reg_relative_latencies cant_forward_from_fu_indices now
            n (src_index + 1) ret
      | none =>
        canIssueLoop sb isa inst src_reg_relative_latencies cant_forward_from_fu_indices now
          n (src_index + 1) ret
    else ret

/-- The method `Scoreboard::canInstIssue`. The two vectors are passed by
pointer, `none` being the null pointer. -/
def canInstIssue (sb : Scoreboard) (inst : CVA6DynInst)
    (src_reg_relative_latencies : Option (List Nat))
    (cant_forward_from_fu_indices : Option (List Bool)) (now : Nat) (isa : BaseISA) : Bool :=
  if inst.isFault then true
  else
    canIssueLoop sb isa inst src_reg_relative_latencies cant_forward_from_fu_indices now
      inst.staticInst.numSrcRegs 0 true

end Scoreboard

/-! ## Branch reasons -/

namespace BranchData

/-- The enumeration `BranchData::Reason`, one constructor per `case` of the
printing `switch` in `pipe_data.cc`. -/
inductive Reason where
  | NoBranch
  | UnpredictedBranch
  | BranchPrediction
  | CorrectlyPredictedBranch
  | BadlyPredictedBranch
  | BadlyPredictedBranchTarget
  | Interrupt
  | SuspendThread
  | HaltFetch
  deriving DecidableEq, Repr

/-- The function `BranchData::isStreamChange`. -/
def isStreamChange (reason : Reason) : Bool :=
  match reason with
  | Reason.NoBranch => false
  | Reason.CorrectlyPredictedBranch => false
  | Reason.UnpredictedBranch => true
  | Reason.BranchPrediction => true
  | Reason.BadlyPredictedBranchTarget => true
  | Reason.BadlyPredictedBranch => true
  | Reason.SuspendThread => true
  | Reason.Interrupt => true
  | Reason.HaltFetch => true

/-- The function `BranchData::isBranch`. -/
def isBranch (reason : Reason) : Bool :=
  match reason with
  | Reason.NoBranch => false
  | Reason.CorrectlyPredictedBranch => false
  | Reason.SuspendThread => false
  | Reason.Interrupt => false
  | Reason.HaltFetch => false
  | Reason.UnpredictedBranch => true
  | Reason.BranchPrediction => true
  | Reason.BadlyPredictedBranchTarget => true
  | Reason.BadlyPredictedBranch => true

end BranchData

/-! ## Vocabulary of the properties -/

/-- The FU index `f` is a valid index into the cannot-forward set `cf` and the
set holds `true` there. -/
def setInCannotForward (cf : Option (List Bool)) (f : Int) : Prop :=
  ∃ (v : List Bool) (n : Nat), cf = some v ∧ f = (n : Int) ∧ v[n]? = some true

/-- The flattened source register of `inst` at position `k` is tracked by the
scoreboard, in slot `i`. -/
def srcTrackedAt (sb : Scoreboard) (isa : BaseISA) (inst : CVA6DynInst) (k i : Nat) : Prop :=
  sb.findIndex (isa.flatten (inst.staticInst.srcRegIdx k)) = some i

/-- The test of the loop body of `canInstIssue` on the source register at
position `k`, on its own: true when the register is not tracked, or has no
unpredictable writer and returns by `now` plus its relative latency. -/
def sourceReady (sb : Scoreboard) (isa : BaseISA) (inst : CVA6DynInst)
    (lat : Option (List Nat)) (cf : Option (List Bool)) (now : Nat) (k : Nat) : Bool :=
  match sb.findIndex (isa.flatten (inst.staticInst.srcRegIdx k)) with
  | some index =>
    !(sb.returnCycle index >
          cyclesAdd now (Scoreboard.relativeLatency lat cf k (sb.fuIndices index)) ||
        sb.numUnpredictableResults index != 0)
  | none => true

/-- The test of every source register of `inst`, with no early exit. -/
def allSourcesReady (sb : Scoreboard) (isa : BaseISA) (inst : CVA6DynInst)
    (lat : Option (List Nat)) (cf : Option (List Bool)) (now : Nat) : Bool :=
  (List.range inst.staticInst.numSrcRegs).all (sourceReady sb isa inst lat cf now)

/-- The flattened destination register of `inst` at position `d` is tracked
by the scoreboard, in slot `i`. -/
def destTrackedAt (sb : Scoreboard) (isa : BaseISA) (inst : CVA6DynInst) (d i : Nat) : Prop :=
  sb.findIndex (isa.flatten (inst.staticInst.destRegIdx d)) = some i

/-- How many of the `n` positions from `k` on hold a register of `regs` that
the scoreboard tracks in slot `i`. -/
def occurrencesFrom (sb : Scoreboard) (regs : Nat → RegId) (i : Nat) : Nat → Nat → Nat
  | 0, _ => 0
  | n + 1, k =>
    (if sb.findIndex (regs k) = some i then 1 else 0) + occurrencesFrom sb regs i n (k + 1)

/-- How many times slot `i` occurs among the flattened destination registers
of `inst`. -/
def destOccurrences (sb : Scoreboard) (isa : BaseISA) (inst : CVA6DynInst) (i : Nat) : Nat :=
  occurrencesFrom sb (fun d => isa.flatten (inst.staticInst.destRegIdx d)) i
    inst.staticInst.numDestRegs 0

/-- How many times slot `i` occurs among the destinations recorded in
`flatDestRegIdx` by the markup of `inst`. -/
def recordedOccurrences (sb : Scoreboard) (inst : CVA6DynInst) (i : Nat) : Nat :=
  occurrencesFrom sb inst.flatDestRegIdx i inst.staticInst.numDestRegs 0

/-- The five values the scoreboard keeps for one slot. -/
structure Slot where
  numResults : Nat
  numUnpredictableResults : Nat
  fuIndex : Int
  returnCycle : Nat
  writingInst : Nat

/-- The entry of the scoreboard at slot `i`. -/
def Scoreboard.slot (sb : Scoreboard) (i : Nat) : Slot :=
  { numResults := sb.numResults i
    numUnpredictableResults := sb.numUnpredictableResults i
    fuIndex := sb.fuIndices i
    returnCycle := sb.returnCycle i
    writingInst := sb.writingInst i }

/-- What `Scoreboard.markupDest` does to the entry it is applied to. -/
def slotMark (execSeqNum : Nat) (fuIndex : Int) (retire_time : Nat) (mark_unpredictable : Bool)
    (x : Slot) : Slot :=
  { numResults := incIndex x.numResults
    numUnpredictableResults :=
      if mark_unpredictable then incIndex x.numUnpredictableResults
      else x.numUnpredictableResults
    fuIndex := if execSeqNum > x.writingInst then fuIndex else x.fuIndex
    returnCycle := retire_time
    writingInst := if execSeqNum > x.writingInst then execSeqNum else x.writingInst }

/-- What `Scoreboard.clearDest` does to the entry it is applied to. -/
def slotClear (clear_unpredictable : Bool) (x : Slot) : Slot :=
  { numResults := decIndex x.numResults
    numUnpredictableResults :=
      if clear_unpredictable && x.numUnpredictableResults != 0 then
        decIndex x.numUnpredictableResults
      else x.numUnpredictableResults
    fuIndex := if decIndex x.numResults == 0 then Scoreboard.invalidFUIndex else x.fuIndex
    returnCycle := if decIndex x.numResults == 0 then 0 else x.returnCycle
    writingInst := if decIndex x.numResults == 0 then 0 else x.writingInst }

/-! ## Histories of markup and clear calls -/

/-- The instruction objects that the `CVA6DynInstPtr`s handed to the
scoreboard point to, by address. The scoreboard reads an instruction through
its pointer and `markupInstDests` writes `flatDestRegIdx` through it, so every
call on the same address sees the record the last markup left there. -/
abbrev InstStore := Nat → CVA6DynInst

/-- The register that `markupInstDests` writes into `flatDestRegIdx[d]`: the
flattened destination when the scoreboard tracks it, the invalid register
otherwise. -/
def recordedDest (sb : Scoreboard) (isa : BaseISA) (inst : CVA6DynInst) (d : Nat) : RegId :=
  match sb.findIndex (isa.flatten (inst.staticInst.destRegIdx d)) with
  | some _ => isa.flatten (inst.staticInst.destRegIdx d)
  | none => RegId.invalid

/-- The states reached from the construction of the scoreboard: the
scoreboard, the instruction objects, and the markups that are not cleared yet
(the address of the instruction and the flag it was marked with). A call of
`markupInstDests` on the object at address `p` is allowed when `ok` holds of
it, and leaves its record in that object; a call of `clearInstDests` takes one
of the outstanding markups, with its flag, and reads the object as it is then.
The objects are changed by these calls only. -/
inductive Reachable (ok : Scoreboard → InstStore → List (Nat × Bool) → BaseISA → Nat → Prop) :
    Scoreboard → InstStore → List (Nat × Bool) → Prop where
  | fresh (reg_classes : RegClasses) (store : InstStore) :
      Reachable ok (Scoreboard.new reg_classes) store []
  | markup {sb : Scoreboard} {store : InstStore} {out : List (Nat × Bool)} (p : Nat)
      (retire_time : Nat) (isa : BaseISA) (flag : Bool) :
      Reachable ok sb store out → ok sb store out isa p →
      Reachable ok (sb.markupInstDests (store p) retire_time isa flag).1
        (setAt store p (sb.markupInstDests (store p) retire_time isa flag).2)
        ((p, flag) :: out)
  | clear {sb : Scoreboard} {store : InstStore} {out : List (Nat × Bool)} (j : Nat) (p : Nat)
      (flag : Bool) :
      Reachable ok sb store out → out[j]? = some (p, flag) →
      Reachable ok (sb.clearInstDests (store p) flag) store (out.eraseIdx j)

/-- No condition on the calls of `markupInstDests`. -/
def anyMarkup : Scoreboard → InstStore → List (Nat × Bool) → BaseISA → Nat → Prop :=
  fun _ _ _ _ _ => True

/-- The calls of `markupInstDests` with an instruction that, unless it is a
fault, has an exec sequence number of at least 1 and keeps every writer count
within `Index`. -/
def numberedMarkup : Scoreboard → InstStore → List (Nat × Bool) → BaseISA → Nat → Prop :=
  fun sb store _ isa p =>
    (store p).isFault = false →
      1 ≤ (store p).id.execSeqNum ∧
        ∀ i, sb.numResults i + destOccurrences sb isa (store p) i < 65536

/-- The calls of `numberedMarkup` that, when an earlier markup of the same
instruction object is not cleared yet, write into `flatDestRegIdx` the
registers the object holds there already. -/
def settledMarkup : Scoreboard → InstStore → List (Nat × Bool) → BaseISA → Nat → Prop :=
  fun sb store out isa p =>
    numberedMarkup sb store out isa p ∧
      ((store p).isFault = false → (∃ flag, (p, flag) ∈ out) →
        ∀ d, d < (store p).staticInst.numDestRegs →
          recordedDest sb isa (store p) d = (store p).flatDestRegIdx d)

/-- The entry invariant of the scoreboard: a slot has no writer in flight
exactly when its return cycle and its writer are both 0. -/
def EntryInvariant (sb : Scoreboard) : Prop :=
  ∀ i, sb.numResults i = 0 ↔ (sb.returnCycle i = 0 ∧ sb.writingInst i = 0)

/-- How many times an outstanding markup occupies slot `i`, by the record its
instruction holds. -/
def recordedBy (sb : Scoreboard) (store : InstStore) (i : Nat) (p : Nat × Bool) : Nat :=
  if (store p.1).isFault then 0 else recordedOccurrences sb (store p.1) i

/-- How many times the outstanding markups occupy slot `i`. -/
def recordedTotal (sb : Scoreboard) (store : InstStore) (i : Nat) : List (Nat × Bool) → Nat
  | [] => 0
  | p :: out => recordedBy sb store i p + recordedTotal sb store i out

/-- What holds of slot `i` along a history of settled markups. -/
def SlotAccounted (sb : Scoreboard) (store : InstStore) (out : List (Nat × Bool)) (i : Nat) :
    Prop :=
  sb.numResults i = recordedTotal sb store i out ∧
    sb.numResults i < 65536 ∧
    sb.numUnpredictableResults i < 65536 ∧
    (sb.numResults i = 0 → sb.returnCycle i = 0 ∧ sb.writingInst i = 0) ∧
    (sb.numResults i ≠ 0 → sb.writingInst i ≠ 0)

/-! ## Concrete inputs -/

/-- A register file layout with 32 registers in every class. -/
def demoClasses : RegClasses := fun _ => 32

/-- An ISA whose registers are flat already. -/
def demoISA : BaseISA := { flatten := fun reg => reg }

/-- An instruction that reads integer register 3 and writes it twice. -/
def demoStatic : StaticInst :=
  { numDestRegs := 2
    destRegIdx := fun _ => { classValue := RegClassType.IntRegClass, index := 3 }
    numSrcRegs := 1
    srcRegIdx := fun _ => { classValue := RegClassType.IntRegClass, index := 3 } }

/-- A dynamic instance of `demoStatic`, not a fault, with exec sequence number
7, issued to functional unit 2. -/
def demoInst : CVA6DynInst :=
  { isFault := false
    staticInst := demoStatic
    id := { execSeqNum := 7 }
    fuIndex := 2
    flatDestRegIdx := fun _ => RegId.invalid }

/-- The fault variant of `demoInst`. -/
def demoFault : CVA6DynInst := { demoInst with isFault := true }

/-- The fresh scoreboard after `demoInst` was marked up as unpredictable with
retire cycle 10. -/
def demoMarked : Scoreboard × CVA6DynInst :=
  (Scoreboard.new demoClasses).markupInstDests demoInst 10 demoISA true

/-- The fresh scoreboard after `demoInst` was marked up as predictable with
retire cycle 10: integer register 3 has a writer in flight. -/
def demoPending : Scoreboard :=
  ((Scoreboard.new demoClasses).markupInstDests demoInst 10 demoISA false).1

/-- An instruction with exec sequence number 0 that writes integer register 1. -/
def zeroInst : CVA6DynInst :=
  { isFault := false
    staticInst :=
      { numDestRegs := 1
        destRegIdx := fun _ => { classValue := RegClassType.IntRegClass, index := 1 }
        numSrcRegs := 0
        srcRegIdx := fun _ => RegId.invalid }
    id := { execSeqNum := 0 }
    fuIndex := 0
    flatDestRegIdx := fun _ => RegId.invalid }

/-- An instruction with exec sequence number 1 that writes integer register 3. -/
def oneInst : CVA6DynInst :=
  { isFault := false
    staticInst :=
      { numDestRegs := 1
        destRegIdx := fun _ => { classValue := RegClassType.IntRegClass, index := 3 }
        numSrcRegs := 0
        srcRegIdx := fun _ => RegId.invalid }
    id := { execSeqNum := 1 }
    fuIndex := 0
    flatDestRegIdx := fun _ => RegId.invalid }

/-- An ISA that flattens every register to the next one of its class. -/
def shiftISA : BaseISA := { flatten := fun reg => { reg with index := reg.index + 1 } }

/-- Instruction objects that all hold `inst`. -/
def storeOf (inst : CVA6DynInst) : InstStore := fun _ => inst

/-- The fresh scoreboard after `n` markups with retire cycle 10, of the objects
at the addresses below `n`, which all hold `demoInst`; with the objects as the
markups leave them and the markups then outstanding. -/
def markupRepeated : Nat → Scoreboard × InstStore × List (Nat × Bool)
  | 0 => (Scoreboard.new demoClasses, storeOf demoInst, [])
  | n + 1 =>
    (((markupRepeated n).1.markupInstDests ((markupRepeated n).2.1 n) 10 demoISA false).1,
      setAt (markupRepeated n).2.1 n
        ((markupRepeated n).1.markupInstDests ((markupRepeated n).2.1 n) 10 demoISA false).2,
      (n, false) :: (markupRepeated n).2.2)

/-- The object at address 0, holding `oneInst`, marked up with `demoISA` and
again with `shiftISA`, and then cleared twice. -/
def markedTwice : Scoreboard × InstStore :=
  let sb0 := Scoreboard.new demoClasses
  let store0 := storeOf oneInst
  let m1 := sb0.markupInstDests (store0 0) 10 demoISA false
  let store1 := setAt store0 0 m1.2
  let m2 := m1.1.markupInstDests (store1 0) 11 shiftISA false
  let store2 := setAt store1 0 m2.2
  ((m2.1.clearInstDests (store2 0) false).clearInstDests (store2 0) false, store2)

/-- The object at address 0, holding `demoInst`, marked up with `demoISA` as
unpredictable with retire cycle 10 and again as predictable with retire cycle
12, and the first of the two markups then cleared. -/
def markedAgain : Scoreboard × InstStore :=
  let sb0 := Scoreboard.new demoClasses
  let store0 := storeOf demoInst
  let m1 := sb0.markupInstDests (store0 0) 10 demoISA true
  let store1 := setAt store0 0 m1.2
  let m2 := m1.1.markupInstDests (store1 0) 12 demoISA false
  let store2 := setAt store1 0 m2.2
  (m2.1.clearInstDests (store2 0) true, store2)

/-! ## Functional unit pipelines -/

/-- The operator `++` of `Cycles`, on the wrapped `uint64_t`. -/
def cyclesInc (c : Nat) : Nat := (c + 1) % 18446744073709551616

/-- The class `CVA6OpClassSet`: `capabilityList` holds one flag per op class,
the op class being given by its number. -/
structure CVA6OpClassSet where
  capabilityList : Nat → Bool

/-- The method `CVA6OpClassSet::provides`. -/
def CVA6OpClassSet.provides (set : CVA6OpClassSet) (op_class : Nat) : Bool :=
  set.capabilityList op_class

/-- The class `CVA6FUTiming` (the textual description and the latency
expression apart); the member `match` is written `match_`. -/
structure CVA6FUTiming where
  mask : Nat
  match_ : Nat
  suppress : Bool
  extraCommitLat : Nat
  extraAssumedLat : Nat
  srcRegsRelativeLats : List Nat
  opClasses : CVA6OpClassSet

/-- The method `CVA6FUTiming::provides`. -/
def CVA6FUTiming.provides (timing : CVA6FUTiming) (op_class : Nat) : Bool :=
  timing.opClasses.provides op_class

/-- The class `CVA6FU`, the description of a functional unit. -/
structure CVA6FU where
  opClasses : CVA6OpClassSet
  opLat : Nat
  issueLat : Nat
  cantForwardFromFUIndices : List Nat
  timings : List CVA6FUTiming

/-- Modelled from the spec: the part of `SelfStallingPipeline`
(`cpu/cva6/buffers.hh`, not among the sources) that `FUPipeline::advance`
reads: the member `stalled` ("blocked from advancing") and the result of
`alreadyPushed()` ("an instruction was inserted this cycle"). -/
structure FUPipelineBase where
  stalled : Bool
  alreadyPushed : Bool

/-- The members of `class FUPipeline` on top of its base; the cycle of
`timeSource.curCycle()` is an argument of the methods that read it. -/
structure FUPipeline where
  base : FUPipelineBase
  description : CVA6FU
  cantForwardFromFUIndices : List Bool
  nextInsertCycle : Nat

namespace FUPipeline

/-- The method `FUPipeline::cyclesBeforeInsert`. The difference is taken in
the branch where `curCycle` is at most `nextInsertCycle`. -/
def cyclesBeforeInsert (fu : FUPipeline) (curCycle : Nat) : Nat :=
  if fu.nextInsertCycle == 0 || decide (curCycle > fu.nextInsertCycle) then 0
  else fu.nextInsertCycle - curCycle

/-- The method `FUPipeline::canInsert`; it is declared `const`, so it is a
function of the state and the cycle. -/
def canInsert (fu : FUPipeline) (curCycle : Nat) : Bool :=
  fu.nextInsertCycle == 0 || decide (curCycle ≥ fu.nextInsertCycle)

/-- The method `FUPipeline::advance`. `baseAdvance` is
`FUPipelineBase::advance`, which is not among the sources. -/
def advance (baseAdvance : FUPipelineBase → FUPipelineBase) (fu : FUPipeline)
    (curCycle : Nat) : FUPipeline :=
  let was_stalled := fu.base.stalled
  let nextInsertCycle :=
    if fu.base.alreadyPushed then
      if fu.nextInsertCycle ≤ curCycle then cyclesAdd curCycle fu.description.issueLat
      else fu.nextInsertCycle
    else if was_stalled && fu.nextInsertCycle != 0 then cyclesInc fu.nextInsertCycle
    else fu.nextInsertCycle
  { fu with
    nextInsertCycle := nextInsertCycle
    base := baseAdvance fu.base }

/-- The `for` loop of `findTiming` over the timings not looked at yet. -/
def findTimingLoop (mach_inst op_class : Nat) : List CVA6FUTiming → Option CVA6FUTiming
  | [] => none
  | timing :: rest =>
    if timing.provides op_class && (mach_inst &&& timing.mask) == timing.match_ then
      some timing
    else findTimingLoop mach_inst op_class rest

/-- The method `FUPipeline::findTiming`, for an instruction with encoding
`mach_inst` (`inst->getEMI()`) and op class `op_class` (`inst->opClass()`);
`none` is the `NULL` result. -/
def findTiming (fu : FUPipeline) (mach_inst op_class : Nat) : Option CVA6FUTiming :=
  findTimingLoop mach_inst op_class fu.description.timings

end FUPipeline

/-- The override `timing` applies to an instruction with encoding `e` and op
class `o`: it provides `o`, and `e` under its mask is its match. -/
def timingApplies (timing : CVA6FUTiming) (e o : Nat) : Prop :=
  timing.opClasses.capabilityList o = true ∧ e &&& timing.mask = timing.match_

/-- A run of `k` cycles from cycle `c` on, in each of which the unit is stalled
and nothing is inserted when `advance` is called; between two calls the
description and the insert gate are left alone and the cycle goes up by one.
`fu` is the state at the first call, the last argument the state after the
last one. -/
inductive StalledRun (baseAdvance : FUPipelineBase → FUPipelineBase) :
    Nat → FUPipeline → Nat → FUPipeline → Prop where
  | done (fu : FUPipeline) (c : Nat) : StalledRun baseAdvance 0 fu c fu
  | cycle {k : Nat} {fu next last : FUPipeline} {c : Nat} :
      fu.base.stalled = true → fu.base.alreadyPushed = false →
      next.nextInsertCycle = (fu.advance baseAdvance c).nextInsertCycle →
      next.description = fu.description →
      StalledRun baseAdvance k next (c + 1) last →
      StalledRun baseAdvance (k + 1) fu c last

/-- A functional unit with issue latency 3 and no timing override. -/
def demoFU : CVA6FU :=
  { opClasses := { capabilityList := fun _ => true }
    opLat := 4
    issueLat := 3
    cantForwardFromFUIndices := []
    timings := [] }

/-- A pipeline of `demoFU` with insert gate `gate`, stalled or not, with or
without an instruction inserted this cycle. -/
def demoPipe (gate : Nat) (stalled pushed : Bool) : FUPipeline :=
  { base := { stalled := stalled, alreadyPushed := pushed }
    description := demoFU
    cantForwardFromFUIndices := []
    nextInsertCycle := gate }

/-! ## The pipeline -/

/-- The parameters of `BaseCVA6CPUParams` read by the constructor of
`Pipeline`; the delays are `Cycles`. -/
structure BaseCVA6CPUParams where
  enableIdling : Bool
  fetch1ToFetch2ForwardDelay : Nat
  fetch1ToFetch2BackwardDelay : Nat
  fetch2ToDecodeForwardDelay : Nat
  decodeToExecuteForwardDelay : Nat
  executeBranchDelay : Nat

/-- The enumeration `Pipeline::StageId` (its count `Num_StageId` apart). -/
inductive StageId where
  | CPUStageId
  | Fetch1StageId
  | Fetch2StageId
  | DecodeStageId
  | ExecuteStageId
  deriving DecidableEq, Repr

/-- The objects the pipeline owns or calls and whose code is not among the
sources (the CPU, the four stages, the five channels of `buffers.hh` and the
activity recorder), taken as parameters: `σ` is their joint state, and each
field is one of their methods as `Pipeline` calls it. -/
structure Collaborators (σ : Type) where
  cpuTick : σ → σ
  executeEvaluate : σ → σ
  decodeEvaluate : σ → σ
  fetch2Evaluate : σ → σ
  fetch1Evaluate : σ → σ
  f1ToF2Evaluate : σ → σ
  f2ToF1Evaluate : σ → σ
  f2ToDEvaluate : σ → σ
  dToEEvaluate : σ → σ
  eToF1Evaluate : σ → σ
  activityEvaluate : σ → σ
  activityActive : σ → Bool
  deactivateStage : StageId → σ → σ
  fetch1IsDrained : σ → Bool
  fetch2IsDrained : σ → Bool
  decodeIsDrained : σ → Bool
  executeIsDrained : σ → Bool
  f1ToF2Empty : σ → Bool
  f2ToF1Empty : σ → Bool
  f2ToDEmpty : σ → Bool
  dToEEmpty : σ → Bool
  eToF1Empty : σ → Bool
  executeDrain : σ → σ
  executeDrainResume : σ → σ
  wakeupFetch : Nat → σ → σ

/-- The members of `class Pipeline`. `parts` is the state of the objects it
owns; `running` is the flag of its base `Ticked`, which `stop()` clears;
`drainDoneSignals` counts the calls of `cpu.signalDrainDone()` made so far. -/
structure Pipeline (σ : Type) where
  parts : σ
  allow_idling : Bool
  needToSignalDrained : Bool
  running : Bool
  drainDoneSignals : Nat

/-- A fatal configuration error ended the construction. -/
def isFatal {ε α : Type} : Except ε α → Bool
  | Except.error _ => true
  | Except.ok _ => false

namespace Pipeline

/-- The constructor `Pipeline::Pipeline`: the four checks of its body, in
order, each ending in `fatal`. `parts` stands for the members built by the
initialiser list, whose constructors are not among the sources. -/
def new {σ : Type} (parts : σ) (params : BaseCVA6CPUParams) : Except String (Pipeline σ) :=
  if params.fetch1ToFetch2ForwardDelay < 1 then
    Except.error "fetch1ToFetch2ForwardDelay must be >= 1"
  else if params.fetch2ToDecodeForwardDelay < 1 then
    Except.error "fetch2ToDecodeForwardDelay must be >= 1"
  else if params.decodeToExecuteForwardDelay < 1 then
    Except.error "decodeToExecuteForwardDelay must be >= 1"
  else if params.executeBranchDelay < 1 then
    Except.error "executeBranchDelay must be >= 1"
  else
    Except.ok
      { parts := parts
        allow_idling := params.enableIdling
        needToSignalDrained := false
        running := false
        drainDoneSignals := 0 }

/-- The method `Pipeline::isDrained`. -/
def isDrained {σ : Type} (env : Collaborators σ) (p : Pipeline σ) : Bool :=
  let fetch1_drained := env.fetch1IsDrained p.parts
  let fetch2_drained := env.fetch2IsDrained p.parts
  let decode_drained := env.decodeIsDrained p.parts
  let execute_drained := env.executeIsDrained p.parts
  let f1_to_f2_drained := env.f1ToF2Empty p.parts
  let f2_to_f1_drained := env.f2ToF1Empty p.parts
  let f2_to_d_drained := env.f2ToDEmpty p.parts
  let d_to_e_drained := env.dToEEmpty p.parts
  fetch1_drained && fetch2_drained && decode_drained && execute_drained &&
    f1_to_f2_drained && f2_to_f1_drained && f2_to_d_drained && d_to_e_drained

/-- The first part of `Pipeline::evaluate`: the tick of the CPU, the four
stages from execute back to fetch1, the five channels, the activity
recorder. -/
def evaluateStages {σ : Type} (env : Collaborators σ) (p : Pipeline σ) : Pipeline σ :=
  { p with
    parts :=
      env.activityEvaluate
        (env.eToF1Evaluate
          (env.dToEEvaluate
            (env.f2ToDEvaluate
              (env.f2ToF1Evaluate
                (env.f1ToF2Evaluate
                  (env.fetch1Evaluate
                    (env.fetch2Evaluate
                      (env.decodeEvaluate
                        (env.executeEvaluate (env.cpuTick p.parts)))))))))) }

/-- The part of `Pipeline::evaluate` under `if (allow_idling)`: stop when the
activity recorder is not active and no drain is pending, then deactivate the
five stages. -/
def idleBlock {σ : Type} (env : Collaborators σ) (p : Pipeline σ) : Pipeline σ :=
  if p.allow_idling then
    { p with
      running :=
        if !env.activityActive p.parts && !p.needToSignalDrained then false else p.running
      parts :=
        env.deactivateStage StageId.ExecuteStageId
          (env.deactivateStage StageId.DecodeStageId
            (env.deactivateStage StageId.Fetch2StageId
              (env.deactivateStage StageId.Fetch1StageId
                (env.deactivateStage StageId.CPUStageId p.parts)))) }
  else p

/-- The part of `Pipeline::evaluate` under `if (needToSignalDrained)`. -/
def drainBlock {σ : Type} (env : Collaborators σ) (p : Pipeline σ) : Pipeline σ :=
  if p.needToSignalDrained then
    if p.isDrained env then
      { p with
        drainDoneSignals := p.drainDoneSignals + 1
        needToSignalDrained := false
        running := false }
    else p
  else p

/-- The method `Pipeline::evaluate`. -/
def evaluate {σ : Type} (env : Collaborators σ) (p : Pipeline σ) : Pipeline σ :=
  drainBlock env (idleBlock env (evaluateStages env p))

/-- The method `Pipeline::drain`: the returned flag and the new state. -/
def drain {σ : Type} (env : Collaborators σ) (p : Pipeline σ) : Bool × Pipeline σ :=
  let p1 := { p with parts := env.executeDrain p.parts }
  let drained := p1.isDrained env
  (drained, { p1 with needToSignalDrained := !drained })

/-- The `for` loop of `Pipeline::drainResume` over the thread ids, with `n`
iterations left. -/
def wakeupLoop {σ : Type} (env : Collaborators σ) : Nat → Nat → σ → σ
  | 0, _, parts => parts
  | n + 1, tid, parts => wakeupLoop env n (tid + 1) (env.wakeupFetch tid parts)

/-- The method `Pipeline::drainResume`, for `cpu.numThreads` threads: it wakes
the fetch of every thread and resumes execute, and writes no member of
`Pipeline` itself. -/
def drainResume {σ : Type} (env : Collaborators σ) (numThreads : Nat) (p : Pipeline σ) :
    Pipeline σ :=
  { p with parts := env.executeDrainResume (wakeupLoop env numThreads 0 p.parts) }

end Pipeline

/-- The state of stages and channels in the examples: the number of
instructions still in execute, and whether branch data is in the channel from
execute to fetch1. -/
structure DemoParts where
  inFlight : Nat
  branchInFlight : Bool

/-- Stages and channels for the examples: each evaluation of execute retires
one instruction, execute is drained when none is left, the channel from
execute to fetch1 is empty when no branch data is in it, and everything else
is always drained and empty. -/
def demoEnv : Collaborators DemoParts :=
  { cpuTick := fun s => s
    executeEvaluate := fun s => { s with inFlight := s.inFlight - 1 }
    decodeEvaluate := fun s => s
    fetch2Evaluate := fun s => s
    fetch1Evaluate := fun s => s
    f1ToF2Evaluate := fun s => s
    f2ToF1Evaluate := fun s => s
    f2ToDEvaluate := fun s => s
    dToEEvaluate := fun s => s
    eToF1Evaluate := fun s => s
    activityEvaluate := fun s => s
    activityActive := fun s => s.inFlight != 0
    deactivateStage := fun _ s => s
    fetch1IsDrained := fun _ => true
    fetch2IsDrained := fun _ => true
    decodeIsDrained := fun _ => true
    executeIsDrained := fun s => s.inFlight == 0
    f1ToF2Empty := fun _ => true
    f2ToF1Empty := fun _ => true
    f2ToDEmpty := fun _ => true
    dToEEmpty := fun _ => true
    eToF1Empty := fun s => !s.branchInFlight
    executeDrain := fun s => s
    executeDrainResume := fun s => s
    wakeupFetch := fun _ s => s }

/-- A running pipeline over `demoEnv` with no drain pending. -/
def demoPipeline (inFlight : Nat) (branchInFlight : Bool) : Pipeline DemoParts :=
  { parts := { inFlight := inFlight, branchInFlight := branchInFlight }
    allow_idling := true
    needToSignalDrained := false
    running := true
    drainDoneSignals := 0 }

/-- Parameters with every delay at 1 except the backward delay from fetch2 to
fetch1, which is 0. -/
def demoParams : BaseCVA6CPUParams :=
  { enableIdling := true
    fetch1ToFetch2ForwardDelay := 1
    fetch1ToFetch2BackwardDelay := 0
    fetch2ToDecodeForwardDelay := 1
    decodeToExecuteForwardDelay := 1
    executeBranchDelay := 1 }

/-! ## Vocabulary of the register layout -/

/-- The number of registers of the seven classes the scoreboard tracks. -/
def totalRegs (reg_classes : RegClasses) : Nat :=
  reg_classes RegClassType.IntRegClass + reg_classes RegClassType.FloatRegClass +
    reg_classes RegClassType.CCRegClass + reg_classes RegClassType.VecRegClass +
    reg_classes RegClassType.VecElemClass + reg_classes RegClassType.VecPredRegClass +
    reg_classes RegClassType.MatRegClass

/-- A register of a tracked class whose index is below the size of its class. -/
def validReg (reg_classes : RegClasses) (reg : RegId) : Prop :=
  reg.classValue ≠ RegClassType.MiscRegClass ∧
    reg.classValue ≠ RegClassType.InvalidRegClass ∧
    reg.index < reg_classes reg.classValue

/-- The first slot of each tracked class in the order of the constructor:
integer, float, condition code, vector, vector element, vector predicate,
matrix. -/
def layoutOffset (reg_classes : RegClasses) : RegClassType → Nat
  | RegClassType.IntRegClass => 0
  | RegClassType.FloatRegClass => reg_classes RegClassType.IntRegClass
  | RegClassType.CCRegClass =>
    reg_classes RegClassType.IntRegClass + reg_classes RegClassType.FloatRegClass
  | RegClassType.VecRegClass =>
    reg_classes RegClassType.IntRegClass + reg_classes RegClassType.FloatRegClass +
      reg_classes RegClassType.CCRegClass
  | RegClassType.VecElemClass =>
    reg_classes RegClassType.IntRegClass + reg_classes RegClassType.FloatRegClass +
      reg_classes RegClassType.CCRegClass + reg_classes RegClassType.VecRegClass
  | RegClassType.VecPredRegClass =>
    reg_classes RegClassType.IntRegClass + reg_classes RegClassType.FloatRegClass +
      reg_classes RegClassType.CCRegClass + reg_classes RegClassType.VecRegClass +
      reg_classes RegClassType.VecElemClass
  | RegClassType.MatRegClass =>
    reg_classes RegClassType.IntRegClass + reg_classes RegClassType.FloatRegClass +
      reg_classes RegClassType.CCRegClass + reg_classes RegClassType.VecRegClass +
      reg_classes RegClassType.VecElemClass + reg_classes RegClassType.VecPredRegClass
  | RegClassType.MiscRegClass => 0
  | RegClassType.InvalidRegClass => 0

/-- A register file with 32 integer, 32 float and 6 condition-code registers
and no other tracked register. -/
def ccClasses : RegClasses := fun c =>
  match c with
  | RegClassType.IntRegClass => 32
  | RegClassType.FloatRegClass => 32
  | RegClassType.CCRegClass => 6
  | _ => 0

/-! ## The execution context -/

/-- A `Fault`: `none` is `NoFault`. -/
abbrev Fault := Option String

/-- The class `ExecContext`: `state` stands for the objects it refers to (the
CPU, the thread, the execute stage and the instruction). A method that can
end in `panic` returns the message as an error. -/
structure ExecContext (τ : Type) where
  state : τ

namespace ExecContext

/-- The method `ExecContext::initiateMemMgmtCmd`. -/
def initiateMemMgmtCmd {τ : Type} (_ctx : ExecContext τ) (_flags : Nat) : Except String Fault :=
  Except.error "ExecContext::initiateMemMgmtCmd() not implemented  on CVA6CPU"

/-- The method `ExecContext::getHtmTransactionUid`. -/
def getHtmTransactionUid {τ : Type} (_ctx : ExecContext τ) : Except String Nat :=
  Except.error "ExecContext::getHtmTransactionUid() notimplemented on CVA6CPU"

/-- The method `ExecContext::newHtmTransactionUid`. -/
def newHtmTransactionUid {τ : Type} (_ctx : ExecContext τ) : Except String Nat :=
  Except.error "ExecContext::newHtmTransactionUid() notimplemented on CVA6CPU"

/-- The method `ExecContext::inHtmTransactionalState`: there is no `panic` in
it, it returns false. -/
def inHtmTransactionalState {τ : Type} (_ctx : ExecContext τ) : Except String Bool :=
  Except.ok false

/-- The method `ExecContext::getHtmTransactionalDepth`. -/
def getHtmTransactionalDepth {τ : Type} (_ctx : ExecContext τ) : Except String Nat :=
  Except.error "ExecContext::getHtmTransactionalDepth() notimplemented on CVA6CPU"

end ExecContext

/-! ## Thread priorities -/

/-- The `for` loop of `CVA6CPU::roundRobinPriority`, with `n` iterations left,
`i` the loop variable and `prio_list` the list built so far. -/
def roundRobinLoop (numThreads priority : Nat) : Nat → Nat → List Nat → List Nat
  | 0, _, prio_list => prio_list
  | n + 1, i, prio_list =>
    roundRobinLoop numThreads priority n (i + 1) (prio_list ++ [(priority + i) % numThreads])

/-- The method `CVA6CPU::roundRobinPriority` of a CPU with `numThreads`
threads: `i` runs from 1 to `numThreads`. -/
def roundRobinPriority (numThreads priority : Nat) : List Nat :=
  roundRobinLoop numThreads priority numThreads 1 []

/-! ## The cannot-forward set of a functional unit -/

/-- The method `std::vector<bool>::resize(n, value)`: a longer vector is cut
down to its first `n` bits, a shorter one is filled up with `value`. -/
def resizeBits (bits : List Bool) (n : Nat) (value : Bool) : List Bool :=
  if n ≤ bits.length then bits.take n else bits ++ List.replicate (n - bits.length) value

namespace FUPipeline

/-- The last `for` loop of the constructor of `FUPipeline`, over the configured
indices not looked at yet: `resize((*i) + 1, false)`, the sum taken at type
`unsigned`, then the assignment of `true` at `*i`. -/
def cantForwardLoop : List Nat → List Bool → List Bool
  | [], bits => bits
  | i :: rest, bits =>
    cantForwardLoop rest ((resizeBits bits (toUnsigned (i + 1)) false).set i true)

/-- The constructor `FUPipeline::FUPipeline`: `base` is the pipeline built by
the constructor of `FUPipelineBase`; the capabilities set up for `FuncUnit`
are no member of the model. -/
def new (base : FUPipelineBase) (description : CVA6FU) : FUPipeline :=
  { base := base
    description := description
    cantForwardFromFUIndices := cantForwardLoop description.cantForwardFromFUIndices []
    nextInsertCycle := 0 }

end FUPipeline

/-! ## Forwarded instruction batches -/

/-- What a batch reads of its instruction handles (`CVA6DynInstPtr`, of
`dyn_inst.hh`, which is not among the sources): `isBubble()` of the
instruction a handle points to, and the handle `CVA6DynInst::bubble()`. -/
structure InstHandles (ι : Type) where
  isBubble : ι → Bool
  bubble : ι

/-- The members of `class ForwardInstData`: the array `insts`, the width
`numInsts` and the thread id. -/
structure ForwardInstData (ι : Type) where
  insts : Nat → ι
  numInsts : Nat
  threadId : Int

namespace ForwardInstData

/-- The `for` loop of `bubbleFill`, with `n` iterations left. -/
def bubbleFillLoop {ι : Type} (handles : InstHandles ι) : Nat → Nat → (Nat → ι) → (Nat → ι)
  | 0, _, insts => insts
  | n + 1, i, insts => bubbleFillLoop handles n (i + 1) (setAt insts i handles.bubble)

/-- The method `ForwardInstData::bubbleFill`. -/
def bubbleFill {ι : Type} (handles : InstHandles ι) (d : ForwardInstData ι) :
    ForwardInstData ι :=
  { d with insts := bubbleFillLoop handles d.numInsts 0 d.insts }

/-- The constructor `ForwardInstData(width, tid)`; `storage` is the array
`insts` as it is before the body runs. -/
def new {ι : Type} (handles : InstHandles ι) (storage : Nat → ι) (width : Nat) (tid : Int) :
    ForwardInstData ι :=
  bubbleFill handles { insts := storage, numInsts := width, threadId := tid }

/-- The `for` loop of `operator=`, with `n` iterations left. -/
def assignLoop {ι : Type} (src : Nat → ι) : Nat → Nat → (Nat → ι) → (Nat → ι)
  | 0, _, insts => insts
  | n + 1, i, insts => assignLoop src n (i + 1) (setAt insts i (src i))

/-- The operator `ForwardInstData::operator=`, assigning `src` to `dst`. -/
def assign {ι : Type} (dst src : ForwardInstData ι) : ForwardInstData ι :=
  { dst with
    numInsts := src.numInsts
    insts := assignLoop src.insts src.numInsts 0 dst.insts }

/-- The copy constructor, `*this = src`; `storage` is the new object as it is
before the body runs. -/
def copy {ι : Type} (storage src : ForwardInstData ι) : ForwardInstData ι :=
  assign storage src

/-- The method `ForwardInstData::isBubble`. -/
def isBubble {ι : Type} (handles : InstHandles ι) (d : ForwardInstData ι) : Bool :=
  d.numInsts == 0 || handles.isBubble (d.insts 0)

/-- The method `ForwardInstData::resize`; `none` when the assertion
`width < MAX_FORWARD_INSTS` fails. The bound is a constant of `pipe_data.hh`,
which is not among the sources. -/
def resize {ι : Type} (handles : InstHandles ι) (MAX_FORWARD_INSTS : Nat)
    (d : ForwardInstData ι) (width : Nat) : Option (ForwardInstData ι) :=
  if width < MAX_FORWARD_INSTS then some (bubbleFill handles { d with numInsts := width })
  else none

end ForwardInstData

/-- Instruction handles for the examples: a handle is a number, 0 is the
bubble and every other number is an instruction. -/
def demoHandles : InstHandles Nat :=
  { isBubble := fun i => i == 0
    bubble := 0 }

/-- A batch of width 1 for thread 1 that holds instruction 7 in every slot. -/
def demoBatch : ForwardInstData Nat :=
  { insts := fun _ => 7
    numInsts := 1
    threadId := 1 }

/-- A batch of width 0 for thread 0 with bubbles in every slot. -/
def demoEmptyBatch : ForwardInstData Nat :=
  { insts := fun _ => 0
    numInsts := 0
    threadId := 0 }

/-! ## Draining and resuming the CPU -/

/-- The values of `DrainState` that `CVA6CPU::drain` returns or starts from. -/
inductive DrainState where
  | Running
  | Draining
  | Drained
  deriving DecidableEq, Repr

/-- The part of `class CVA6CPU` that `drain` and `drainResume` work on: the
pipeline, the member `lastStopped` of the pipeline's base `Ticked`, the number
of threads, and `base`, the state of `BaseCPU`, of the system and of the
threads, whose code is not among the sources. -/
structure CVA6CPU (σ β : Type) where
  pipeline : Pipeline σ
  lastStopped : Nat
  numThreads : Nat
  base : β

/-- The methods `CVA6CPU::drain` and `CVA6CPU::drainResume` call on objects
whose code is not among the sources, taken as parameters. Activating a thread
can call back into the CPU, so it acts on the whole of it. -/
structure CPUCollaborators (σ β : Type) where
  stages : Collaborators σ
  switchedOut : β → Bool
  isTimingMode : β → Bool
  curCycle : β → Nat
  deschedulePowerGatingEvent : β → β
  schedulePowerGatingEvent : β → β
  threadSuspended : Nat → β → Bool
  threadActivate : Nat → CVA6CPU σ β → CVA6CPU σ β

namespace CVA6CPU

/-- The method `Ticked::resetLastStopped` as called on the pipeline. `Ticked`
is not among the sources: as its name and the comment at its call in
`drainResume` say, it resets `lastStopped`, to the current cycle. -/
def resetLastStopped {σ β : Type} (env : CPUCollaborators σ β) (cpu : CVA6CPU σ β) :
    CVA6CPU σ β :=
  { cpu with lastStopped := env.curCycle cpu.base }

/-- The method `CVA6CPU::wakeup`. -/
def wakeup {σ β : Type} (env : CPUCollaborators σ β) (tid : Nat) (cpu : CVA6CPU σ β) :
    CVA6CPU σ β :=
  if env.threadSuspended tid cpu.base then env.threadActivate tid cpu else cpu

/-- The `for` loop of `CVA6CPU::drainResume` over the thread ids, with `n`
iterations left. -/
def wakeupAll {σ β : Type} (env : CPUCollaborators σ β) :
    Nat → Nat → CVA6CPU σ β → CVA6CPU σ β
  | 0, _, cpu => cpu
  | n + 1, tid, cpu => wakeupAll env n (tid + 1) (wakeup env tid cpu)

/-- The method `CVA6CPU::drain`: the returned state and the CPU after it. -/
def drain {σ β : Type} (env : CPUCollaborators σ β) (cpu : CVA6CPU σ β) :
    DrainState × CVA6CPU σ β :=
  let cpu1 := { cpu with base := env.deschedulePowerGatingEvent cpu.base }
  if env.switchedOut cpu1.base then (DrainState.Drained, cpu1)
  else if (cpu1.pipeline.drain env.stages).1 then
    (DrainState.Drained, { cpu1 with pipeline := (cpu1.pipeline.drain env.stages).2 })
  else
    (DrainState.Draining, { cpu1 with pipeline := (cpu1.pipeline.drain env.stages).2 })

/-- The method `CVA6CPU::drainResume`; the error is its `fatal`. -/
def drainResume {σ β : Type} (env : CPUCollaborators σ β) (cpu : CVA6CPU σ β) :
    Except String (CVA6CPU σ β) :=
  let cpu1 := resetLastStopped env cpu
  if env.switchedOut cpu1.base then Except.ok cpu1
  else if !env.isTimingMode cpu1.base then
    Except.error "The CVA6 CPU requires the memory system to be in 'timing' mode."
  else
    let cpu2 := wakeupAll env cpu1.numThreads 0 cpu1
    let cpu3 :=
      { cpu2 with pipeline := cpu2.pipeline.drainResume env.stages cpu2.numThreads }
    Except.ok { cpu3 with base := env.schedulePowerGatingEvent cpu3.base }

end CVA6CPU

/-- The state of `BaseCPU` in the examples. -/
structure DemoBase where
  switchedOut : Bool
  timingMode : Bool
  cycle : Nat

/-- Stages as in `demoEnv`; power gating does nothing, every thread is
suspended and its activation starts the clock of the pipeline. -/
def demoCPUEnv : CPUCollaborators DemoParts DemoBase :=
  { stages := demoEnv
    switchedOut := fun b => b.switchedOut
    isTimingMode := fun b => b.timingMode
    curCycle := fun b => b.cycle
    deschedulePowerGatingEvent := fun b => b
    schedulePowerGatingEvent := fun b => b
    threadSuspended := fun _ _ => true
    threadActivate := fun _ cpu => { cpu with pipeline := { cpu.pipeline with running := true } } }

/-- A switched out CPU at cycle 7 whose pipeline last stopped at cycle 3. -/
def demoCPU : CVA6CPU DemoParts DemoBase :=
  { pipeline := { demoPipeline 0 false with running := false }
    lastStopped := 3
    numThreads := 1
    base := { switchedOut := true, timingMode := true, cycle := 7 } }

/-! ## Properties of the branch reasons -/

/-- C9: `isStreamChange reason` is false exactly for `NoBranch` and
`CorrectlyPredictedBranch`, over every value of `Reason`; it is true for each
of the seven other reasons. -/
theorem isStreamChange_false_iff :
    (∀ reason : BranchData.Reason,
      BranchData.isStreamChange reason = false ↔
        (reason = BranchData.Reason.NoBranch ∨
          reason = BranchData.Reason.CorrectlyPredictedBranch)) ∧
    BranchData.isStreamChange BranchData.Reason.UnpredictedBranch = true ∧
    BranchData.isStreamChange BranchData.Reason.BranchPrediction = true ∧
    BranchData.isStreamChange BranchData.Reason.BadlyPredictedBranch = true ∧
    BranchData.isStreamChange BranchData.Reason.BadlyPredictedBranchTarget = true ∧
    BranchData.isStreamChange BranchData.Reason.Interrupt = true ∧
    BranchData.isStreamChange BranchData.Reason.SuspendThread = true ∧
    BranchData.isStreamChange BranchData.Reason.HaltFetch = true := by
  refine ⟨?_, rfl, rfl, rfl, rfl, rfl, rfl, rfl⟩
  intro reason
  cases reason <;> simp [BranchData.isStreamChange]

/-- C10: `isBranch reason` is true exactly for the four branch reasons, over
every value of `Reason`; every branch reason is a stream change; and the
stream changes that are not branches are exactly `SuspendThread`, `Interrupt`
and `HaltFetch`. -/
theorem isBranch_true_iff :
    (∀ reason : BranchData.Reason,
      BranchData.isBranch reason = true ↔
        (reason = BranchData.Reason.UnpredictedBranch ∨
          reason = BranchData.Reason.BranchPrediction ∨
          reason = BranchData.Reason.BadlyPredictedBranch ∨
          reason = BranchData.Reason.BadlyPredictedBranchTarget)) ∧
    (∀ reason : BranchData.Reason,
      BranchData.isBranch reason = true → BranchData.isStreamChange reason = true) ∧
    (∀ reason : BranchData.Reason,
      (BranchData.isStreamChange reason = true ∧ BranchData.isBranch reason = false) ↔
        (reason = BranchData.Reason.SuspendThread ∨
          reason = BranchData.Reason.Interrupt ∨
          reason = BranchData.Reason.HaltFetch)) := by
  refine ⟨?_, ?_, ?_⟩ <;> intro reason <;> cases reason <;>
    simp [BranchData.isBranch, BranchData.isStreamChange]

/-! ## Issue gating -/

theorem cantForward_eq_true_iff (cf : Option (List Bool)) (f : Int) :
    Scoreboard.cantForward cf f = true ↔ setInCannotForward cf f := by
  unfold Scoreboard.cantForward setInCannotForward Scoreboard.invalidFUIndex
  cases cf with
  | none => simp
  | some v =>
    constructor
    · intro h
      simp only [Bool.and_eq_true, bne_iff_ne, ne_eq, decide_eq_true_eq] at h
      obtain ⟨_, ⟨h0, hlt⟩, hget⟩ := h
      refine ⟨v, f.toNat, rfl, (Int.toNat_of_nonneg h0).symm, ?_⟩
      rw [List.getD_eq_getElem?_getD] at hget
      rw [List.getElem?_eq_getElem hlt] at hget ⊢
      simpa using hget
    · rintro ⟨w, n, hw, hf, hn⟩
      cases hw
      subst hf
      have hlt : n < v.length := by
        rcases Nat.lt_or_ge n v.length with h | h
        · exact h
        · rw [List.getElem?_eq_none h] at hn
          cases hn
      simp only [Bool.and_eq_true, bne_iff_ne, ne_eq, decide_eq_true_eq, Int.toNat_ofNat]
      refine ⟨by omega, ⟨by omega, hlt⟩, ?_⟩
      rw [List.getD_eq_getElem?_getD, hn]
      rfl

theorem canIssueLoop_eq_true_iff (sb : Scoreboard) (isa : BaseISA) (inst : CVA6DynInst)
    (lat : Option (List Nat)) (cf : Option (List Bool)) (now : Nat) :
    ∀ (n k : Nat) (ret : Bool),
      Scoreboard.canIssueLoop sb isa inst lat cf now n k ret = true ↔
        (ret = true ∧
          ∀ j, k ≤ j → j < k + n → ∀ i, srcTrackedAt sb isa inst j i →
            sb.numUnpredictableResults i = 0 ∧
              sb.returnCycle i ≤
                cyclesAdd now (Scoreboard.relativeLatency lat cf j (sb.fuIndices i))) := by
  intro n
  induction n with
  | zero =>
    intro k ret
    simp only [Scoreboard.canIssueLoop]
    constructor
    · intro h
      exact ⟨h, fun j h1 h2 => by omega⟩
    · intro h
      exact h.1
  | succ n ih =>
    intro k ret
    cases ret with
    | false => simp [Scoreboard.canIssueLoop]
    | true =>
      simp only [Scoreboard.canIssueLoop, if_true, true_and]
      cases hfi : sb.findIndex (isa.flatten (inst.staticInst.srcRegIdx k)) with
      | none =>
        simp only [ih, true_and]
        constructor
        · intro h j h1 h2 i hi
          rcases Nat.eq_or_lt_of_le h1 with e | e
          · subst e
            unfold srcTrackedAt at hi
            rw [hfi] at hi
            cases hi
          · exact h j (by omega) (by omega) i hi
        · intro h j h1 h2 i hi
          exact h j (by omega) (by omega) i hi
      | some idx =>
        simp only
        split
        · rename_i hbad
          simp only [ih, Bool.false_eq_true, false_and, false_iff, not_forall]
          refine ⟨k, Nat.le_refl k, by omega, idx, hfi, ?_⟩
          intro hgood
          simp only [Bool.or_eq_true, decide_eq_true_eq, bne_iff_ne, ne_eq] at hbad
          rcases hbad with hb | hb
          · omega
          · exact hb hgood.1
        · rename_i hok
          simp only [Bool.or_eq_true, decide_eq_true_eq, bne_iff_ne, ne_eq, not_or,
            not_lt, not_not] at hok
          simp only [ih, true_and]
          constructor
          · intro h j h1 h2 i hi
            rcases Nat.eq_or_lt_of_le h1 with e | e
            · subst e
              unfold srcTrackedAt at hi
              rw [hfi] at hi
              cases hi
              exact ⟨hok.2, hok.1⟩
            · exact h j (by omega) (by omega) i hi
          · intro h j h1 h2 i hi
            exact h j (by omega) (by omega) i hi

/-- C2: for a non-fault instruction `canInstIssue` returns true exactly when
every tracked source register has no unpredictable writer and a return cycle
of at most `now` plus its effective relative latency (the sum taken at type
`Cycles`); so it returns false as soon as one tracked source register has an
unpredictable writer, whatever `now` and the latencies are. The loop stops at
the first failing source and its result is still `allSourcesReady`, the test
of all of them. -/
theorem canInstIssue_iff (sb : Scoreboard) (inst : CVA6DynInst) (lat : Option (List Nat))
    (cf : Option (List Bool)) (now : Nat) (isa : BaseISA) (hnf : inst.isFault = false) :
    (sb.canInstIssue inst lat cf now isa = true ↔
      ∀ k, k < inst.staticInst.numSrcRegs → ∀ i, srcTrackedAt sb isa inst k i →
        sb.numUnpredictableResults i = 0 ∧
          sb.returnCycle i ≤
            cyclesAdd now (Scoreboard.relativeLatency lat cf k (sb.fuIndices i))) ∧
    ((∃ k i, k < inst.staticInst.numSrcRegs ∧ srcTrackedAt sb isa inst k i ∧
        sb.numUnpredictableResults i ≠ 0) →
      ∀ (lat2 : Option (List Nat)) (cf2 : Option (List Bool)) (now2 : Nat),
        sb.canInstIssue inst lat2 cf2 now2 isa = false) ∧
    sb.canInstIssue inst lat cf now isa = allSourcesReady sb isa inst lat cf now := by
  have key : ∀ (l : Option (List Nat)) (c : Option (List Bool)) (t : Nat),
      sb.canInstIssue inst l c t isa = true ↔
        ∀ k, k < inst.staticInst.numSrcRegs → ∀ i, srcTrackedAt sb isa inst k i →
          sb.numUnpredictableResults i = 0 ∧
            sb.returnCycle i ≤
              cyclesAdd t (Scoreboard.relativeLatency l c k (sb.fuIndices i)) := by
    intro l c t
    unfold Scoreboard.canInstIssue
    rw [hnf]
    simp only [Bool.false_eq_true, if_false]
    rw [canIssueLoop_eq_true_iff]
    simp only [true_and, Nat.zero_add]
    constructor
    · intro h k hk i hi
      exact h k (Nat.zero_le k) hk i hi
    · intro h k _ hk i hi
      exact h k hk i hi
  refine ⟨key lat cf now, ?_, ?_⟩
  · rintro ⟨k, i, hk, hi, hne⟩ lat2 cf2 now2
    cases hc : sb.canInstIssue inst lat2 cf2 now2 isa with
    | false => rfl
    | true => exact absurd ((key lat2 cf2 now2).1 hc k hk i hi).1 hne
  · rw [Bool.eq_iff_iff, key lat cf now]
    unfold allSourcesReady
    rw [List.all_eq_true]
    constructor
    · intro h k hk
      rw [List.mem_range] at hk
      unfold sourceReady
      cases hfi : sb.findIndex (isa.flatten (inst.staticInst.srcRegIdx k)) with
      | none => rfl
      | some idx =>
        obtain ⟨hu, hr⟩ := h k hk idx hfi
        simp only [Bool.not_eq_true', Bool.or_eq_false_iff, decide_eq_false_iff_not, not_lt,
          bne_eq_false_iff_eq]
        exact ⟨hr, hu⟩
    · intro h k hk i hi
      have hready := h k (List.mem_range.2 hk)
      unfold srcTrackedAt at hi
      unfold sourceReady at hready
      rw [hi] at hready
      simp only [Bool.not_eq_true', Bool.or_eq_false_iff, decide_eq_false_iff_not, not_lt,
        bne_eq_false_iff_eq] at hready
      exact ⟨hready.2, hready.1⟩

/-- C3: the latency `canInstIssue` adds to `now` for the source register at
position `k` whose slot records the producing unit `f`. It is 0 when `f` is a
valid FU index set in the cannot-forward set; otherwise it is entry `k` of the
relative-latency list when `k` is within the list, the last entry when `k` is
at or beyond its length, and 0 without a list or with an empty one. Neither
the producer "none" (`invalidFUIndex`) nor an FU index at or beyond the size
of the cannot-forward set is in that set. -/
theorem relativeLatency_cases (lat : Option (List Nat)) (cf : Option (List Bool))
    (k : Nat) (f : Int) :
    (setInCannotForward cf f → Scoreboard.relativeLatency lat cf k f = 0) ∧
    (¬ setInCannotForward cf f → ∀ l, lat = some l → ∀ h : k < l.length,
      Scoreboard.relativeLatency lat cf k f = l[k]) ∧
    (¬ setInCannotForward cf f → ∀ l, lat = some l → l.length ≤ k → ∀ h : l ≠ [],
      Scoreboard.relativeLatency lat cf k f = l.getLast h) ∧
    (¬ setInCannotForward cf f → (lat = none ∨ lat = some []) →
      Scoreboard.relativeLatency lat cf k f = 0) ∧
    ¬ setInCannotForward cf Scoreboard.invalidFUIndex ∧
    (∀ v, cf = some v → (v.length : Int) ≤ f → ¬ setInCannotForward cf f) := by
  refine ⟨?_, ?_, ?_, ?_, ?_, ?_⟩
  · intro h
    have hc := (cantForward_eq_true_iff cf f).2 h
    simp [Scoreboard.relativeLatency, hc]
  · intro h l hl hk
    have hc : Scoreboard.cantForward cf f = false := by
      cases hb : Scoreboard.cantForward cf f with
      | false => rfl
      | true => exact absurd ((cantForward_eq_true_iff cf f).1 hb) h
    subst hl
    have hne : l.length ≠ 0 := by omega
    simp only [Scoreboard.relativeLatency, hc, Scoreboard.numRelativeLatencies, bne_iff_ne,
      ne_eq, hne, not_false_eq_true, if_true, Bool.false_eq_true, if_false, ge_iff_le]
    rw [if_neg (by omega)]
    rw [List.getD_eq_getElem?_getD, List.getElem?_eq_getElem hk]
    rfl
  · intro h l hl hk hne
    have hc : Scoreboard.cantForward cf f = false := by
      cases hb : Scoreboard.cantForward cf f with
      | false => rfl
      | true => exact absurd ((cantForward_eq_true_iff cf f).1 hb) h
    subst hl
    have hlen : l.length ≠ 0 := by
      intro h0
      exact hne (List.length_eq_zero.1 h0)
    simp only [Scoreboard.relativeLatency, hc, Scoreboard.numRelativeLatencies,
      Scoreboard.defaultRelativeLatency, bne_iff_ne, ne_eq, hlen, not_false_eq_true, if_true,
      Bool.false_eq_true, if_false, ge_iff_le]
    rw [if_pos hk]
    have hlt : l.length - 1 < l.length := by omega
    rw [List.getD_eq_getElem?_getD, List.getElem?_eq_getElem hlt, List.getLast_eq_getElem]
    rfl
  · intro h hl
    have hc : Scoreboard.cantForward cf f = false := by
      cases hb : Scoreboard.cantForward cf f with
      | false => rfl
      | true => exact absurd ((cantForward_eq_true_iff cf f).1 hb) h
    rcases hl with hl | hl <;> subst hl <;>
      simp [Scoreboard.relativeLatency, hc, Scoreboard.numRelativeLatencies,
        Scoreboard.defaultRelativeLatency]
  · rintro ⟨v, n, _, hf, _⟩
    unfold Scoreboard.invalidFUIndex at hf
    omega
  · rintro v hv hle ⟨w, n, hw, hf, hn⟩
    rw [hv] at hw
    cases hw
    have hlt : n < v.length := by
      rcases Nat.lt_or_ge n v.length with h | h
      · exact h
      · rw [List.getElem?_eq_none h] at hn
        cases hn
    omega

/-! ## Fault instructions -/

/-- C4: a fault instruction bypasses the scoreboard: `canInstIssue` returns
true whatever the entries hold, `execSeqNumToWaitFor` returns 0, and
`markupInstDests` and `clearInstDests` return the scoreboard (and the
instruction) as they were given. -/
theorem fault_bypasses_scoreboard (sb : Scoreboard) (inst : CVA6DynInst)
    (hf : inst.isFault = true) (lat : Option (List Nat)) (cf : Option (List Bool))
    (now retire_time : Nat) (isa : BaseISA) (flag : Bool) :
    sb.canInstIssue inst lat cf now isa = true ∧
    (sb.execSeqNumToWaitFor inst isa).1 = 0 ∧
    (sb.execSeqNumToWaitFor inst isa).2 = sb ∧
    sb.markupInstDests inst retire_time isa flag = (sb, inst) ∧
    sb.clearInstDests inst flag = sb := by
  simp [Scoreboard.canInstIssue, Scoreboard.execSeqNumToWaitFor, Scoreboard.markupInstDests,
    Scoreboard.clearInstDests, hf]

/-! ## The sequence number to wait for -/

theorem execSeqNumLoop_spec (sb : Scoreboard) (isa : BaseISA) (inst : CVA6DynInst) :
    ∀ (n k ret : Nat),
      ret ≤ Scoreboard.execSeqNumLoop sb isa inst n k ret ∧
      (∀ j, k ≤ j → j < k + n → ∀ i, srcTrackedAt sb isa inst j i →
        sb.writingInst i ≤ Scoreboard.execSeqNumLoop sb isa inst n k ret) ∧
      (Scoreboard.execSeqNumLoop sb isa inst n k ret = ret ∨
        ∃ j i, k ≤ j ∧ j < k + n ∧ srcTrackedAt sb isa inst j i ∧
          sb.writingInst i = Scoreboard.execSeqNumLoop sb isa inst n k ret) := by
  intro n
  induction n with
  | zero =>
    intro k ret
    refine ⟨Nat.le_refl _, fun j h1 h2 => by omega, Or.inl rfl⟩
  | succ n ih =>
    intro k ret
    simp only [Scoreboard.execSeqNumLoop]
    cases hfi : sb.findIndex (isa.flatten (inst.staticInst.srcRegIdx k)) with
    | none =>
      simp only
      obtain ⟨h1, h2, h3⟩ := ih (k + 1) ret
      refine ⟨h1, ?_, ?_⟩
      · intro j hj1 hj2 i hi
        rcases Nat.eq_or_lt_of_le hj1 with e | e
        · subst e
          unfold srcTrackedAt at hi
          rw [hfi] at hi
          cases hi
        · exact h2 j (by omega) (by omega) i hi
      · rcases h3 with h3 | ⟨j, i, a, b, c, d⟩
        · exact Or.inl h3
        · exact Or.inr ⟨j, i, by omega, by omega, c, d⟩
    | some idx =>
      simp only
      obtain ⟨h1, h2, h3⟩ :=
        ih (k + 1) (if sb.writingInst idx > ret then sb.writingInst idx else ret)
      have hmax : ret ≤ (if sb.writingInst idx > ret then sb.writingInst idx else ret) ∧
          sb.writingInst idx ≤ (if sb.writingInst idx > ret then sb.writingInst idx else ret) := by
        split <;> omega
      refine ⟨Nat.le_trans hmax.1 h1, ?_, ?_⟩
      · intro j hj1 hj2 i hi
        rcases Nat.eq_or_lt_of_le hj1 with e | e
        · subst e
          unfold srcTrackedAt at hi
          rw [hfi] at hi
          cases hi
          exact Nat.le_trans hmax.2 h1
        · exact h2 j (by omega) (by omega) i hi
      · rcases h3 with h3 | ⟨j, i, a, b, c, d⟩
        · by_cases hgt : sb.writingInst idx > ret
          · rw [if_pos hgt] at h3 ⊢
            exact Or.inr ⟨k, idx, Nat.le_refl k, by omega, hfi, h3.symm⟩
          · rw [if_neg hgt] at h3 ⊢
            exact Or.inl h3
        · exact Or.inr ⟨j, i, by omega, by omega, c, d⟩

/-- C6: for a non-fault instruction `execSeqNumToWaitFor` returns the maximum
of `writingInst` over the slots of its tracked source registers: it bounds
every one of them, it is the value of one of them unless it is 0, it is 0 when
no source register is tracked, and the scoreboard is left as it was. -/
theorem execSeqNumToWaitFor_is_max (sb : Scoreboard) (inst : CVA6DynInst) (isa : BaseISA)
    (hnf : inst.isFault = false) :
    (∀ k i, k < inst.staticInst.numSrcRegs → srcTrackedAt sb isa inst k i →
      sb.writingInst i ≤ (sb.execSeqNumToWaitFor inst isa).1) ∧
    ((sb.execSeqNumToWaitFor inst isa).1 = 0 ∨
      ∃ k i, k < inst.staticInst.numSrcRegs ∧ srcTrackedAt sb isa inst k i ∧
        sb.writingInst i = (sb.execSeqNumToWaitFor inst isa).1) ∧
    ((∀ k i, k < inst.staticInst.numSrcRegs → ¬ srcTrackedAt sb isa inst k i) →
      (sb.execSeqNumToWaitFor inst isa).1 = 0) ∧
    (sb.execSeqNumToWaitFor inst isa).2 = sb := by
  have hval : (sb.execSeqNumToWaitFor inst isa).1 =
      Scoreboard.execSeqNumLoop sb isa inst inst.staticInst.numSrcRegs 0 0 := by
    simp [Scoreboard.execSeqNumToWaitFor, hnf]
  obtain ⟨_, h2, h3⟩ := execSeqNumLoop_spec sb isa inst inst.staticInst.numSrcRegs 0 0
  rw [hval]
  refine ⟨?_, ?_, ?_, ?_⟩
  · intro k i hk hi
    exact h2 k (Nat.zero_le k) (by omega) i hi
  · rcases h3 with h3 | ⟨j, i, _, b, c, d⟩
    · exact Or.inl h3
    · exact Or.inr ⟨j, i, by omega, c, d⟩
  · intro hnone
    rcases h3 with h3 | ⟨j, i, _, b, c, _⟩
    · exact h3
    · exact absurd c (hnone j i (by omega))
  · simp [Scoreboard.execSeqNumToWaitFor, hnf]

/-! ## One slot of the scoreboard under markup and clear -/

theorem findIndex_congr (sb sb2 : Scoreboard)
    (h1 : sb2.floatRegOffset = sb.floatRegOffset) (h2 : sb2.ccRegOffset = sb.ccRegOffset)
    (h3 : sb2.vecRegOffset = sb.vecRegOffset) (h4 : sb2.vecRegElemOffset = sb.vecRegElemOffset)
    (h5 : sb2.vecPredRegOffset = sb.vecPredRegOffset) (h6 : sb2.matRegOffset = sb.matRegOffset)
    (reg : RegId) : sb2.findIndex reg = sb.findIndex reg := by
  unfold Scoreboard.findIndex
  rw [h1, h2, h3, h4, h5, h6]

theorem findIndex_markupDest (sb : Scoreboard) (inst : CVA6DynInst) (t : Nat) (flag : Bool)
    (idx : Nat) (reg : RegId) :
    (sb.markupDest inst t flag idx).findIndex reg = sb.findIndex reg := by
  apply findIndex_congr <;> unfold Scoreboard.markupDest <;> simp only <;> split <;> rfl

theorem findIndex_clearDest (sb : Scoreboard) (flag : Bool) (idx : Nat) (reg : RegId) :
    (sb.clearDest flag idx).findIndex reg = sb.findIndex reg := by
  apply findIndex_congr <;> unfold Scoreboard.clearDest <;> simp only <;> split <;> rfl

theorem findIndex_invalid (sb : Scoreboard) : sb.findIndex RegId.invalid = none := rfl

theorem slot_markupDest (sb : Scoreboard) (inst : CVA6DynInst) (t : Nat) (flag : Bool)
    (idx i : Nat) :
    (sb.markupDest inst t flag idx).slot i =
      if i = idx then slotMark inst.id.execSeqNum inst.fuIndex t flag (sb.slot i)
      else sb.slot i := by
  by_cases hi : i = idx
  · subst hi
    by_cases hgt : inst.id.execSeqNum > sb.writingInst i <;> cases flag <;>
      simp [Scoreboard.markupDest, Scoreboard.slot, slotMark, setAt, hgt]
  · by_cases hgt : inst.id.execSeqNum > sb.writingInst idx <;> cases flag <;>
      simp [Scoreboard.markupDest, Scoreboard.slot, setAt, hgt, hi]

theorem slot_clearDest (sb : Scoreboard) (flag : Bool) (idx i : Nat) :
    (sb.clearDest flag idx).slot i =
      if i = idx then slotClear flag (sb.slot i) else sb.slot i := by
  by_cases hi : i = idx
  · subst hi
    by_cases hz : decIndex (sb.numResults i) = 0 <;>
      by_cases hu : sb.numUnpredictableResults i = 0 <;> cases flag <;>
      simp [Scoreboard.clearDest, Scoreboard.slot, slotClear, setAt, hz, hu]
  · by_cases hz : decIndex (sb.numResults idx) = 0 <;>
      by_cases hu : sb.numUnpredictableResults idx = 0 <;> cases flag <;>
      simp [Scoreboard.clearDest, Scoreboard.slot, setAt, hz, hu, hi]

theorem occurrencesFrom_congr (sb sb2 : Scoreboard) (regs regs2 : Nat → RegId) (i : Nat) :
    ∀ (n k : Nat),
      (∀ j, k ≤ j → j < k + n → sb2.findIndex (regs2 j) = sb.findIndex (regs j)) →
      occurrencesFrom sb2 regs2 i n k = occurrencesFrom sb regs i n k := by
  intro n
  induction n with
  | zero => intro k _; rfl
  | succ n ih =>
    intro k h
    simp only [occurrencesFrom]
    rw [h k (Nat.le_refl k) (by omega), ih (k + 1) (fun j h1 h2 => h j (by omega) (by omega))]

theorem occurrencesFrom_pos (sb : Scoreboard) (regs : Nat → RegId) (i : Nat) :
    ∀ (n k d : Nat), k ≤ d → d < k + n → sb.findIndex (regs d) = some i →
      0 < occurrencesFrom sb regs i n k := by
  intro n
  induction n with
  | zero => intro k d h1 h2; omega
  | succ n ih =>
    intro k d h1 h2 hd
    simp only [occurrencesFrom]
    rcases Nat.eq_or_lt_of_le h1 with e | e
    · subst e
      rw [if_pos hd]
      omega
    · have := ih (k + 1) d (by omega) (by omega) hd
      omega

theorem iterate_slotMark (s : Nat) (f : Int) (t : Nat) (flag : Bool) (x : Slot) :
    ∀ m : Nat, 0 < m →
      ((slotMark s f t flag)^[m] x).numResults = (x.numResults + m) % 65536 ∧
      ((slotMark s f t flag)^[m] x).numUnpredictableResults =
        (if flag then (x.numUnpredictableResults + m) % 65536
          else x.numUnpredictableResults) ∧
      ((slotMark s f t flag)^[m] x).fuIndex = (if s > x.writingInst then f else x.fuIndex) ∧
      ((slotMark s f t flag)^[m] x).returnCycle = t ∧
      ((slotMark s f t flag)^[m] x).writingInst =
        (if s > x.writingInst then s else x.writingInst) := by
  intro m
  induction m with
  | zero => intro h; omega
  | succ m ih =>
    intro _
    rw [Function.iterate_succ_apply']
    rcases Nat.eq_zero_or_pos m with hm | hm
    · subst hm
      cases flag <;> simp [slotMark, incIndex]
    · obtain ⟨h1, h2, h3, h4, h5⟩ := ih hm
      refine ⟨?_, ?_, ?_, ?_, ?_⟩
      · simp only [slotMark, incIndex, h1]
        omega
      · cases flag
        · simpa [slotMark] using h2
        · simp only [slotMark, incIndex, if_true, h2]
          omega
      · simp only [slotMark, h3, h5]
        by_cases hgt : s > x.writingInst <;> simp [hgt]
      · simp [slotMark]
      · simp only [slotMark, h5]
        by_cases hgt : s > x.writingInst <;> simp [hgt]

theorem iterate_slotClear (flag : Bool) (x : Slot) (hN : x.numResults < 65536)
    (hU : x.numUnpredictableResults < 65536) :
    ∀ c : Nat, c ≤ x.numResults →
      ((slotClear flag)^[c] x).numResults = x.numResults - c ∧
      ((slotClear flag)^[c] x).numUnpredictableResults =
        (if flag then x.numUnpredictableResults - c else x.numUnpredictableResults) ∧
      ((0 < c ∧ x.numResults = c) →
        ((slotClear flag)^[c] x).fuIndex = Scoreboard.invalidFUIndex ∧
        ((slotClear flag)^[c] x).returnCycle = 0 ∧
        ((slotClear flag)^[c] x).writingInst = 0) ∧
      ((c = 0 ∨ c < x.numResults) →
        ((slotClear flag)^[c] x).fuIndex = x.fuIndex ∧
        ((slotClear flag)^[c] x).returnCycle = x.returnCycle ∧
        ((slotClear flag)^[c] x).writingInst = x.writingInst) := by
  intro c
  induction c with
  | zero =>
    intro _
    refine ⟨rfl, ?_, ?_, ?_⟩
    · cases flag <;> simp
    · intro h; omega
    · intro _; exact ⟨rfl, rfl, rfl⟩
  | succ c ih =>
    intro hc
    obtain ⟨h1, h2, _, h4⟩ := ih (by omega)
    obtain ⟨h4a, h4b, h4c⟩ := h4 (Or.inr (by omega))
    rw [Function.iterate_succ_apply']
    have hdec : decIndex ((slotClear flag)^[c] x).numResults = x.numResults - (c + 1) := by
      rw [h1]
      unfold decIndex
      omega
    refine ⟨?_, ?_, ?_, ?_⟩
    · simpa [slotClear] using hdec
    · cases flag
      · simpa [slotClear] using h2
      · simp only [if_true] at h2
        simp only [slotClear, Bool.true_and, bne_iff_ne, ne_eq, ite_not, h2, if_true]
        split
        · omega
        · unfold decIndex
          omega
    · rintro ⟨_, hx⟩
      have hz : decIndex ((slotClear flag)^[c] x).numResults = 0 := by
        rw [hdec]
        omega
      simp [slotClear, hz]
    · intro hlt
      have hz : decIndex ((slotClear flag)^[c] x).numResults ≠ 0 := by
        rw [hdec]
        omega
      simp [slotClear, hz, h4a, h4b, h4c]

theorem iterate_slotClear_wrapped (flag : Bool) :
    ∀ (c : Nat) (y : Slot), 0 < c → y.numResults % 65536 = c % 65536 →
      ((slotClear flag)^[c] y).numResults = 0 ∧
      ((slotClear flag)^[c] y).fuIndex = Scoreboard.invalidFUIndex ∧
      ((slotClear flag)^[c] y).returnCycle = 0 ∧
      ((slotClear flag)^[c] y).writingInst = 0 := by
  intro c
  induction c with
  | zero => intro y h; omega
  | succ c ih =>
    intro y _ hy
    rw [Function.iterate_succ_apply]
    rcases Nat.eq_zero_or_pos c with hc | hc
    · subst hc
      have hz : decIndex y.numResults = 0 := by
        unfold decIndex
        omega
      simp [slotClear, hz]
    · apply ih (slotClear flag y) hc
      simp only [slotClear, decIndex]
      omega

/-! ## The loops of markup and clear, slot by slot -/

theorem markupLoop_findIndex (isa : BaseISA) (t : Nat) (flag : Bool) (reg : RegId) :
    ∀ (n k : Nat) (sb : Scoreboard) (inst : CVA6DynInst),
      (Scoreboard.markupLoop isa t flag n k sb inst).1.findIndex reg = sb.findIndex reg := by
  intro n
  induction n with
  | zero => intro k sb inst; rfl
  | succ n ih =>
    intro k sb inst
    simp only [Scoreboard.markupLoop]
    cases hfi : sb.findIndex (isa.flatten (inst.staticInst.destRegIdx k)) with
    | none => simp only [ih]
    | some idx => simp only [ih, findIndex_markupDest]

theorem markupLoop_inst (isa : BaseISA) (t : Nat) (flag : Bool) :
    ∀ (n k : Nat) (sb : Scoreboard) (inst : CVA6DynInst),
      (Scoreboard.markupLoop isa t flag n k sb inst).2.isFault = inst.isFault ∧
      (Scoreboard.markupLoop isa t flag n k sb inst).2.staticInst = inst.staticInst ∧
      (Scoreboard.markupLoop isa t flag n k sb inst).2.id = inst.id ∧
      (Scoreboard.markupLoop isa t flag n k sb inst).2.fuIndex = inst.fuIndex := by
  intro n
  induction n with
  | zero => intro k sb inst; exact ⟨rfl, rfl, rfl, rfl⟩
  | succ n ih =>
    intro k sb inst
    simp only [Scoreboard.markupLoop]
    cases hfi : sb.findIndex (isa.flatten (inst.staticInst.destRegIdx k)) with
    | none => exact ih _ _ _
    | some idx => exact ih _ _ _

theorem markupLoop_slot (isa : BaseISA) (t : Nat) (flag : Bool) (i : Nat) :
    ∀ (n k : Nat) (sb : Scoreboard) (inst : CVA6DynInst),
      (Scoreboard.markupLoop isa t flag n k sb inst).1.slot i =
        (slotMark inst.id.execSeqNum inst.fuIndex t flag)^[occurrencesFrom sb
          (fun d => isa.flatten (inst.staticInst.destRegIdx d)) i n k] (sb.slot i) := by
  intro n
  induction n with
  | zero => intro k sb inst; rfl
  | succ n ih =>
    intro k sb inst
    simp only [Scoreboard.markupLoop, occurrencesFrom]
    cases hfi : sb.findIndex (isa.flatten (inst.staticInst.destRegIdx k)) with
    | none =>
      simp only [ih]
      simp
    | some idx =>
      simp only [ih]
      rw [occurrencesFrom_congr sb (sb.markupDest inst t flag idx) _ _ i n (k + 1)
        (fun j _ _ => findIndex_markupDest sb inst t flag idx _)]
      rw [slot_markupDest]
      by_cases hi : i = idx
      · subst hi
        simp only [if_true]
        rw [Nat.add_comm 1, Function.iterate_succ_apply]
      · have hne : ¬ (some idx = some i) := by
          intro h
          cases h
          exact hi rfl
        simp only [if_neg hi, if_neg hne, Nat.zero_add]

theorem markupLoop_flat (isa : BaseISA) (t : Nat) (flag : Bool) (d : Nat) :
    ∀ (n k : Nat) (sb : Scoreboard) (inst : CVA6DynInst),
      (Scoreboard.markupLoop isa t flag n k sb inst).2.flatDestRegIdx d =
        if k ≤ d ∧ d < k + n then
          (match sb.findIndex (isa.flatten (inst.staticInst.destRegIdx d)) with
           | some _ => isa.flatten (inst.staticInst.destRegIdx d)
           | none => RegId.invalid)
        else inst.flatDestRegIdx d := by
  intro n
  induction n with
  | zero =>
    intro k sb inst
    simp only [Scoreboard.markupLoop]
    rw [if_neg (by omega)]
  | succ n ih =>
    intro k sb inst
    simp only [Scoreboard.markupLoop]
    cases hfi : sb.findIndex (isa.flatten (inst.staticInst.destRegIdx k)) with
    | none =>
      simp only [ih]
      by_cases hd : d = k
      · subst hd
        rw [if_neg (by omega), if_pos (by omega), hfi]
        simp [setAt]
      · by_cases hr : k + 1 ≤ d ∧ d < k + 1 + n
        · rw [if_pos hr, if_pos (by omega)]
        · rw [if_neg hr, if_neg (by omega)]
          simp [setAt, hd]
    | some idx =>
      simp only [ih, findIndex_markupDest]
      by_cases hd : d = k
      · subst hd
        rw [if_neg (by omega), if_pos (by omega), hfi]
        simp [setAt]
      · by_cases hr : k + 1 ≤ d ∧ d < k + 1 + n
        · rw [if_pos hr, if_pos (by omega)]
        · rw [if_neg hr, if_neg (by omega)]
          simp [setAt, hd]

theorem clearLoop_findIndex (inst : CVA6DynInst) (flag : Bool) (reg : RegId) :
    ∀ (n k : Nat) (sb : Scoreboard),
      (Scoreboard.clearLoop inst flag n k sb).findIndex reg = sb.findIndex reg := by
  intro n
  induction n with
  | zero => intro k sb; rfl
  | succ n ih =>
    intro k sb
    simp only [Scoreboard.clearLoop]
    cases hfi : sb.findIndex (inst.flatDestRegIdx k) with
    | none => simp only [ih]
    | some idx => simp only [ih, findIndex_clearDest]

theorem clearLoop_slot (inst : CVA6DynInst) (flag : Bool) (i : Nat) :
    ∀ (n k : Nat) (sb : Scoreboard),
      (Scoreboard.clearLoop inst flag n k sb).slot i =
        (slotClear flag)^[occurrencesFrom sb inst.flatDestRegIdx i n k] (sb.slot i) := by
  intro n
  induction n with
  | zero => intro k sb; rfl
  | succ n ih =>
    intro k sb
    simp only [Scoreboard.clearLoop, occurrencesFrom]
    cases hfi : sb.findIndex (inst.flatDestRegIdx k) with
    | none =>
      simp only [ih]
      simp
    | some idx =>
      simp only [ih]
      rw [occurrencesFrom_congr sb (sb.clearDest flag idx) _ _ i n (k + 1)
        (fun j _ _ => findIndex_clearDest sb flag idx _)]
      rw [slot_clearDest]
      by_cases hi : i = idx
      · subst hi
        simp only [if_true]
        rw [Nat.add_comm 1, Function.iterate_succ_apply]
      · have hne : ¬ (some idx = some i) := by
          intro h
          cases h
          exact hi rfl
        simp only [if_neg hi, if_neg hne, Nat.zero_add]

theorem occurrencesFrom_pos_iff (sb : Scoreboard) (regs : Nat → RegId) (i : Nat) :
    ∀ (n k : Nat),
      0 < occurrencesFrom sb regs i n k ↔
        ∃ d, k ≤ d ∧ d < k + n ∧ sb.findIndex (regs d) = some i := by
  intro n k
  constructor
  · induction n generalizing k with
    | zero => intro h; simp [occurrencesFrom] at h
    | succ n ih =>
      intro h
      simp only [occurrencesFrom] at h
      by_cases hk : sb.findIndex (regs k) = some i
      · exact ⟨k, Nat.le_refl k, by omega, hk⟩
      · rw [if_neg hk] at h
        obtain ⟨d, h1, h2, h3⟩ := ih (k + 1) (by omega)
        exact ⟨d, by omega, by omega, h3⟩
  · rintro ⟨d, h1, h2, h3⟩
    exact occurrencesFrom_pos sb regs i n k d h1 h2 h3

theorem recorded_after_markupLoop (isa : BaseISA) (t : Nat) (flag : Bool) (i n : Nat)
    (sb : Scoreboard) (inst : CVA6DynInst) :
    occurrencesFrom (Scoreboard.markupLoop isa t flag n 0 sb inst).1
        (Scoreboard.markupLoop isa t flag n 0 sb inst).2.flatDestRegIdx i n 0 =
      occurrencesFrom sb (fun d => isa.flatten (inst.staticInst.destRegIdx d)) i n 0 := by
  apply occurrencesFrom_congr
  intro j h1 h2
  rw [markupLoop_findIndex, markupLoop_flat, if_pos ⟨h1, h2⟩]
  cases hfi : sb.findIndex (isa.flatten (inst.staticInst.destRegIdx j)) with
  | none => exact findIndex_invalid sb
  | some idx => exact hfi

/-! ## Markup and clear -/

/-- C7: what `markupInstDests` leaves in slot `i` for a non-fault instruction
with exec sequence number `s`, FU index `f` and retire cycle `t`, where `m`
is the number of times `i` occurs among the tracked destinations. When `m` is
positive the writer count is increased by `m` (at type `Index`, so modulo
`2 ^ 16`; it is the plain sum when that fits), the return cycle is `t`, the
writer is the maximum of the old writer and `s`, the FU index is `f` when `s`
is strictly greater than the old writer and the old one otherwise, and the
unpredictable count is increased by `m` exactly when `mark_unpredictable` is
set. `m` is positive exactly when `i` is the slot of a tracked destination,
and a slot with `m = 0` is unchanged. -/
theorem markupInstDests_post (sb : Scoreboard) (inst : CVA6DynInst) (t : Nat) (isa : BaseISA)
    (flag : Bool) (i : Nat) (hnf : inst.isFault = false) :
    (0 < destOccurrences sb isa inst i →
      (sb.markupInstDests inst t isa flag).1.numResults i =
          (sb.numResults i + destOccurrences sb isa inst i) % 65536 ∧
        (sb.markupInstDests inst t isa flag).1.returnCycle i = t ∧
        (sb.markupInstDests inst t isa flag).1.writingInst i =
          max (sb.writingInst i) inst.id.execSeqNum ∧
        (sb.markupInstDests inst t isa flag).1.fuIndices i =
          (if inst.id.execSeqNum > sb.writingInst i then inst.fuIndex else sb.fuIndices i) ∧
        (sb.markupInstDests inst t isa flag).1.numUnpredictableResults i =
          (if flag then
            (sb.numUnpredictableResults i + destOccurrences sb isa inst i) % 65536
          else sb.numUnpredictableResults i)) ∧
    (0 < destOccurrences sb isa inst i →
      sb.numResults i + destOccurrences sb isa inst i < 65536 →
      (sb.markupInstDests inst t isa flag).1.numResults i =
        sb.numResults i + destOccurrences sb isa inst i) ∧
    (0 < destOccurrences sb isa inst i → flag = true →
      sb.numUnpredictableResults i + destOccurrences sb isa inst i < 65536 →
      (sb.markupInstDests inst t isa flag).1.numUnpredictableResults i =
        sb.numUnpredictableResults i + destOccurrences sb isa inst i) ∧
    (0 < destOccurrences sb isa inst i ↔
      ∃ d, d < inst.staticInst.numDestRegs ∧ destTrackedAt sb isa inst d i) ∧
    (destOccurrences sb isa inst i = 0 →
      (sb.markupInstDests inst t isa flag).1.numResults i = sb.numResults i ∧
        (sb.markupInstDests inst t isa flag).1.returnCycle i = sb.returnCycle i ∧
        (sb.markupInstDests inst t isa flag).1.writingInst i = sb.writingInst i ∧
        (sb.markupInstDests inst t isa flag).1.fuIndices i = sb.fuIndices i ∧
        (sb.markupInstDests inst t isa flag).1.numUnpredictableResults i =
          sb.numUnpredictableResults i) := by
  have hrun : sb.markupInstDests inst t isa flag =
      Scoreboard.markupLoop isa t flag inst.staticInst.numDestRegs 0 sb inst := by
    simp [Scoreboard.markupInstDests, hnf]
  have hslot := markupLoop_slot isa t flag i inst.staticInst.numDestRegs 0 sb inst
  rw [← hrun] at hslot
  have hpos : 0 < destOccurrences sb isa inst i →
      (sb.markupInstDests inst t isa flag).1.numResults i =
          (sb.numResults i + destOccurrences sb isa inst i) % 65536 ∧
        (sb.markupInstDests inst t isa flag).1.returnCycle i = t ∧
        (sb.markupInstDests inst t isa flag).1.writingInst i =
          max (sb.writingInst i) inst.id.execSeqNum ∧
        (sb.markupInstDests inst t isa flag).1.fuIndices i =
          (if inst.id.execSeqNum > sb.writingInst i then inst.fuIndex else sb.fuIndices i) ∧
        (sb.markupInstDests inst t isa flag).1.numUnpredictableResults i =
          (if flag then
            (sb.numUnpredictableResults i + destOccurrences sb isa inst i) % 65536
          else sb.numUnpredictableResults i) := by
    intro hm
    obtain ⟨h1, h2, h3, h4, h5⟩ :=
      iterate_slotMark inst.id.execSeqNum inst.fuIndex t flag (sb.slot i)
        (destOccurrences sb isa inst i) hm
    unfold destOccurrences at h1 h2 h3 h4 h5
    rw [← hslot] at h1 h2 h3 h4 h5
    refine ⟨h1, h4, ?_, h3, h2⟩
    have h5b : (sb.markupInstDests inst t isa flag).1.writingInst i =
        if inst.id.execSeqNum > sb.writingInst i then inst.id.execSeqNum
        else sb.writingInst i := h5
    rw [h5b]
    split <;> omega
  refine ⟨hpos, ?_, ?_, ?_, ?_⟩
  · intro hm hfit
    rw [(hpos hm).1]
    omega
  · intro hm hflag hfit
    rw [(hpos hm).2.2.2.2, if_pos hflag]
    omega
  · unfold destOccurrences destTrackedAt
    rw [occurrencesFrom_pos_iff]
    constructor
    · rintro ⟨d, _, h2, h3⟩
      exact ⟨d, by omega, h3⟩
    · rintro ⟨d, h2, h3⟩
      exact ⟨d, Nat.zero_le d, by omega, h3⟩
  · intro hm
    unfold destOccurrences at hm
    rw [hm] at hslot
    have hs : (sb.markupInstDests inst t isa flag).1.slot i = sb.slot i := hslot
    exact ⟨congrArg Slot.numResults hs, congrArg Slot.returnCycle hs,
      congrArg Slot.writingInst hs, congrArg Slot.fuIndex hs,
      congrArg Slot.numUnpredictableResults hs⟩

/-- C8: what `clearInstDests` leaves in slot `i` for a non-fault instruction
that was marked up, so that the writer count of `i` is at least the number `c`
of times `i` occurs among its recorded destinations. The writer count is
decremented `c` times; the unpredictable count is decremented `c` times, but
not below zero, when `clear_unpredictable` is set and is unchanged otherwise;
when the writer count reaches zero the return cycle and the writer are reset
to 0 and the FU index to `invalidFUIndex`; when it stays above zero they are
kept; and a slot that is no recorded tracked destination (`c = 0`) is
unchanged. -/
theorem clearInstDests_post (sb : Scoreboard) (inst : CVA6DynInst) (flag : Bool) (i : Nat)
    (hnf : inst.isFault = false)
    (hmarked : recordedOccurrences sb inst i ≤ sb.numResults i)
    (hN : sb.numResults i < 65536) (hU : sb.numUnpredictableResults i < 65536) :
    (sb.clearInstDests inst flag).numResults i =
      sb.numResults i - recordedOccurrences sb inst i ∧
    (sb.clearInstDests inst flag).numUnpredictableResults i =
      (if flag then sb.numUnpredictableResults i - recordedOccurrences sb inst i
        else sb.numUnpredictableResults i) ∧
    (0 < recordedOccurrences sb inst i → (sb.clearInstDests inst flag).numResults i = 0 →
      (sb.clearInstDests inst flag).returnCycle i = 0 ∧
        (sb.clearInstDests inst flag).writingInst i = 0 ∧
        (sb.clearInstDests inst flag).fuIndices i = Scoreboard.invalidFUIndex) ∧
    (0 < (sb.clearInstDests inst flag).numResults i →
      (sb.clearInstDests inst flag).returnCycle i = sb.returnCycle i ∧
        (sb.clearInstDests inst flag).writingInst i = sb.writingInst i ∧
        (sb.clearInstDests inst flag).fuIndices i = sb.fuIndices i) ∧
    (recordedOccurrences sb inst i = 0 →
      (sb.clearInstDests inst flag).returnCycle i = sb.returnCycle i ∧
        (sb.clearInstDests inst flag).writingInst i = sb.writingInst i ∧
        (sb.clearInstDests inst flag).fuIndices i = sb.fuIndices i) := by
  have hrun : sb.clearInstDests inst flag =
      Scoreboard.clearLoop inst flag inst.staticInst.numDestRegs 0 sb := by
    simp [Scoreboard.clearInstDests, hnf]
  have hslot := clearLoop_slot inst flag i inst.staticInst.numDestRegs 0 sb
  rw [← hrun] at hslot
  obtain ⟨h1, h2, h3, h4⟩ :=
    iterate_slotClear flag (sb.slot i) hN hU (recordedOccurrences sb inst i) hmarked
  unfold recordedOccurrences at h1 h2 h3 h4 hmarked
  rw [← hslot] at h1 h2 h3 h4
  have e1 : (sb.clearInstDests inst flag).numResults i =
      sb.numResults i - recordedOccurrences sb inst i := h1
  refine ⟨e1, h2, ?_, ?_, ?_⟩
  · intro hc hz
    rw [e1] at hz
    obtain ⟨a, b, c⟩ := h3 ⟨hc, by
      have : (sb.slot i).numResults = sb.numResults i := rfl
      unfold recordedOccurrences at hz hc
      omega⟩
    exact ⟨b, c, a⟩
  · intro hz
    rw [e1] at hz
    obtain ⟨a, b, c⟩ := h4 (Or.inr (by
      have : (sb.slot i).numResults = sb.numResults i := rfl
      unfold recordedOccurrences at hz
      omega))
    exact ⟨b, c, a⟩
  · intro hc
    obtain ⟨a, b, c⟩ := h4 (Or.inl hc)
    exact ⟨b, c, a⟩

/-- C1: the round trip of the scoreboard. For a non-fault instruction and a
slot `i` that a destination register of it is tracked in, with writer count 0
before (as in the fresh scoreboard), `markupInstDests` followed by
`clearInstDests` on the marked instruction with the same flag leaves
`numResults`, `returnCycle` and `writingInst` of `i` at 0, for every retire
cycle, both flags and any number of occurrences of the register. -/
theorem markup_clear_round_trip (sb : Scoreboard) (inst : CVA6DynInst) (t : Nat)
    (isa : BaseISA) (flag : Bool) (d i : Nat) (hnf : inst.isFault = false)
    (hd : d < inst.staticInst.numDestRegs) (hi : destTrackedAt sb isa inst d i)
    (h0 : sb.numResults i = 0) :
    ((sb.markupInstDests inst t isa flag).1.clearInstDests
        (sb.markupInstDests inst t isa flag).2 flag).numResults i = 0 ∧
    ((sb.markupInstDests inst t isa flag).1.clearInstDests
        (sb.markupInstDests inst t isa flag).2 flag).returnCycle i = 0 ∧
    ((sb.markupInstDests inst t isa flag).1.clearInstDests
        (sb.markupInstDests inst t isa flag).2 flag).writingInst i = 0 := by
  have hrun : sb.markupInstDests inst t isa flag =
      Scoreboard.markupLoop isa t flag inst.staticInst.numDestRegs 0 sb inst := by
    simp [Scoreboard.markupInstDests, hnf]
  rw [hrun]
  obtain ⟨hfault, hstatic, _, _⟩ :=
    markupLoop_inst isa t flag inst.staticInst.numDestRegs 0 sb inst
  have hm : 0 < occurrencesFrom sb (fun d => isa.flatten (inst.staticInst.destRegIdx d)) i
      inst.staticInst.numDestRegs 0 :=
    occurrencesFrom_pos sb _ i _ 0 d (Nat.zero_le d) (by omega) hi
  have hmark := markupLoop_slot isa t flag i inst.staticInst.numDestRegs 0 sb inst
  have hclear := clearLoop_slot
    (Scoreboard.markupLoop isa t flag inst.staticInst.numDestRegs 0 sb inst).2 flag i
    inst.staticInst.numDestRegs 0
    (Scoreboard.markupLoop isa t flag inst.staticInst.numDestRegs 0 sb inst).1
  rw [recorded_after_markupLoop] at hclear
  have hnr := (iterate_slotMark inst.id.execSeqNum inst.fuIndex t flag (sb.slot i) _ hm).1
  rw [← hmark] at hnr
  have hwrap := iterate_slotClear_wrapped flag _
    ((Scoreboard.markupLoop isa t flag inst.staticInst.numDestRegs 0 sb inst).1.slot i) hm
    (by
      rw [hnr]
      have : (sb.slot i).numResults = 0 := h0
      rw [this]
      omega)
  rw [← hclear] at hwrap
  have hcl : (Scoreboard.markupLoop isa t flag inst.staticInst.numDestRegs 0 sb inst).1.clearInstDests
      (Scoreboard.markupLoop isa t flag inst.staticInst.numDestRegs 0 sb inst).2 flag =
      Scoreboard.clearLoop
        (Scoreboard.markupLoop isa t flag inst.staticInst.numDestRegs 0 sb inst).2 flag
        inst.staticInst.numDestRegs 0
        (Scoreboard.markupLoop isa t flag inst.staticInst.numDestRegs 0 sb inst).1 := by
    simp [Scoreboard.clearInstDests, hfault, hstatic, hnf]
  rw [hcl]
  exact ⟨hwrap.1, hwrap.2.2.1, hwrap.2.2.2⟩

/-! ## The entry invariant along a history -/

theorem markupInstDests_findIndex (sb : Scoreboard) (inst : CVA6DynInst) (t : Nat)
    (isa : BaseISA) (flag : Bool) (reg : RegId) :
    (sb.markupInstDests inst t isa flag).1.findIndex reg = sb.findIndex reg := by
  unfold Scoreboard.markupInstDests
  split
  · rfl
  · exact markupLoop_findIndex isa t flag reg _ _ sb inst

theorem clearInstDests_findIndex (sb : Scoreboard) (inst : CVA6DynInst) (flag : Bool)
    (reg : RegId) : (sb.clearInstDests inst flag).findIndex reg = sb.findIndex reg := by
  unfold Scoreboard.clearInstDests
  split
  · rfl
  · exact clearLoop_findIndex inst flag reg _ _ sb

theorem markupInstDests_slot (sb : Scoreboard) (inst : CVA6DynInst) (t : Nat) (isa : BaseISA)
    (flag : Bool) (i : Nat) (hnf : inst.isFault = false) :
    (sb.markupInstDests inst t isa flag).1.slot i =
      (slotMark inst.id.execSeqNum inst.fuIndex t flag)^[destOccurrences sb isa inst i]
        (sb.slot i) := by
  have hrun : sb.markupInstDests inst t isa flag =
      Scoreboard.markupLoop isa t flag inst.staticInst.numDestRegs 0 sb inst := by
    simp [Scoreboard.markupInstDests, hnf]
  rw [hrun]
  exact markupLoop_slot isa t flag i inst.staticInst.numDestRegs 0 sb inst

theorem clearInstDests_slot (sb : Scoreboard) (inst : CVA6DynInst) (flag : Bool) (i : Nat)
    (hnf : inst.isFault = false) :
    (sb.clearInstDests inst flag).slot i =
      (slotClear flag)^[recordedOccurrences sb inst i] (sb.slot i) := by
  have hrun : sb.clearInstDests inst flag =
      Scoreboard.clearLoop inst flag inst.staticInst.numDestRegs 0 sb := by
    simp [Scoreboard.clearInstDests, hnf]
  rw [hrun]
  exact clearLoop_slot inst flag i inst.staticInst.numDestRegs 0 sb

theorem recorded_after_markup (sb : Scoreboard) (inst : CVA6DynInst) (t : Nat) (isa : BaseISA)
    (flag : Bool) (i : Nat) (hnf : inst.isFault = false) :
    (sb.markupInstDests inst t isa flag).2.isFault = false ∧
      recordedOccurrences (sb.markupInstDests inst t isa flag).1
        (sb.markupInstDests inst t isa flag).2 i = destOccurrences sb isa inst i := by
  have hrun : sb.markupInstDests inst t isa flag =
      Scoreboard.markupLoop isa t flag inst.staticInst.numDestRegs 0 sb inst := by
    simp [Scoreboard.markupInstDests, hnf]
  rw [hrun]
  obtain ⟨hfault, hstatic, _, _⟩ :=
    markupLoop_inst isa t flag inst.staticInst.numDestRegs 0 sb inst
  refine ⟨by rw [hfault, hnf], ?_⟩
  unfold recordedOccurrences destOccurrences
  rw [hstatic]
  exact recorded_after_markupLoop isa t flag i inst.staticInst.numDestRegs sb inst

theorem occurrencesFrom_le (sb : Scoreboard) (regs : Nat → RegId) (i : Nat) :
    ∀ (n k : Nat), occurrencesFrom sb regs i n k ≤ n := by
  intro n
  induction n with
  | zero => intro k; exact Nat.le_refl 0
  | succ n ih =>
    intro k
    simp only [occurrencesFrom]
    have := ih (k + 1)
    split <;> omega

theorem markupInstDests_inst (sb : Scoreboard) (inst : CVA6DynInst) (t : Nat) (isa : BaseISA)
    (flag : Bool) :
    (sb.markupInstDests inst t isa flag).2.isFault = inst.isFault ∧
      (sb.markupInstDests inst t isa flag).2.staticInst = inst.staticInst ∧
      (sb.markupInstDests inst t isa flag).2.id = inst.id ∧
      (sb.markupInstDests inst t isa flag).2.fuIndex = inst.fuIndex := by
  unfold Scoreboard.markupInstDests
  split
  · exact ⟨rfl, rfl, rfl, rfl⟩
  · exact markupLoop_inst isa t flag _ _ sb inst

theorem markupInstDests_record (sb : Scoreboard) (inst : CVA6DynInst) (t : Nat) (isa : BaseISA)
    (flag : Bool) (hnf : inst.isFault = false) (d : Nat)
    (hd : d < inst.staticInst.numDestRegs) :
    (sb.markupInstDests inst t isa flag).2.flatDestRegIdx d = recordedDest sb isa inst d := by
  have hrun : sb.markupInstDests inst t isa flag =
      Scoreboard.markupLoop isa t flag inst.staticInst.numDestRegs 0 sb inst := by
    simp [Scoreboard.markupInstDests, hnf]
  rw [hrun, markupLoop_flat, if_pos ⟨Nat.zero_le d, by omega⟩]
  rfl

theorem recordedBy_congr (sb sb2 : Scoreboard) (store : InstStore) (i : Nat) (q : Nat × Bool)
    (h : ∀ reg, sb2.findIndex reg = sb.findIndex reg) :
    recordedBy sb2 store i q = recordedBy sb store i q := by
  simp only [recordedBy, recordedOccurrences]
  rw [occurrencesFrom_congr sb sb2 _ _ i _ 0 (fun j _ _ => h _)]

theorem recordedTotal_congr (sb sb2 : Scoreboard) (store store2 : InstStore) (i : Nat) :
    ∀ out : List (Nat × Bool),
      (∀ q, q ∈ out → recordedBy sb2 store2 i q = recordedBy sb store i q) →
      recordedTotal sb2 store2 i out = recordedTotal sb store i out := by
  intro out
  induction out with
  | nil => intro _; rfl
  | cons p out ih =>
    intro h
    simp only [recordedTotal]
    rw [h p (List.mem_cons_self p out), ih (fun q hq => h q (List.mem_cons_of_mem p hq))]

theorem recordedTotal_eraseIdx (sb : Scoreboard) (store : InstStore) (i : Nat) :
    ∀ (out : List (Nat × Bool)) (j : Nat) (p : Nat × Bool),
      out[j]? = some p →
      recordedTotal sb store i out =
        recordedBy sb store i p + recordedTotal sb store i (out.eraseIdx j) := by
  intro out
  induction out with
  | nil => intro j p h; simp at h
  | cons q out ih =>
    intro j p h
    cases j with
    | zero =>
      simp only [List.getElem?_cons_zero, Option.some.injEq] at h
      subst h
      simp [recordedTotal]
    | succ j =>
      simp only [List.getElem?_cons_succ] at h
      simp only [List.eraseIdx_cons_succ, recordedTotal]
      rw [ih j p h]
      omega

theorem recordedBy_markup (sb : Scoreboard) (store : InstStore) (out : List (Nat × Bool))
    (p : Nat) (t : Nat) (isa : BaseISA) (flag : Bool) (i : Nat)
    (hsame : (store p).isFault = false → (∃ flag, (p, flag) ∈ out) →
      ∀ d, d < (store p).staticInst.numDestRegs →
        recordedDest sb isa (store p) d = (store p).flatDestRegIdx d)
    (q : Nat × Bool) (hq : q ∈ out) :
    recordedBy (sb.markupInstDests (store p) t isa flag).1
        (setAt store p (sb.markupInstDests (store p) t isa flag).2) i q =
      recordedBy sb store i q := by
  obtain ⟨a, b⟩ := q
  obtain ⟨hfault, hstatic, _, _⟩ := markupInstDests_inst sb (store p) t isa flag
  by_cases ha : a = p
  · subst ha
    have hst : setAt store a (sb.markupInstDests (store a) t isa flag).2 a =
        (sb.markupInstDests (store a) t isa flag).2 := by
      simp [setAt]
    simp only [recordedBy, hst, hfault]
    cases hf : (store a).isFault with
    | true => simp
    | false =>
      simp only [Bool.false_eq_true, if_false, recordedOccurrences, hstatic]
      apply occurrencesFrom_congr
      intro j _ hj
      rw [markupInstDests_findIndex,
        markupInstDests_record sb (store a) t isa flag hf j (by omega),
        hsame hf ⟨b, hq⟩ j (by omega)]
  · have hst : setAt store p (sb.markupInstDests (store p) t isa flag).2 a = store a := by
      simp [setAt, ha]
    simp only [recordedBy, hst, recordedOccurrences]
    rw [occurrencesFrom_congr sb (sb.markupInstDests (store p) t isa flag).1 _ _ i _ 0
      (fun j _ _ => markupInstDests_findIndex sb (store p) t isa flag _)]

theorem slotAccounted_markup (sb : Scoreboard) (store : InstStore) (out : List (Nat × Bool))
    (p : Nat) (t : Nat) (isa : BaseISA) (flag : Bool) (i : Nat)
    (hok : settledMarkup sb store out isa p) (h : SlotAccounted sb store out i) :
    SlotAccounted (sb.markupInstDests (store p) t isa flag).1
      (setAt store p (sb.markupInstDests (store p) t isa flag).2) ((p, flag) :: out) i := by
  obtain ⟨h1, h2, h3, h4, h5⟩ := h
  obtain ⟨hnum, hsame⟩ := hok
  have htot : recordedTotal (sb.markupInstDests (store p) t isa flag).1
      (setAt store p (sb.markupInstDests (store p) t isa flag).2) i out =
      recordedTotal sb store i out :=
    recordedTotal_congr sb _ store _ i out
      (fun q hq => recordedBy_markup sb store out p t isa flag i hsame q hq)
  obtain ⟨hfault, hstatic, _, _⟩ := markupInstDests_inst sb (store p) t isa flag
  have hst : setAt store p (sb.markupInstDests (store p) t isa flag).2 p =
      (sb.markupInstDests (store p) t isa flag).2 := by
    simp [setAt]
  cases hf : (store p).isFault with
  | true =>
    have hrun : (sb.markupInstDests (store p) t isa flag).1 = sb := by
      simp [Scoreboard.markupInstDests, hf]
    have hby : recordedBy (sb.markupInstDests (store p) t isa flag).1
        (setAt store p (sb.markupInstDests (store p) t isa flag).2) i (p, flag) = 0 := by
      simp only [recordedBy, hst, hfault, hf, if_true]
    unfold SlotAccounted
    simp only [recordedTotal, hby, htot, Nat.zero_add]
    rw [hrun]
    exact ⟨h1, h2, h3, h4, h5⟩
  | false =>
    obtain ⟨hs, hfit⟩ := hnum hf
    obtain ⟨_, hrec⟩ := recorded_after_markup sb (store p) t isa flag i hf
    have hslot := markupInstDests_slot sb (store p) t isa flag i hf
    have hby : recordedBy (sb.markupInstDests (store p) t isa flag).1
        (setAt store p (sb.markupInstDests (store p) t isa flag).2) i (p, flag) =
        destOccurrences sb isa (store p) i := by
      simp only [recordedBy, hst, hfault, hf, Bool.false_eq_true, if_false]
      exact hrec
    unfold SlotAccounted
    simp only [recordedTotal, hby, htot]
    rcases Nat.eq_zero_or_pos (destOccurrences sb isa (store p) i) with hm | hm
    · rw [hm] at hslot
      have hs2 : (sb.markupInstDests (store p) t isa flag).1.slot i = sb.slot i := hslot
      have e1 := congrArg Slot.numResults hs2
      have e2 := congrArg Slot.numUnpredictableResults hs2
      have e3 := congrArg Slot.returnCycle hs2
      have e4 := congrArg Slot.writingInst hs2
      simp only [Scoreboard.slot] at e1 e2 e3 e4
      rw [e1, e2, e3, e4, hm, Nat.zero_add]
      exact ⟨h1, h2, h3, h4, h5⟩
    · obtain ⟨a, b, _, _, e⟩ :=
        iterate_slotMark (store p).id.execSeqNum (store p).fuIndex t flag (sb.slot i) _ hm
      rw [← hslot] at a b e
      simp only [Scoreboard.slot] at a b e
      have hfit2 := hfit i
      have hnr : (sb.markupInstDests (store p) t isa flag).1.numResults i =
          sb.numResults i + destOccurrences sb isa (store p) i := by
        rw [a]
        omega
      refine ⟨by omega, by omega, ?_, ?_, ?_⟩
      · rw [b]
        split <;> omega
      · intro hz
        omega
      · intro _
        rw [e]
        split <;> omega

theorem slotAccounted_clear (sb : Scoreboard) (store : InstStore) (out : List (Nat × Bool))
    (j : Nat) (p : Nat) (flag : Bool) (i : Nat) (hget : out[j]? = some (p, flag))
    (h : SlotAccounted sb store out i) :
    SlotAccounted (sb.clearInstDests (store p) flag) store (out.eraseIdx j) i := by
  obtain ⟨h1, h2, h3, h4, h5⟩ := h
  have htot : recordedTotal (sb.clearInstDests (store p) flag) store i (out.eraseIdx j) =
      recordedTotal sb store i (out.eraseIdx j) :=
    recordedTotal_congr sb _ store store i _
      (fun q _ => recordedBy_congr sb _ store i q (clearInstDests_findIndex sb (store p) flag))
  have hsplit := recordedTotal_eraseIdx sb store i out j (p, flag) hget
  unfold SlotAccounted
  rw [htot]
  cases hf : (store p).isFault with
  | true =>
    have hrun : sb.clearInstDests (store p) flag = sb := by
      simp [Scoreboard.clearInstDests, hf]
    rw [hrun]
    simp only [recordedBy, hf, if_true, Nat.zero_add] at hsplit
    exact ⟨by omega, h2, h3, h4, h5⟩
  | false =>
    simp only [recordedBy, hf, Bool.false_eq_true, if_false] at hsplit
    have hslot := clearInstDests_slot sb (store p) flag i hf
    obtain ⟨a, b, c, d⟩ :=
      iterate_slotClear flag (sb.slot i) h2 h3 (recordedOccurrences sb (store p) i)
        (by
          have : (sb.slot i).numResults = sb.numResults i := rfl
          omega)
    rw [← hslot] at a b c d
    simp only [Scoreboard.slot] at a b c d
    refine ⟨by omega, by omega, ?_, ?_, ?_⟩
    · rw [b]
      split <;> omega
    · intro hz
      rcases Nat.eq_zero_or_pos (recordedOccurrences sb (store p) i) with hc | hc
      · obtain ⟨_, d2, d3⟩ := d (Or.inl hc)
        rw [d2, d3]
        exact h4 (by omega)
      · obtain ⟨_, c2, c3⟩ := c ⟨hc, by omega⟩
        exact ⟨c2, c3⟩
    · intro hnz
      obtain ⟨_, _, d3⟩ := d (Or.inr (by omega))
      rw [d3]
      exact h5 (by omega)

theorem reachable_slotAccounted (sb : Scoreboard) (store : InstStore)
    (out : List (Nat × Bool)) (h : Reachable settledMarkup sb store out) :
    ∀ i, SlotAccounted sb store out i := by
  induction h with
  | fresh reg_classes store =>
    intro i
    refine ⟨rfl, ?_, ?_, ?_, ?_⟩
    · show (0 : Nat) < 65536
      omega
    · show (0 : Nat) < 65536
      omega
    · intro _
      exact ⟨rfl, rfl⟩
    · intro hne
      exact absurd rfl hne
  | markup p t isa flag _ hok ih =>
    intro i
    exact slotAccounted_markup _ _ _ p t isa flag i hok (ih i)
  | clear j p flag _ hget ih =>
    intro i
    exact slotAccounted_clear _ _ _ j p flag i hget (ih i)

theorem markupRepeated_spec :
    ∀ n : Nat,
      Reachable anyMarkup (markupRepeated n).1 (markupRepeated n).2.1 (markupRepeated n).2.2 ∧
      (markupRepeated n).1.numResults 3 = (2 * n) % 65536 ∧
      (0 < n → (markupRepeated n).1.returnCycle 3 = 10) ∧
      (∀ q, n ≤ q → (markupRepeated n).2.1 q = demoInst) := by
  intro n
  induction n with
  | zero =>
    exact ⟨Reachable.fresh demoClasses (storeOf demoInst), rfl,
      fun h => absurd h (Nat.lt_irrefl 0), fun _ _ => rfl⟩
  | succ n ih =>
    obtain ⟨hr, hn, _, hst⟩ := ih
    have hobj := hst n (Nat.le_refl n)
    have hocc : destOccurrences (markupRepeated n).1 demoISA demoInst 3 = 2 := rfl
    have hslot := markupInstDests_slot (markupRepeated n).1 demoInst 10 demoISA false 3 rfl
    rw [hocc] at hslot
    obtain ⟨a, _, _, b, _⟩ :=
      iterate_slotMark demoInst.id.execSeqNum demoInst.fuIndex 10 false
        ((markupRepeated n).1.slot 3) 2 (by omega)
    rw [← hslot] at a b
    simp only [Scoreboard.slot] at a b
    refine ⟨Reachable.markup n 10 demoISA false hr trivial, ?_, fun _ => ?_, ?_⟩
    · show ((markupRepeated n).1.markupInstDests ((markupRepeated n).2.1 n) 10 demoISA
        false).1.numResults 3 = _
      rw [hobj, a, hn]
      omega
    · show ((markupRepeated n).1.markupInstDests ((markupRepeated n).2.1 n) 10 demoISA
        false).1.returnCycle 3 = _
      rw [hobj]
      exact b
    · intro q hq
      show setAt (markupRepeated n).2.1 n _ q = demoInst
      unfold setAt
      rw [if_neg (by omega)]
      exact hst q (by omega)

theorem numberedMarkup_of_small (sb : Scoreboard) (store : InstStore)
    (out : List (Nat × Bool)) (isa : BaseISA) (p b : Nat)
    (hseq : 1 ≤ (store p).id.execSeqNum) (hb : ∀ i, sb.numResults i ≤ b)
    (hsmall : b + (store p).staticInst.numDestRegs < 65536) :
    numberedMarkup sb store out isa p := by
  intro _
  refine ⟨hseq, fun i => ?_⟩
  have h := occurrencesFrom_le sb
    (fun d => isa.flatten ((store p).staticInst.destRegIdx d)) i
    (store p).staticInst.numDestRegs 0
  have h2 := hb i
  unfold destOccurrences
  omega

/-- C5, as stated, fails over histories of arbitrary markups, in both
directions. After one markup of `zeroInst` (exec sequence number 0) with
retire cycle 0, slot 1 has one writer while its return cycle and writer are
both 0. After 32768 markups of `demoInst`, which writes slot 3 twice, the
writer count of slot 3 has wrapped to 0 while its return cycle is 10. And with
numbered markups only: the object holding `oneInst` is marked up with
`demoISA` (slot 3) and again with `shiftISA` (slot 4), which overwrites its
record, so both clears of it go to slot 4 and leave there the writer count
65535 with return cycle 0 and writer 0, and in slot 3 the writer count 1. -/
theorem entry_invariant_fails :
    (Reachable anyMarkup ((Scoreboard.new demoClasses).markupInstDests zeroInst 0 demoISA false).1
        (setAt (storeOf zeroInst) 0
          ((Scoreboard.new demoClasses).markupInstDests zeroInst 0 demoISA false).2)
        [(0, false)] ∧
      ((Scoreboard.new demoClasses).markupInstDests zeroInst 0 demoISA false).1.numResults 1 = 1 ∧
      ((Scoreboard.new demoClasses).markupInstDests zeroInst 0 demoISA false).1.returnCycle 1 = 0 ∧
      ((Scoreboard.new demoClasses).markupInstDests zeroInst 0 demoISA false).1.writingInst 1 = 0 ∧
      ¬ EntryInvariant ((Scoreboard.new demoClasses).markupInstDests zeroInst 0 demoISA false).1) ∧
    (Reachable anyMarkup (markupRepeated 32768).1 (markupRepeated 32768).2.1
        (markupRepeated 32768).2.2 ∧
      (markupRepeated 32768).1.numResults 3 = 0 ∧
      (markupRepeated 32768).1.returnCycle 3 = 10 ∧
      ¬ EntryInvariant (markupRepeated 32768).1) ∧
    (Reachable numberedMarkup markedTwice.1 markedTwice.2 [] ∧
      markedTwice.1.numResults 4 = 65535 ∧
      markedTwice.1.returnCycle 4 = 0 ∧
      markedTwice.1.writingInst 4 = 0 ∧
      markedTwice.1.numResults 3 = 1 ∧
      ¬ EntryInvariant markedTwice.1) := by
  have hone : ((Scoreboard.new demoClasses).markupInstDests zeroInst 0 demoISA false).1.numResults 1
      = 1 := by decide
  have hrc : ((Scoreboard.new demoClasses).markupInstDests zeroInst 0 demoISA false).1.returnCycle 1
      = 0 := by decide
  have hwi : ((Scoreboard.new demoClasses).markupInstDests zeroInst 0 demoISA false).1.writingInst 1
      = 0 := by decide
  obtain ⟨hr, hn, ht, _⟩ := markupRepeated_spec 32768
  have hn0 : (markupRepeated 32768).1.numResults 3 = 0 := by
    rw [hn]
  have ht10 := ht (by omega)
  have h4n : markedTwice.1.numResults 4 = 65535 := by decide
  have h4r : markedTwice.1.returnCycle 4 = 0 := by decide
  have h4w : markedTwice.1.writingInst 4 = 0 := by decide
  have h3n : markedTwice.1.numResults 3 = 1 := by decide
  have hfirst : Reachable numberedMarkup
      ((Scoreboard.new demoClasses).markupInstDests (storeOf oneInst 0) 10 demoISA false).1
      (setAt (storeOf oneInst) 0
        ((Scoreboard.new demoClasses).markupInstDests (storeOf oneInst 0) 10 demoISA false).2)
      [(0, false)] :=
    Reachable.markup 0 10 demoISA false (Reachable.fresh demoClasses (storeOf oneInst))
      (numberedMarkup_of_small _ _ _ _ 0 0 (by decide) (fun i => Nat.le_of_eq rfl) (by decide))
  have hsecond := Reachable.markup 0 11 shiftISA false hfirst
    (numberedMarkup_of_small _ _ _ _ 0 1 (by decide)
      (fun i => by
        show setAt (fun _ => 0) 3 1 i ≤ 1
        simp only [setAt]
        split <;> omega)
      (by decide))
  have hthird := Reachable.clear 0 0 false (Reachable.clear 0 0 false hsecond rfl) rfl
  refine ⟨⟨Reachable.markup 0 0 demoISA false (Reachable.fresh demoClasses (storeOf zeroInst))
    trivial, hone, hrc, hwi, ?_⟩, ⟨hr, hn0, ht10, ?_⟩, hthird, h4n, h4r, h4w, h3n, ?_⟩
  · intro hinv
    have := (hinv 1).2 ⟨hrc, hwi⟩
    omega
  · intro hinv
    have := ((hinv 3).1 hn0).1
    omega
  · intro hinv
    have := (hinv 4).2 ⟨h4r, h4w⟩
    omega

/-- C5, amended: in every state reached from the fresh scoreboard by markups
and clears of instruction objects, where every markup is of an instruction
that is a fault, or has an exec sequence number of at least 1, keeps every
writer count within `Index` and, when an earlier markup of the same object is
not cleared yet, records the registers the object holds already, and where
every clear is of an outstanding markup with the flag of that markup, a slot
has writer count 0 exactly when its return cycle and its writer are both 0. -/
theorem entry_invariant_of_settled (sb : Scoreboard) (store : InstStore)
    (out : List (Nat × Bool)) (h : Reachable settledMarkup sb store out) :
    EntryInvariant sb := by
  intro i
  obtain ⟨_, _, _, h4, h5⟩ := reachable_slotAccounted sb store out h i
  constructor
  · exact h4
  · intro hz
    by_cases hn : sb.numResults i = 0
    · exact hn
    · exact absurd hz.2 (h5 hn)

/-- The history "fresh, markup of the object holding `demoInst`, a second
markup of the same object with the same ISA, clear of the first markup" is
one of settled markups; at its end slot 3 still has two writers in flight,
and the entry invariant holds. -/
theorem entry_invariant_of_settled_witness :
    markedAgain.1.numResults 3 = 2 ∧ markedAgain.1.returnCycle 3 = 12 ∧
      EntryInvariant markedAgain.1 :=
  ⟨by decide, by decide,
    entry_invariant_of_settled _ markedAgain.2 [(0, false)]
      (Reachable.clear 1 0 true
        (Reachable.markup 0 12 demoISA false
          (Reachable.markup 0 10 demoISA true
            (Reachable.fresh demoClasses (storeOf demoInst))
            ⟨numberedMarkup_of_small _ _ _ _ 0 0 (by decide) (fun i => Nat.le_of_eq rfl)
                (by decide),
              fun _ h => by simp at h⟩)
          ⟨numberedMarkup_of_small _ _ _ _ 0 2 (by decide)
              (fun i => by
                show setAt (setAt (fun _ => 0) 3 1) 3 2 i ≤ 2
                simp only [setAt]
                split <;> omega)
              (by decide),
            fun _ _ d hd => by
              have hd2 : d < 2 := hd
              interval_cases d <;> rfl⟩)
        rfl)⟩

/-! ## The properties at concrete inputs -/

/-- The round trip on the fresh scoreboard with `demoInst`, which writes
integer register 3 twice. -/
theorem markup_clear_round_trip_witness :
    (demoMarked.1.clearInstDests demoMarked.2 true).numResults 3 = 0 ∧
    (demoMarked.1.clearInstDests demoMarked.2 true).returnCycle 3 = 0 ∧
    (demoMarked.1.clearInstDests demoMarked.2 true).writingInst 3 = 0 :=
  markup_clear_round_trip (Scoreboard.new demoClasses) demoInst 10 demoISA true 0 3 rfl
    (by decide) rfl rfl

/-- While `demoInst` is marked up as unpredictable, an instruction reading
integer register 3 cannot issue, even at cycle 100. -/
theorem canInstIssue_iff_witness :
    demoMarked.1.canInstIssue demoInst none none 100 demoISA = false :=
  (canInstIssue_iff demoMarked.1 demoInst none none 100 demoISA rfl).2.1
    ⟨0, 3, by decide, rfl, by decide⟩ none none 100

/-- The fault variant of `demoInst` issues while its source register is busy
and leaves the scoreboard alone. -/
theorem fault_bypasses_scoreboard_witness :
    demoMarked.1.canInstIssue demoFault none none 0 demoISA = true ∧
    (demoMarked.1.execSeqNumToWaitFor demoFault demoISA).1 = 0 ∧
    (demoMarked.1.execSeqNumToWaitFor demoFault demoISA).2 = demoMarked.1 ∧
    demoMarked.1.markupInstDests demoFault 10 demoISA true = (demoMarked.1, demoFault) ∧
    demoMarked.1.clearInstDests demoFault true = demoMarked.1 :=
  fault_bypasses_scoreboard demoMarked.1 demoFault rfl none none 0 10 demoISA true

/-- The sequence number to wait for bounds the writer of integer register 3. -/
theorem execSeqNumToWaitFor_is_max_witness :
    demoMarked.1.writingInst 3 ≤ (demoMarked.1.execSeqNumToWaitFor demoInst demoISA).1 :=
  (execSeqNumToWaitFor_is_max demoMarked.1 demoInst demoISA rfl).1 0 3 (by decide) rfl

/-- The markup of `demoInst` on the fresh scoreboard raises the writer count of
slot 3 by its two occurrences. -/
theorem markupInstDests_post_witness :
    demoMarked.1.numResults 3 =
      (Scoreboard.new demoClasses).numResults 3 +
        destOccurrences (Scoreboard.new demoClasses) demoISA demoInst 3 :=
  (markupInstDests_post (Scoreboard.new demoClasses) demoInst 10 demoISA true 3 rfl).2.1
    (by decide) (by decide)

/-- The clear of the marked up `demoInst` takes its two occurrences off the
writer count of slot 3. -/
theorem clearInstDests_post_witness :
    (demoMarked.1.clearInstDests demoMarked.2 true).numResults 3 =
      demoMarked.1.numResults 3 - recordedOccurrences demoMarked.1 demoMarked.2 3 :=
  (clearInstDests_post demoMarked.1 demoMarked.2 true 3 rfl (by decide) (by decide)
    (by decide)).1

/-! ## The insert gate of a functional unit -/

/-- C11: `canInsert` at cycle `c` is true exactly when no insert gate is set
(`nextInsertCycle = 0`) or `c` has reached the gate; being a function of the
state, it changes none of it. -/
theorem canInsert_iff (fu : FUPipeline) (c : Nat) :
    fu.canInsert c = true ↔ (fu.nextInsertCycle = 0 ∨ c ≥ fu.nextInsertCycle) := by
  simp [FUPipeline.canInsert]

/-- C12: `cyclesBeforeInsert` is 0 exactly when `canInsert` is true; when
`canInsert` is false the current cycle plus `cyclesBeforeInsert` is
`nextInsertCycle`; and with the gate left alone, `canInsert` holds `d` cycles
later exactly when `d` is at least `cyclesBeforeInsert`. -/
theorem cyclesBeforeInsert_agrees (fu : FUPipeline) (c : Nat) :
    (fu.cyclesBeforeInsert c = 0 ↔ fu.canInsert c = true) ∧
    (fu.canInsert c = false → c + fu.cyclesBeforeInsert c = fu.nextInsertCycle) ∧
    (∀ d, fu.canInsert (c + d) = true ↔ fu.cyclesBeforeInsert c ≤ d) := by
  refine ⟨?_, ?_, ?_⟩
  · unfold FUPipeline.cyclesBeforeInsert FUPipeline.canInsert
    by_cases h0 : fu.nextInsertCycle = 0
    · simp [h0]
    · by_cases hgt : c > fu.nextInsertCycle
      · simp [h0, hgt]
        omega
      · simp [h0, hgt]
        omega
  · unfold FUPipeline.cyclesBeforeInsert FUPipeline.canInsert
    intro h
    simp only [Bool.or_eq_false_iff, beq_eq_false_iff_ne, ne_eq, decide_eq_false_iff_not,
      ge_iff_le, not_le] at h
    have hgt : ¬ c > fu.nextInsertCycle := by omega
    simp [h.1, hgt]
    omega
  · intro d
    unfold FUPipeline.cyclesBeforeInsert FUPipeline.canInsert
    by_cases h0 : fu.nextInsertCycle = 0
    · simp [h0]
    · by_cases hgt : c > fu.nextInsertCycle
      · simp [h0, hgt]
        omega
      · simp [h0, hgt]
        omega

/-- C13, as stated, fails: with the insert gate at cycle 10, an instruction
inserted at cycle 5 and issue latency 3, `advance` leaves the gate at 10
instead of moving it to 5 + 3. -/
theorem advance_after_insert_fails :
    (demoPipe 10 false true).base.alreadyPushed = true ∧
    (demoPipe 10 false true).description.issueLat = 3 ∧
    ((demoPipe 10 false true).advance (fun b => b) 5).nextInsertCycle = 10 ∧
    ((demoPipe 10 false true).advance (fun b => b) 5).nextInsertCycle ≠ 5 + 3 := by
  decide

/-- C13, amended: when an instruction was inserted this cycle and the insert
gate is not in the future (`nextInsertCycle ≤ c`, which is the case whenever
`canInsert` held at `c`), `advance` sets the gate to `c + issueLat` (the sum
at type `Cycles`, the plain sum when it fits); when the gate is still in the
future `advance` leaves it where it is. -/
theorem advance_after_insert (baseAdvance : FUPipelineBase → FUPipelineBase)
    (fu : FUPipeline) (c : Nat) (hpushed : fu.base.alreadyPushed = true) :
    (fu.nextInsertCycle ≤ c →
      (fu.advance baseAdvance c).nextInsertCycle = cyclesAdd c fu.description.issueLat) ∧
    (fu.canInsert c = true →
      (fu.advance baseAdvance c).nextInsertCycle = cyclesAdd c fu.description.issueLat) ∧
    (fu.nextInsertCycle ≤ c → c + fu.description.issueLat < 18446744073709551616 →
      (fu.advance baseAdvance c).nextInsertCycle = c + fu.description.issueLat) ∧
    (c < fu.nextInsertCycle →
      (fu.advance baseAdvance c).nextInsertCycle = fu.nextInsertCycle) := by
  have hle : fu.nextInsertCycle ≤ c →
      (fu.advance baseAdvance c).nextInsertCycle = cyclesAdd c fu.description.issueLat := by
    intro h
    simp [FUPipeline.advance, hpushed, h]
  refine ⟨hle, ?_, ?_, ?_⟩
  · intro hcan
    apply hle
    simp only [FUPipeline.canInsert, Bool.or_eq_true, beq_iff_eq, decide_eq_true_eq] at hcan
    omega
  · intro h hfit
    rw [hle h]
    unfold cyclesAdd
    omega
  · intro h
    have hn : ¬ fu.nextInsertCycle ≤ c := by omega
    simp [FUPipeline.advance, hpushed, hn]

/-- An instruction inserted at cycle 12, past the gate at 10, moves the gate to
cycle 15. -/
theorem advance_after_insert_witness :
    ((demoPipe 10 false true).advance (fun b => b) 12).nextInsertCycle = 12 + 3 :=
  (advance_after_insert (fun b => b) (demoPipe 10 false true) 12 rfl).2.2.1 (by decide)
    (by decide)

/-- C14: when no instruction was inserted this cycle, `advance` increases
`nextInsertCycle` by exactly one (at type `Cycles`; the plain successor when
it fits) if the pipeline was stalled and a gate is active, and leaves it
unchanged if the pipeline was not stalled or no gate is active. -/
theorem advance_while_stalled (baseAdvance : FUPipelineBase → FUPipelineBase)
    (fu : FUPipeline) (c : Nat) (hnone : fu.base.alreadyPushed = false) :
    (fu.base.stalled = true → fu.nextInsertCycle ≠ 0 →
      (fu.advance baseAdvance c).nextInsertCycle = cyclesInc fu.nextInsertCycle) ∧
    (fu.base.stalled = true → fu.nextInsertCycle ≠ 0 →
      fu.nextInsertCycle + 1 < 18446744073709551616 →
      (fu.advance baseAdvance c).nextInsertCycle = fu.nextInsertCycle + 1) ∧
    ((fu.base.stalled = false ∨ fu.nextInsertCycle = 0) →
      (fu.advance baseAdvance c).nextInsertCycle = fu.nextInsertCycle) := by
  refine ⟨?_, ?_, ?_⟩
  · intro hs hg
    simp [FUPipeline.advance, hnone, hs, hg]
  · intro hs hg hfit
    simp only [FUPipeline.advance, hnone, hs, Bool.false_eq_true, if_false, Bool.true_and,
      bne_iff_ne, ne_eq, hg, not_false_eq_true, if_true, cyclesInc]
    omega
  · intro h
    rcases h with hs | hg
    · simp [FUPipeline.advance, hnone, hs]
    · simp [FUPipeline.advance, hnone, hg]

/-- A stalled cycle with nothing inserted moves the gate from 10 to 11. -/
theorem advance_while_stalled_witness :
    ((demoPipe 10 true false).advance (fun b => b) 5).nextInsertCycle = 10 + 1 :=
  (advance_while_stalled (fun b => b) (demoPipe 10 true false) 5 rfl).2.1 rfl (by decide)
    (by decide)

theorem stalledRun_gate (baseAdvance : FUPipelineBase → FUPipelineBase) (k : Nat)
    (fu : FUPipeline) (c : Nat) (last : FUPipeline)
    (hrun : StalledRun baseAdvance k fu c last) :
    fu.nextInsertCycle ≠ 0 → fu.nextInsertCycle + k < 18446744073709551616 →
      last.nextInsertCycle = fu.nextInsertCycle + k := by
  induction hrun with
  | done fu c => intro _ _; rfl
  | @cycle k fu next last c hs hp hgate _ _ ih =>
    intro hg hfit
    have hstep : next.nextInsertCycle = fu.nextInsertCycle + 1 := by
      rw [hgate]
      simp only [FUPipeline.advance, hp, hs, Bool.false_eq_true, if_false, Bool.true_and,
        bne_iff_ne, ne_eq, hg, not_false_eq_true, if_true, cyclesInc]
      omega
    rw [ih (by omega) (by omega), hstep]
    omega

/-- C15, as stated, fails at the top of the range of `Cycles`: with the gate at
`2 ^ 64 - 1`, in the future at cycle 5, one stalled cycle with nothing inserted
wraps the gate to 0, which is "no gate": the gate is not `g + 1`, `canInsert`
is true at cycle 6, and the wait at cycle 6 is 0 where it was `2 ^ 64 - 6` at
cycle 5. -/
theorem stalled_run_wraps_gate :
    StalledRun (fun b => b) 1 (demoPipe 18446744073709551615 true false) 5
      (demoPipe 0 true false) ∧
    (demoPipe 18446744073709551615 true false).nextInsertCycle > 5 ∧
    ((demoPipe 18446744073709551615 true false).advance (fun b => b) 5).nextInsertCycle = 0 ∧
    (demoPipe 0 true false).canInsert (5 + 1) = true ∧
    (demoPipe 0 true false).cyclesBeforeInsert (5 + 1) = 0 ∧
    (demoPipe 18446744073709551615 true false).cyclesBeforeInsert 5 = 18446744073709551610 :=
  ⟨@StalledRun.cycle (fun b => b) 0 (demoPipe 18446744073709551615 true false)
      (demoPipe 0 true false) (demoPipe 0 true false) 5 rfl rfl (by decide) rfl
      (StalledRun.done (demoPipe 0 true false) 6),
    by decide, by decide, by decide, by decide, by decide⟩

/-- C15, amended: from a state whose gate `g` is still in the future at cycle `c`, after
`k` stalled cycles with nothing inserted and one `advance` each, the gate is
`g + k` (as long as that is a value of `Cycles`): `cyclesBeforeInsert` at
cycle `c + k` is what it was at cycle `c`, `canInsert` is still false, and
insertion is permitted from cycle `g + k` on, where it was permitted from
cycle `g` on before the stall. -/
theorem stalled_run_keeps_wait (baseAdvance : FUPipelineBase → FUPipelineBase) (k : Nat)
    (fu : FUPipeline) (c : Nat) (last : FUPipeline)
    (hrun : StalledRun baseAdvance k fu c last) (hfuture : fu.nextInsertCycle > c)
    (hfit : fu.nextInsertCycle + k < 18446744073709551616) :
    last.nextInsertCycle = fu.nextInsertCycle + k ∧
    last.cyclesBeforeInsert (c + k) = fu.cyclesBeforeInsert c ∧
    last.canInsert (c + k) = false ∧
    (∀ t, fu.canInsert t = true ↔ fu.nextInsertCycle ≤ t) ∧
    (∀ t, last.canInsert t = true ↔ fu.nextInsertCycle + k ≤ t) := by
  have hg : fu.nextInsertCycle ≠ 0 := by omega
  have hgate := stalledRun_gate baseAdvance k fu c last hrun hg hfit
  have hg2 : last.nextInsertCycle ≠ 0 := by omega
  refine ⟨hgate, ?_, ?_, ?_, ?_⟩
  · have h1 : ¬ c > fu.nextInsertCycle := by omega
    have h2 : ¬ c + k > last.nextInsertCycle := by omega
    simp only [FUPipeline.cyclesBeforeInsert, beq_iff_eq, hg, hg2, h1, h2, decide_False,
      Bool.or_self, Bool.false_eq_true, if_false, Bool.or_false]
    omega
  · simp only [FUPipeline.canInsert, Bool.or_eq_false_iff, beq_eq_false_iff_ne, ne_eq,
      decide_eq_false_iff_not, ge_iff_le, not_le]
    exact ⟨hg2, by omega⟩
  · intro t
    simp only [FUPipeline.canInsert, Bool.or_eq_true, beq_iff_eq, decide_eq_true_eq, ge_iff_le]
    omega
  · intro t
    simp only [FUPipeline.canInsert, Bool.or_eq_true, beq_iff_eq, decide_eq_true_eq, ge_iff_le]
    omega

/-- Two stalled cycles from cycle 5 on with the gate at 10: the gate ends at 12
and the wait at cycle 7 is the wait at cycle 5. -/
theorem stalled_run_keeps_wait_witness :
    (demoPipe 12 true false).nextInsertCycle = 10 + 2 ∧
    (demoPipe 12 true false).cyclesBeforeInsert (5 + 2) =
      (demoPipe 10 true false).cyclesBeforeInsert 5 ∧
    (demoPipe 12 true false).canInsert (5 + 2) = false :=
  have hrun : StalledRun (fun b => b) 2 (demoPipe 10 true false) 5 (demoPipe 12 true false) :=
    @StalledRun.cycle (fun b => b) 1 (demoPipe 10 true false) (demoPipe 11 true false)
      (demoPipe 12 true false) 5 rfl rfl (by decide) rfl
      (@StalledRun.cycle (fun b => b) 0 (demoPipe 11 true false) (demoPipe 12 true false)
        (demoPipe 12 true false) 6 rfl rfl (by decide) rfl
        (StalledRun.done (demoPipe 12 true false) 7))
  have h := stalled_run_keeps_wait (fun b => b) 2 (demoPipe 10 true false) 5
    (demoPipe 12 true false) hrun (by decide) (by decide)
  ⟨h.1, h.2.1, h.2.2.1⟩

/-! ## Timing overrides -/

theorem timing_test_iff (timing : CVA6FUTiming) (e o : Nat) :
    (timing.provides o && (e &&& timing.mask) == timing.match_) = true ↔
      timingApplies timing e o := by
  simp [CVA6FUTiming.provides, CVA6OpClassSet.provides, timingApplies]

theorem findTimingLoop_some (e o : Nat) :
    ∀ (l : List CVA6FUTiming) (t : CVA6FUTiming),
      FUPipeline.findTimingLoop e o l = some t ↔
        ∃ i : Nat, l[i]? = some t ∧ timingApplies t e o ∧
          ∀ (j : Nat) (u : CVA6FUTiming), j < i → l[j]? = some u → ¬ timingApplies u e o := by
  intro l
  induction l with
  | nil =>
    intro t
    simp [FUPipeline.findTimingLoop]
  | cons a l ih =>
    intro t
    simp only [FUPipeline.findTimingLoop]
    by_cases ha : timingApplies a e o
    · rw [if_pos ((timing_test_iff a e o).2 ha)]
      constructor
      · intro h
        cases h
        exact ⟨0, List.getElem?_cons_zero, ha, fun j u hj => by omega⟩
      · rintro ⟨i, hi, _, hmin⟩
        cases i with
        | zero =>
          simp only [List.getElem?_cons_zero] at hi
          exact hi
        | succ i => exact absurd ha (hmin 0 a (by omega) List.getElem?_cons_zero)
    · rw [if_neg (fun h => ha ((timing_test_iff a e o).1 h)), ih t]
      constructor
      · rintro ⟨i, hi, ht, hmin⟩
        refine ⟨i + 1, by simpa using hi, ht, ?_⟩
        intro j u hj hu
        cases j with
        | zero =>
          simp only [List.getElem?_cons_zero, Option.some.injEq] at hu
          subst hu
          exact ha
        | succ j =>
          simp only [List.getElem?_cons_succ] at hu
          exact hmin j u (by omega) hu
      · rintro ⟨i, hi, ht, hmin⟩
        cases i with
        | zero =>
          simp only [List.getElem?_cons_zero, Option.some.injEq] at hi
          subst hi
          exact absurd ht ha
        | succ i =>
          simp only [List.getElem?_cons_succ] at hi
          refine ⟨i, hi, ht, ?_⟩
          intro j u hj hu
          exact hmin (j + 1) u (by omega) (by simpa using hu)

/-- C16: `findTiming` returns the first matching override in configured order.
The result is the timing `t` exactly when `t` is `timings[i]` for the smallest
index `i` whose timing provides the op class and matches the encoding under
its mask; it is `NULL` exactly when no configured override does, as when none
is configured. -/
theorem findTiming_first_match (fu : FUPipeline) (e o : Nat) :
    (∀ t, fu.findTiming e o = some t ↔
      ∃ i : Nat, fu.description.timings[i]? = some t ∧ timingApplies t e o ∧
        ∀ (j : Nat) (u : CVA6FUTiming), j < i → fu.description.timings[j]? = some u →
          ¬ timingApplies u e o) ∧
    (fu.findTiming e o = none ↔
      ∀ (i : Nat) (u : CVA6FUTiming), fu.description.timings[i]? = some u →
        ¬ timingApplies u e o) ∧
    (fu.description.timings = [] → fu.findTiming e o = none) := by
  have hsome := findTimingLoop_some e o fu.description.timings
  refine ⟨hsome, ?_, ?_⟩
  · unfold FUPipeline.findTiming
    constructor
    · intro hnone i u hu happ
      have hfirst : ∃ n : Nat,
          (∃ w, fu.description.timings[n]? = some w ∧ timingApplies w e o) :=
        ⟨i, u, hu, happ⟩
      classical
      obtain ⟨w, hw, hwapp⟩ := Nat.find_spec hfirst
      have hres := (hsome w).2 ⟨Nat.find hfirst, hw, hwapp, fun j v hj hv hvapp =>
        Nat.find_min hfirst hj ⟨v, hv, hvapp⟩⟩
      unfold FUPipeline.findTiming at hres
      rw [hnone] at hres
      cases hres
    · intro hall
      cases hres : FUPipeline.findTimingLoop e o fu.description.timings with
      | none => rfl
      | some t =>
        obtain ⟨i, hi, ht, _⟩ := (findTimingLoop_some e o _ t).1 hres
        exact absurd ht (hall i t hi)
  · intro hnil
    unfold FUPipeline.findTiming
    rw [hnil]
    rfl

/-! ## Construction of the pipeline -/

/-- C17, as stated, fails: with the backward delay from fetch2 to fetch1 at 0
and the four other delays at 1, one of the five delays is below 1 and the
constructor ends without a fatal error. -/
theorem construction_accepts_zero_backward :
    demoParams.fetch1ToFetch2BackwardDelay < 1 ∧
    isFatal (Pipeline.new (DemoParts.mk 0 false) demoParams) = false := by
  decide

/-- C17, amended: the body of the constructor ends in a fatal configuration
error exactly when one of `fetch1ToFetch2ForwardDelay`,
`fetch2ToDecodeForwardDelay`, `decodeToExecuteForwardDelay` and
`executeBranchDelay` is below 1; `fetch1ToFetch2BackwardDelay` is not checked
and has no part in the outcome. -/
theorem construction_fatal_iff {σ : Type} (parts : σ) (params : BaseCVA6CPUParams) :
    (isFatal (Pipeline.new parts params) = true ↔
      (params.fetch1ToFetch2ForwardDelay < 1 ∨ params.fetch2ToDecodeForwardDelay < 1 ∨
        params.decodeToExecuteForwardDelay < 1 ∨ params.executeBranchDelay < 1)) ∧
    (∀ d : Nat,
      isFatal (Pipeline.new parts { params with fetch1ToFetch2BackwardDelay := d }) =
        isFatal (Pipeline.new parts params)) := by
  refine ⟨?_, ?_⟩
  · unfold Pipeline.new
    by_cases h1 : params.fetch1ToFetch2ForwardDelay < 1
    · simp [h1, isFatal]
    · by_cases h2 : params.fetch2ToDecodeForwardDelay < 1
      · simp [h1, h2, isFatal]
      · by_cases h3 : params.decodeToExecuteForwardDelay < 1
        · simp [h1, h2, h3, isFatal]
        · by_cases h4 : params.executeBranchDelay < 1
          · simp [h1, h2, h3, h4, isFatal]
          · simp [h1, h2, h3, h4, isFatal]
  · intro d
    unfold Pipeline.new
    by_cases h1 : params.fetch1ToFetch2ForwardDelay < 1
    · simp [h1, isFatal]
    · by_cases h2 : params.fetch2ToDecodeForwardDelay < 1
      · simp [h1, h2, isFatal]
      · by_cases h3 : params.decodeToExecuteForwardDelay < 1
        · simp [h1, h2, h3, isFatal]
        · by_cases h4 : params.executeBranchDelay < 1
          · simp [h1, h2, h3, h4, isFatal]
          · simp [h1, h2, h3, h4, isFatal]

/-! ## Draining the pipeline -/

/-- C18, as stated, fails: with every stage drained and the four other
channels empty, `isDrained` is true while branch data is still in the channel
from execute to fetch1. -/
theorem isDrained_ignores_branch_channel :
    (demoPipeline 0 true).isDrained demoEnv = true ∧
    demoEnv.eToF1Empty (demoPipeline 0 true).parts = false := by
  decide

/-- C18, amended: `isDrained` returns true exactly when the four stages report
drained and the channels `f1ToF2`, `f2ToF1`, `f2ToD` and `dToE` are empty; the
channel `eToF1` is not consulted. -/
theorem isDrained_iff {σ : Type} (env : Collaborators σ) (p : Pipeline σ) :
    p.isDrained env = true ↔
      (env.fetch1IsDrained p.parts = true ∧ env.fetch2IsDrained p.parts = true ∧
        env.decodeIsDrained p.parts = true ∧ env.executeIsDrained p.parts = true ∧
        env.f1ToF2Empty p.parts = true ∧ env.f2ToF1Empty p.parts = true ∧
        env.f2ToDEmpty p.parts = true ∧ env.dToEEmpty p.parts = true) := by
  simp [Pipeline.isDrained, and_assoc]

theorem isDrained_congr {σ : Type} (env : Collaborators σ) (p q : Pipeline σ)
    (h : p.parts = q.parts) : p.isDrained env = q.isDrained env := by
  unfold Pipeline.isDrained
  rw [h]

theorem idleBlock_flags {σ : Type} (env : Collaborators σ) (p : Pipeline σ) :
    (Pipeline.idleBlock env (Pipeline.evaluateStages env p)).needToSignalDrained =
        p.needToSignalDrained ∧
      (Pipeline.idleBlock env (Pipeline.evaluateStages env p)).drainDoneSignals =
        p.drainDoneSignals := by
  unfold Pipeline.idleBlock Pipeline.evaluateStages
  split <;> exact ⟨rfl, rfl⟩

theorem evaluate_step {σ : Type} (env : Collaborators σ) (q : Pipeline σ) :
    (Pipeline.evaluate env q).needToSignalDrained =
        (q.needToSignalDrained && !(Pipeline.evaluate env q).isDrained env) ∧
      (Pipeline.evaluate env q).drainDoneSignals =
        q.drainDoneSignals +
          (if q.needToSignalDrained && (Pipeline.evaluate env q).isDrained env then 1 else 0) ∧
      (q.needToSignalDrained = true → (Pipeline.evaluate env q).isDrained env = true →
        (Pipeline.evaluate env q).running = false) := by
  obtain ⟨hflag, hsig⟩ := idleBlock_flags env q
  have hparts : (Pipeline.evaluate env q).parts =
      (Pipeline.idleBlock env (Pipeline.evaluateStages env q)).parts := by
    unfold Pipeline.evaluate Pipeline.drainBlock
    split
    · split <;> rfl
    · rfl
  have hdr := isDrained_congr env _ _ hparts
  rw [hdr]
  unfold Pipeline.evaluate Pipeline.drainBlock
  rw [hflag]
  cases hq : q.needToSignalDrained with
  | false =>
    simp only [Bool.false_eq_true, if_false, Bool.false_and, Nat.add_zero]
    exact ⟨hflag.trans hq, hsig, fun h => by cases h⟩
  | true =>
    cases hd : (Pipeline.idleBlock env (Pipeline.evaluateStages env q)).isDrained env with
    | false =>
      simp only [if_true, Bool.false_eq_true, if_false, Bool.not_false, Bool.and_true,
        Bool.and_false, Nat.add_zero]
      exact ⟨hflag.trans hq, hsig, fun _ h => by cases h⟩
    | true =>
      simp [hsig]

theorem pending_iff_never_drained {σ : Type} (env : Collaborators σ) (r : Pipeline σ)
    (hr : r.needToSignalDrained = true) :
    ∀ n : Nat,
      ((Pipeline.evaluate env)^[n] r).needToSignalDrained = true ↔
        ∀ k, k < n → ((Pipeline.evaluate env)^[k + 1] r).isDrained env = false := by
  intro n
  induction n with
  | zero =>
    constructor
    · intro _ k hk
      omega
    · intro _
      exact hr
  | succ n ih =>
    rw [Function.iterate_succ_apply']
    rw [(evaluate_step env ((Pipeline.evaluate env)^[n] r)).1]
    rw [← Function.iterate_succ_apply' (Pipeline.evaluate env) n r]
    simp only [Bool.and_eq_true, Bool.not_eq_true', ih]
    constructor
    · rintro ⟨h1, h2⟩ k hk
      rcases Nat.lt_or_ge k n with h | h
      · exact h1 k h
      · have : k = n := by omega
        subst this
        exact h2
    · intro h
      exact ⟨fun k hk => h k (by omega), h n (by omega)⟩

theorem no_signal_without_pending {σ : Type} (env : Collaborators σ) (r : Pipeline σ)
    (hr : r.needToSignalDrained = false) :
    ∀ n : Nat,
      ((Pipeline.evaluate env)^[n] r).needToSignalDrained = false ∧
        ((Pipeline.evaluate env)^[n] r).drainDoneSignals = r.drainDoneSignals := by
  intro n
  induction n with
  | zero => exact ⟨hr, rfl⟩
  | succ n ih =>
    rw [Function.iterate_succ_apply']
    obtain ⟨h1, h2, _⟩ := evaluate_step env ((Pipeline.evaluate env)^[n] r)
    rw [h1, h2, ih.1, ih.2]
    simp

theorem no_signal_before_drained {σ : Type} (env : Collaborators σ) (r : Pipeline σ) :
    ∀ n : Nat,
      (∀ k, k < n → ((Pipeline.evaluate env)^[k + 1] r).isDrained env = false) →
      ((Pipeline.evaluate env)^[n] r).drainDoneSignals = r.drainDoneSignals := by
  intro n
  induction n with
  | zero => intro _; rfl
  | succ n ih =>
    intro h
    have hn := h n (by omega)
    obtain ⟨_, h2, _⟩ := evaluate_step env ((Pipeline.evaluate env)^[n] r)
    rw [← Function.iterate_succ_apply' (Pipeline.evaluate env) n r] at h2
    rw [h2, hn, ih (fun k hk => h k (by omega))]
    simp

/-- C19: `drain` returns `isDrained()` (asked after execute was told to
drain) and sets `needToSignalDrained` to its negation, signalling nothing
itself. After a `drain` that returned false, the evaluate number `n + 1`
calls `signalDrainDone` (once) exactly when it is the first at whose end
`isDrained()` is true, and it then clears `needToSignalDrained` and stops the
clock; every other evaluate, one that ends not drained or one after the
signal, calls it not at all. After a `drain` that returned true no evaluate
calls it. -/
theorem drain_signalled_once {σ : Type} (env : Collaborators σ) (p : Pipeline σ) :
    (p.drain env).1 =
      Pipeline.isDrained env { p with parts := env.executeDrain p.parts } ∧
    (p.drain env).2.needToSignalDrained = !(p.drain env).1 ∧
    (p.drain env).2.drainDoneSignals = p.drainDoneSignals ∧
    ((p.drain env).1 = false → ∀ n : Nat,
      (((∀ k, k < n →
            ((Pipeline.evaluate env)^[k + 1] (p.drain env).2).isDrained env = false) ∧
          ((Pipeline.evaluate env)^[n + 1] (p.drain env).2).isDrained env = true) →
        ((Pipeline.evaluate env)^[n + 1] (p.drain env).2).drainDoneSignals =
            ((Pipeline.evaluate env)^[n] (p.drain env).2).drainDoneSignals + 1 ∧
          ((Pipeline.evaluate env)^[n + 1] (p.drain env).2).needToSignalDrained = false ∧
          ((Pipeline.evaluate env)^[n + 1] (p.drain env).2).running = false) ∧
      (¬ ((∀ k, k < n →
            ((Pipeline.evaluate env)^[k + 1] (p.drain env).2).isDrained env = false) ∧
          ((Pipeline.evaluate env)^[n + 1] (p.drain env).2).isDrained env = true) →
        ((Pipeline.evaluate env)^[n + 1] (p.drain env).2).drainDoneSignals =
          ((Pipeline.evaluate env)^[n] (p.drain env).2).drainDoneSignals)) ∧
    ((p.drain env).1 = true → ∀ n : Nat,
      ((Pipeline.evaluate env)^[n] (p.drain env).2).drainDoneSignals = p.drainDoneSignals) := by
  refine ⟨rfl, rfl, rfl, ?_, ?_⟩
  · intro hfalse n
    have hr : (p.drain env).2.needToSignalDrained = true := by
      have h : (p.drain env).2.needToSignalDrained = !(p.drain env).1 := rfl
      rw [h, hfalse]
      rfl
    have hpend := pending_iff_never_drained env (p.drain env).2 hr n
    obtain ⟨h1, h2, h3⟩ := evaluate_step env ((Pipeline.evaluate env)^[n] (p.drain env).2)
    rw [← Function.iterate_succ_apply' (Pipeline.evaluate env) n (p.drain env).2] at h1 h2 h3
    constructor
    · rintro ⟨hnever, hnow⟩
      have hflag := hpend.2 hnever
      rw [hflag, hnow] at h1 h2
      exact ⟨by simpa using h2, by simpa using h1, h3 hflag hnow⟩
    · intro hnot
      rw [h2]
      cases hflag : ((Pipeline.evaluate env)^[n] (p.drain env).2).needToSignalDrained with
      | false => simp
      | true =>
        cases hnow : ((Pipeline.evaluate env)^[n + 1] (p.drain env).2).isDrained env with
        | false => simp
        | true => exact absurd ⟨hpend.1 hflag, hnow⟩ hnot
  · intro htrue n
    have hr : (p.drain env).2.needToSignalDrained = false := by
      have h : (p.drain env).2.needToSignalDrained = !(p.drain env).1 := rfl
      rw [h, htrue]
      rfl
    exact (no_signal_without_pending env (p.drain env).2 hr n).2

/-- C20, as stated, fails: a drain of a pipeline with one instruction in
flight returns false and leaves the drain pending; `drainResume` leaves it
pending still, and the next evaluate, which ends drained, signals the
completion of the abandoned drain. -/
theorem drainResume_keeps_pending_drain :
    ((demoPipeline 1 false).drain demoEnv).1 = false ∧
    ((demoPipeline 1 false).drain demoEnv).2.needToSignalDrained = true ∧
    (Pipeline.drainResume demoEnv 1
      ((demoPipeline 1 false).drain demoEnv).2).needToSignalDrained = true ∧
    (Pipeline.evaluate demoEnv (Pipeline.drainResume demoEnv 1
      ((demoPipeline 1 false).drain demoEnv).2)).drainDoneSignals = 1 := by
  decide

/-- C20, amended: `drainResume` does not write `needToSignalDrained` and
signals nothing, so the flag is false after it exactly when it was false
before, and in that case no later evaluate signals drain completion. A drain
that is pending stays pending through every evaluate that ends not drained,
none of which signals, and the first later evaluate that ends drained signals
its completion, once, and clears the flag. -/
theorem drainResume_keeps_flag {σ : Type} (env : Collaborators σ) (numThreads : Nat)
    (p : Pipeline σ) :
    (Pipeline.drainResume env numThreads p).needToSignalDrained = p.needToSignalDrained ∧
    (Pipeline.drainResume env numThreads p).drainDoneSignals = p.drainDoneSignals ∧
    ((Pipeline.drainResume env numThreads p).needToSignalDrained = false ↔
      p.needToSignalDrained = false) ∧
    (p.needToSignalDrained = false → ∀ n : Nat,
      ((Pipeline.evaluate env)^[n] (Pipeline.drainResume env numThreads p)).drainDoneSignals =
        p.drainDoneSignals) ∧
    (p.needToSignalDrained = true → ∀ n : Nat,
      (∀ k, k < n →
        ((Pipeline.evaluate env)^[k + 1]
          (Pipeline.drainResume env numThreads p)).isDrained env = false) →
      ((Pipeline.evaluate env)^[n]
          (Pipeline.drainResume env numThreads p)).needToSignalDrained = true ∧
        ((Pipeline.evaluate env)^[n]
          (Pipeline.drainResume env numThreads p)).drainDoneSignals = p.drainDoneSignals ∧
        (((Pipeline.evaluate env)^[n + 1]
            (Pipeline.drainResume env numThreads p)).isDrained env = true →
          ((Pipeline.evaluate env)^[n + 1]
              (Pipeline.drainResume env numThreads p)).drainDoneSignals =
            p.drainDoneSignals + 1 ∧
          ((Pipeline.evaluate env)^[n + 1]
              (Pipeline.drainResume env numThreads p)).needToSignalDrained = false)) := by
  refine ⟨rfl, rfl, Iff.rfl, ?_, ?_⟩
  · intro h n
    exact (no_signal_without_pending env (Pipeline.drainResume env numThreads p) h n).2
  · intro h n hnever
    have hflag :=
      (pending_iff_never_drained env (Pipeline.drainResume env numThreads p) h n).2 hnever
    have hquiet := no_signal_before_drained env (Pipeline.drainResume env numThreads p) n hnever
    refine ⟨hflag, hquiet, ?_⟩
    intro hnow
    obtain ⟨h1, h2, _⟩ :=
      evaluate_step env ((Pipeline.evaluate env)^[n] (Pipeline.drainResume env numThreads p))
    rw [← Function.iterate_succ_apply' (Pipeline.evaluate env) n
      (Pipeline.drainResume env numThreads p)] at h1 h2
    rw [hflag, hnow] at h1 h2
    rw [hquiet] at h2
    exact ⟨by simpa using h2, by simpa using h1⟩

/-! ## The layout of the scoreboard slots -/

theorem new_offsets (rc : RegClasses) (hfit : totalRegs rc ≤ 65536) :
    (Scoreboard.new rc).floatRegOffset = rc RegClassType.IntRegClass ∧
    (Scoreboard.new rc).ccRegOffset =
      rc RegClassType.IntRegClass + rc RegClassType.FloatRegClass ∧
    (Scoreboard.new rc).vecRegOffset =
      rc RegClassType.IntRegClass + rc RegClassType.FloatRegClass +
        rc RegClassType.CCRegClass ∧
    (Scoreboard.new rc).vecRegElemOffset =
      rc RegClassType.IntRegClass + rc RegClassType.FloatRegClass +
        rc RegClassType.CCRegClass + rc RegClassType.VecRegClass ∧
    (Scoreboard.new rc).vecPredRegOffset =
      rc RegClassType.IntRegClass + rc RegClassType.FloatRegClass +
        rc RegClassType.CCRegClass + rc RegClassType.VecRegClass +
        rc RegClassType.VecElemClass ∧
    (Scoreboard.new rc).matRegOffset =
      rc RegClassType.IntRegClass + rc RegClassType.FloatRegClass +
        rc RegClassType.CCRegClass + rc RegClassType.VecRegClass +
        rc RegClassType.VecElemClass + rc RegClassType.VecPredRegClass ∧
    (Scoreboard.new rc).numRegs = totalRegs rc := by
  unfold totalRegs at hfit
  simp only [Scoreboard.new, toUnsigned, totalRegs]
  refine ⟨?_, ?_, ?_, ?_, ?_, ?_, ?_⟩ <;> omega

/-- C26, evaluated on the code: with 32 integer, 32 float and 6
condition-code registers the header comment places condition-code register 0
in slot 32 and float register 0 in slot 38, while `findIndex` places float
register 0 in slot 32 and condition-code register 0 in slot 64: the float
registers come before the condition-code registers. -/
theorem layout_differs_from_header :
    (Scoreboard.new ccClasses).findIndex
        { classValue := RegClassType.CCRegClass, index := 0 } = some 64 ∧
    (Scoreboard.new ccClasses).findIndex
        { classValue := RegClassType.FloatRegClass, index := 0 } = some 32 ∧
    ccClasses RegClassType.IntRegClass + 0 = 32 ∧
    ccClasses RegClassType.IntRegClass + ccClasses RegClassType.CCRegClass + 0 = 38 := by
  decide

theorem validReg_mk (rc : RegClasses) (c : RegClassType) (k : Nat)
    (hm : c ≠ RegClassType.MiscRegClass) (hi : c ≠ RegClassType.InvalidRegClass)
    (hk : k < rc c) : validReg rc { classValue := c, index := k } :=
  ⟨hm, hi, hk⟩

theorem findIndex_valid (rc : RegClasses) (hfit : totalRegs rc ≤ 65536) (c : RegClassType)
    (k : Nat) (hv : validReg rc { classValue := c, index := k }) :
    (Scoreboard.new rc).findIndex { classValue := c, index := k } =
        some (layoutOffset rc c + k) ∧
      layoutOffset rc c + k < totalRegs rc := by
  obtain ⟨h1, h2, h3, h4, h5, h6, _⟩ := new_offsets rc hfit
  obtain ⟨hm, hi, hk⟩ := hv
  unfold totalRegs at hfit ⊢
  cases c <;>
    simp only [Scoreboard.findIndex, toIndex, layoutOffset, h1, h2, h3, h4, h5, h6, ne_eq,
      not_true_eq_false, Option.some.injEq] at hm hi hk ⊢ <;>
    constructor <;> omega

theorem layoutOffset_injective (rc : RegClasses) (c1 c2 : RegClassType) (k1 k2 : Nat)
    (hv1 : validReg rc { classValue := c1, index := k1 })
    (hv2 : validReg rc { classValue := c2, index := k2 })
    (h : layoutOffset rc c1 + k1 = layoutOffset rc c2 + k2) : c1 = c2 ∧ k1 = k2 := by
  obtain ⟨hm1, hi1, hk1⟩ := hv1
  obtain ⟨hm2, hi2, hk2⟩ := hv2
  cases c1 <;> cases c2 <;>
    simp only [layoutOffset, ne_eq, not_true_eq_false, reduceCtorEq, not_false_eq_true,
      true_and, false_and] at hm1 hi1 hk1 hm2 hi2 hk2 h ⊢ <;>
    omega

/-- C27: when the total register count is at most `2 ^ 16`, so that every slot
fits the type `Index`, `findIndex` on the constructed scoreboard sends every
register of a tracked class with an index below its class size to a slot below
`numRegs`; two such registers with the same slot are the same register; every
slot below `numRegs` is the slot of exactly one such register; and registers
of class Misc or Invalid are not tracked. -/
theorem findIndex_contiguous (rc : RegClasses) (hfit : totalRegs rc ≤ 65536) :
    (∀ reg, validReg rc reg →
      ∃ slot, (Scoreboard.new rc).findIndex reg = some slot ∧
        slot < (Scoreboard.new rc).numRegs) ∧
    (∀ r1 r2, validReg rc r1 → validReg rc r2 →
      (Scoreboard.new rc).findIndex r1 = (Scoreboard.new rc).findIndex r2 → r1 = r2) ∧
    (∀ slot, slot < (Scoreboard.new rc).numRegs →
      ∃! reg, validReg rc reg ∧ (Scoreboard.new rc).findIndex reg = some slot) ∧
    (∀ k,
      (Scoreboard.new rc).findIndex
          { classValue := RegClassType.MiscRegClass, index := k } = none ∧
        (Scoreboard.new rc).findIndex
          { classValue := RegClassType.InvalidRegClass, index := k } = none) := by
  have hnum : (Scoreboard.new rc).numRegs = totalRegs rc := (new_offsets rc hfit).2.2.2.2.2.2
  have hinj : ∀ r1 r2, validReg rc r1 → validReg rc r2 →
      (Scoreboard.new rc).findIndex r1 = (Scoreboard.new rc).findIndex r2 → r1 = r2 := by
    rintro ⟨c1, k1⟩ ⟨c2, k2⟩ hv1 hv2 heq
    rw [(findIndex_valid rc hfit c1 k1 hv1).1, (findIndex_valid rc hfit c2 k2 hv2).1] at heq
    obtain ⟨hc, hk⟩ := layoutOffset_injective rc c1 c2 k1 k2 hv1 hv2 (Option.some.inj heq)
    rw [hc, hk]
  refine ⟨?_, hinj, ?_, fun k => ⟨rfl, rfl⟩⟩
  · rintro ⟨c, k⟩ hv
    obtain ⟨h1, h2⟩ := findIndex_valid rc hfit c k hv
    exact ⟨_, h1, by rw [hnum]; exact h2⟩
  · intro slot hslot
    rw [hnum] at hslot
    have hex : ∃ reg, validReg rc reg ∧ (Scoreboard.new rc).findIndex reg = some slot := by
      have key : ∀ c k, validReg rc { classValue := c, index := k } →
          layoutOffset rc c + k = slot →
          ∃ reg, validReg rc reg ∧ (Scoreboard.new rc).findIndex reg = some slot := by
        intro c k hv hs
        exact ⟨_, hv, by rw [(findIndex_valid rc hfit c k hv).1, hs]⟩
      unfold totalRegs at hslot
      by_cases a1 : slot < rc RegClassType.IntRegClass
      · exact key RegClassType.IntRegClass slot
          (validReg_mk rc RegClassType.IntRegClass slot (by decide) (by decide) a1)
          (by simp [layoutOffset])
      by_cases a2 : slot < rc RegClassType.IntRegClass + rc RegClassType.FloatRegClass
      · exact key RegClassType.FloatRegClass (slot - rc RegClassType.IntRegClass)
          (validReg_mk rc RegClassType.FloatRegClass (slot - rc RegClassType.IntRegClass)
            (by decide) (by decide) (by omega))
          (by simp only [layoutOffset]; omega)
      by_cases a3 : slot < rc RegClassType.IntRegClass + rc RegClassType.FloatRegClass +
          rc RegClassType.CCRegClass
      · exact key RegClassType.CCRegClass
          (slot - (rc RegClassType.IntRegClass + rc RegClassType.FloatRegClass))
          (validReg_mk rc RegClassType.CCRegClass
            (slot - (rc RegClassType.IntRegClass + rc RegClassType.FloatRegClass))
            (by decide) (by decide) (by omega))
          (by simp only [layoutOffset]; omega)
      by_cases a4 : slot < rc RegClassType.IntRegClass + rc RegClassType.FloatRegClass +
          rc RegClassType.CCRegClass + rc RegClassType.VecRegClass
      · exact key RegClassType.VecRegClass
          (slot - (rc RegClassType.IntRegClass + rc RegClassType.FloatRegClass +
            rc RegClassType.CCRegClass))
          (validReg_mk rc RegClassType.VecRegClass
            (slot - (rc RegClassType.IntRegClass + rc RegClassType.FloatRegClass +
              rc RegClassType.CCRegClass))
            (by decide) (by decide) (by omega))
          (by simp only [layoutOffset]; omega)
      by_cases a5 : slot < rc RegClassType.IntRegClass + rc RegClassType.FloatRegClass +
          rc RegClassType.CCRegClass + rc RegClassType.VecRegClass +
          rc RegClassType.VecElemClass
      · exact key RegClassType.VecElemClass
          (slot - (rc RegClassType.IntRegClass + rc RegClassType.FloatRegClass +
            rc RegClassType.CCRegClass + rc RegClassType.VecRegClass))
          (validReg_mk rc RegClassType.VecElemClass
            (slot - (rc RegClassType.IntRegClass + rc RegClassType.FloatRegClass +
              rc RegClassType.CCRegClass + rc RegClassType.VecRegClass))
            (by decide) (by decide) (by omega))
          (by simp only [layoutOffset]; omega)
      by_cases a6 : slot < rc RegClassType.IntRegClass + rc RegClassType.FloatRegClass +
          rc RegClassType.CCRegClass + rc RegClassType.VecRegClass +
          rc RegClassType.VecElemClass + rc RegClassType.VecPredRegClass
      · exact key RegClassType.VecPredRegClass
          (slot - (rc RegClassType.IntRegClass + rc RegClassType.FloatRegClass +
            rc RegClassType.CCRegClass + rc RegClassType.VecRegClass +
            rc RegClassType.VecElemClass))
          (validReg_mk rc RegClassType.VecPredRegClass
            (slot - (rc RegClassType.IntRegClass + rc RegClassType.FloatRegClass +
              rc RegClassType.CCRegClass + rc RegClassType.VecRegClass +
              rc RegClassType.VecElemClass))
            (by decide) (by decide) (by omega))
          (by simp only [layoutOffset]; omega)
      · exact key RegClassType.MatRegClass
          (slot - (rc RegClassType.IntRegClass + rc RegClassType.FloatRegClass +
            rc RegClassType.CCRegClass + rc RegClassType.VecRegClass +
            rc RegClassType.VecElemClass + rc RegClassType.VecPredRegClass))
          (validReg_mk rc RegClassType.MatRegClass
            (slot - (rc RegClassType.IntRegClass + rc RegClassType.FloatRegClass +
              rc RegClassType.CCRegClass + rc RegClassType.VecRegClass +
              rc RegClassType.VecElemClass + rc RegClassType.VecPredRegClass))
            (by decide) (by decide) (by omega))
          (by simp only [layoutOffset]; omega)
    obtain ⟨reg, hv, hf⟩ := hex
    refine ⟨reg, ⟨hv, hf⟩, ?_⟩
    rintro other ⟨hv2, hf2⟩
    exact hinj other reg hv2 hv (hf2.trans hf.symm)

/-- With the layout `demoClasses` of 32 registers a class, float register 5 is
tracked in a slot below `numRegs`. -/
theorem findIndex_contiguous_witness :
    ∃ slot, (Scoreboard.new demoClasses).findIndex
        { classValue := RegClassType.FloatRegClass, index := 5 } = some slot ∧
      slot < (Scoreboard.new demoClasses).numRegs :=
  (findIndex_contiguous demoClasses (by decide)).1
    { classValue := RegClassType.FloatRegClass, index := 5 }
    ⟨by decide, by decide, by decide⟩

/-! ## Issue gating over time -/

theorem canInstIssue_true_iff (sb : Scoreboard) (inst : CVA6DynInst) (lat : Option (List Nat))
    (cf : Option (List Bool)) (now : Nat) (isa : BaseISA) (hnf : inst.isFault = false) :
    sb.canInstIssue inst lat cf now isa = true ↔
      ∀ k, k < inst.staticInst.numSrcRegs → ∀ i, srcTrackedAt sb isa inst k i →
        sb.numUnpredictableResults i = 0 ∧
          sb.returnCycle i ≤
            cyclesAdd now (Scoreboard.relativeLatency lat cf k (sb.fuIndices i)) := by
  unfold Scoreboard.canInstIssue
  rw [hnf]
  simp only [Bool.false_eq_true, if_false]
  rw [canIssueLoop_eq_true_iff]
  simp only [true_and, Nat.zero_add]
  constructor
  · intro h k hk i hi
    exact h k (Nat.zero_le k) hk i hi
  · intro h k _ hk i hi
    exact h k hk i hi

/-- C28, as stated, fails at the top of the range of `Cycles`: with a writer of
integer register 3 in flight that returns at cycle 10, and relative latency 1,
`demoInst` (which reads that register) can issue at cycle `2 ^ 64 - 2`, where
the sum is `2 ^ 64 - 1`, and cannot issue at the later cycle `2 ^ 64 - 1`,
where the sum wraps to 0. -/
theorem canInstIssue_wraps :
    demoPending.returnCycle 3 = 10 ∧
    demoPending.numUnpredictableResults 3 = 0 ∧
    demoPending.canInstIssue demoInst (some [1]) none 18446744073709551614 demoISA = true ∧
    demoPending.canInstIssue demoInst (some [1]) none 18446744073709551615 demoISA = false := by
  decide

/-- C28, amended: for a fixed scoreboard state, instruction, latency list and
cannot-forward set, if `canInstIssue` returns true at cycle `now` it returns
true at every later cycle `later` (as long as `later` plus a relative latency
is a value of `Cycles`); and when a tracked source register of a non-fault
instruction has an unpredictable writer, it returns false at every cycle while
the state is the same. -/
theorem canInstIssue_monotone (sb : Scoreboard) (inst : CVA6DynInst)
    (lat : Option (List Nat)) (cf : Option (List Bool)) (now later : Nat) (isa : BaseISA)
    (hle : now ≤ later)
    (hfit : ∀ k i, k < inst.staticInst.numSrcRegs → srcTrackedAt sb isa inst k i →
      later + Scoreboard.relativeLatency lat cf k (sb.fuIndices i) < 18446744073709551616) :
    (sb.canInstIssue inst lat cf now isa = true →
      sb.canInstIssue inst lat cf later isa = true) ∧
    (inst.isFault = false →
      (∃ k i, k < inst.staticInst.numSrcRegs ∧ srcTrackedAt sb isa inst k i ∧
        sb.numUnpredictableResults i ≠ 0) →
      ∀ t, sb.canInstIssue inst lat cf t isa = false) := by
  refine ⟨?_, ?_⟩
  · cases hf : inst.isFault with
    | true =>
      intro _
      simp [Scoreboard.canInstIssue, hf]
    | false =>
      rw [canInstIssue_true_iff sb inst lat cf now isa hf,
        canInstIssue_true_iff sb inst lat cf later isa hf]
      intro h k hk i hi
      obtain ⟨hu, hr⟩ := h k hk i hi
      refine ⟨hu, ?_⟩
      have hfit2 := hfit k i hk hi
      unfold cyclesAdd at hr ⊢
      have hmod : (now + Scoreboard.relativeLatency lat cf k (sb.fuIndices i)) %
          18446744073709551616 ≤ now + Scoreboard.relativeLatency lat cf k (sb.fuIndices i) :=
        Nat.mod_le _ _
      rw [Nat.mod_eq_of_lt hfit2]
      omega
  · rintro hf ⟨k, i, hk, hi, hne⟩ t
    cases hc : sb.canInstIssue inst lat cf t isa with
    | false => rfl
    | true =>
      exact absurd ((canInstIssue_true_iff sb inst lat cf t isa hf).1 hc k hk i hi).1 hne

/-- With a writer of integer register 3 in flight that returns at cycle 10 and
relative latency 1, `demoInst` cannot issue at cycle 8, can issue at cycle 9,
and so at cycle 20; and while the writer is unpredictable (`demoMarked`) it
cannot issue at cycle 100. -/
theorem canInstIssue_monotone_witness :
    demoPending.canInstIssue demoInst (some [1]) none 8 demoISA = false ∧
    demoPending.canInstIssue demoInst (some [1]) none 9 demoISA = true ∧
    demoPending.canInstIssue demoInst (some [1]) none 20 demoISA = true ∧
    demoMarked.1.canInstIssue demoInst (some [1]) none 100 demoISA = false :=
  ⟨by decide, by decide,
    (canInstIssue_monotone demoPending demoInst (some [1]) none 9 20 demoISA
      (by decide) (fun k i hk _ => by
        have hk1 : k < 1 := hk
        have hk0 : k = 0 := by omega
        subst hk0
        have h : Scoreboard.relativeLatency (some [1]) none 0 (demoPending.fuIndices i) = 1 := by
          simp [Scoreboard.relativeLatency, Scoreboard.cantForward,
            Scoreboard.numRelativeLatencies, Scoreboard.defaultRelativeLatency]
        omega)).1 (by decide),
    (canInstIssue_monotone demoMarked.1 demoInst (some [1]) none 9 20 demoISA
      (by decide) (fun k i hk _ => by
        have hk1 : k < 1 := hk
        have hk0 : k = 0 := by omega
        subst hk0
        have h : Scoreboard.relativeLatency (some [1]) none 0 (demoMarked.1.fuIndices i) = 1 := by
          simp [Scoreboard.relativeLatency, Scoreboard.cantForward,
            Scoreboard.numRelativeLatencies, Scoreboard.defaultRelativeLatency]
        omega)).2 rfl ⟨0, 3, by decide, rfl, by decide⟩ 100⟩

/-! ## Idling -/

/-- C22: in `evaluate` of a running pipeline, after the stages, the channels
and the activity recorder were evaluated, the clock is stopped for idleness
exactly when idling is enabled, the activity recorder is not active and no
drain is pending; so never while `needToSignalDrained` is set. With idling
disabled the block neither stops nor deactivates anything. With idling enabled
the five stage ids are deactivated, CPU, Fetch1, Fetch2, Decode, Execute in
this order, after the activity test, which reads the state before them. The
drain block follows and leaves the stages as the idle block left them. -/
theorem idle_skip_condition {σ : Type} (env : Collaborators σ) (p : Pipeline σ)
    (hrun : p.running = true) :
    ((Pipeline.idleBlock env (Pipeline.evaluateStages env p)).running = false ↔
      (p.allow_idling = true ∧
        env.activityActive (Pipeline.evaluateStages env p).parts = false ∧
        p.needToSignalDrained = false)) ∧
    (p.needToSignalDrained = true →
      (Pipeline.idleBlock env (Pipeline.evaluateStages env p)).running = true) ∧
    (p.allow_idling = false →
      Pipeline.idleBlock env (Pipeline.evaluateStages env p) =
        Pipeline.evaluateStages env p) ∧
    (p.allow_idling = true →
      (Pipeline.idleBlock env (Pipeline.evaluateStages env p)).parts =
        env.deactivateStage StageId.ExecuteStageId
          (env.deactivateStage StageId.DecodeStageId
            (env.deactivateStage StageId.Fetch2StageId
              (env.deactivateStage StageId.Fetch1StageId
                (env.deactivateStage StageId.CPUStageId
                  (Pipeline.evaluateStages env p).parts))))) ∧
    Pipeline.evaluate env p =
      Pipeline.drainBlock env (Pipeline.idleBlock env (Pipeline.evaluateStages env p)) ∧
    (Pipeline.evaluate env p).parts =
      (Pipeline.idleBlock env (Pipeline.evaluateStages env p)).parts := by
  have hq : (Pipeline.evaluateStages env p).running = true := hrun
  have hi : (Pipeline.evaluateStages env p).allow_idling = p.allow_idling := rfl
  have hd : (Pipeline.evaluateStages env p).needToSignalDrained = p.needToSignalDrained := rfl
  refine ⟨?_, ?_, ?_, ?_, rfl, ?_⟩
  · unfold Pipeline.idleBlock
    rw [hi, hd]
    cases ha : p.allow_idling with
    | false => simp [hq]
    | true =>
      cases hact : env.activityActive (Pipeline.evaluateStages env p).parts <;>
        cases hn : p.needToSignalDrained <;> simp [hq]
  · intro hn
    unfold Pipeline.idleBlock
    rw [hi, hd, hn]
    cases ha : p.allow_idling with
    | false => simp [hq]
    | true => simp [hq]
  · intro ha
    unfold Pipeline.idleBlock
    rw [hi, ha]
    simp
  · intro ha
    unfold Pipeline.idleBlock
    rw [hi, ha]
    simp
  · unfold Pipeline.evaluate Pipeline.drainBlock
    split
    · split <;> rfl
    · rfl

/-- A running pipeline with nothing in flight and idling enabled stops for
idleness. -/
theorem idle_skip_condition_witness :
    (Pipeline.idleBlock demoEnv (Pipeline.evaluateStages demoEnv (demoPipeline 0 false))).running =
      false :=
  (idle_skip_condition demoEnv (demoPipeline 0 false) rfl).1.2 ⟨rfl, rfl, rfl⟩

/-! ## Unsupported operations -/

/-- C23, as stated, fails: `inHtmTransactionalState` returns false and does
not end in a panic. -/
theorem inHtmTransactionalState_returns :
    ExecContext.inHtmTransactionalState (ExecContext.mk ()) = Except.ok false ∧
    isFatal (ExecContext.inHtmTransactionalState (ExecContext.mk ())) = false :=
  ⟨rfl, rfl⟩

/-- C23, amended: for every context and argument, `initiateMemMgmtCmd`,
`getHtmTransactionUid`, `newHtmTransactionUid` and `getHtmTransactionalDepth`
end in a panic and return no value; `inHtmTransactionalState` returns false. -/
theorem unsupported_operations {τ : Type} (ctx : ExecContext τ) (flags : Nat) :
    isFatal (ctx.initiateMemMgmtCmd flags) = true ∧
    isFatal ctx.getHtmTransactionUid = true ∧
    isFatal ctx.newHtmTransactionUid = true ∧
    isFatal ctx.getHtmTransactionalDepth = true ∧
    ctx.inHtmTransactionalState = Except.ok false :=
  ⟨rfl, rfl, rfl, rfl, rfl⟩

/-! ## Round robin priorities -/

theorem roundRobinLoop_eq (numThreads priority : Nat) :
    ∀ (n i : Nat) (acc : List Nat),
      roundRobinLoop numThreads priority n i acc =
        acc ++ (List.range' i n).map (fun j => (priority + j) % numThreads) := by
  intro n
  induction n with
  | zero => intro i acc; simp [roundRobinLoop]
  | succ n ih =>
    intro i acc
    simp only [roundRobinLoop, ih, List.range'_succ, List.map_cons, List.append_assoc,
      List.singleton_append]

theorem roundRobinPriority_eq (n p : Nat) :
    roundRobinPriority n p = (List.range' 1 n).map (fun j => (p + j) % n) := by
  unfold roundRobinPriority
  rw [roundRobinLoop_eq]
  rfl

/-- C30: for `n ≥ 1` threads and a priority `p < n`, `roundRobinPriority p` has
length `n`, its element `k` is `(p + 1 + k) mod n`, every thread id below `n`
occurs in it exactly once and nothing else does, its first element is the
thread after `p` and its last element is `p`. -/
theorem roundRobinPriority_rotation (n p : Nat) (hn : 1 ≤ n) (hp : p < n) :
    (roundRobinPriority n p).length = n ∧
    (∀ k, k < n → (roundRobinPriority n p)[k]? = some ((p + 1 + k) % n)) ∧
    (∀ t, t < n → (roundRobinPriority n p).count t = 1) ∧
    (∀ t, t ∈ roundRobinPriority n p → t < n) ∧
    (roundRobinPriority n p).head? = some ((p + 1) % n) ∧
    (roundRobinPriority n p).getLast? = some p := by
  have hlen : (roundRobinPriority n p).length = n := by
    rw [roundRobinPriority_eq]
    simp
  have hget : ∀ k, k < n → (roundRobinPriority n p)[k]? = some ((p + 1 + k) % n) := by
    intro k hk
    rw [roundRobinPriority_eq, List.getElem?_map, List.getElem?_range' _ _ hk]
    simp only [Option.map_some', Nat.one_mul]
    congr 2
    omega
  have hmem : ∀ t, t ∈ roundRobinPriority n p → t < n := by
    intro t ht
    rw [roundRobinPriority_eq, List.mem_map] at ht
    obtain ⟨j, _, rfl⟩ := ht
    exact Nat.mod_lt _ (by omega)
  have hnodup : (roundRobinPriority n p).Nodup := by
    rw [List.nodup_iff_getElem?_ne_getElem?]
    intro i j hij hj
    rw [hlen] at hj
    rw [hget i (by omega), hget j hj]
    intro heq
    have h := Option.some.inj heq
    have hsub : (p + 1 + j) % n = ((p + 1 + i) % n + (j - i)) % n := by
      rw [Nat.mod_add_mod]
      congr 1
      omega
    rw [h] at hsub
    have h1 : (p + 1 + j) % n < n := Nat.mod_lt _ (by omega)
    have hji : (j - i) % n = 0 := by
      have h2 : ((p + 1 + j) % n + (j - i)) % n = ((p + 1 + j) % n + (j - i) % n) % n := by
        rw [Nat.add_mod_mod]
      rw [h2] at hsub
      have h3 : (j - i) % n < n := Nat.mod_lt _ (by omega)
      by_contra hne
      rcases Nat.lt_or_ge ((p + 1 + j) % n + (j - i) % n) n with hlt | hge
      · rw [Nat.mod_eq_of_lt hlt] at hsub
        omega
      · have h4 : ((p + 1 + j) % n + (j - i) % n) % n =
            (p + 1 + j) % n + (j - i) % n - n := by
          rw [Nat.mod_eq_sub_mod hge, Nat.mod_eq_of_lt (by omega)]
        rw [h4] at hsub
        omega
    have hlt : j - i < n := by omega
    rw [Nat.mod_eq_of_lt hlt] at hji
    omega
  refine ⟨hlen, hget, ?_, hmem, ?_, ?_⟩
  · intro t ht
    apply List.count_eq_one_of_mem hnodup
    rw [List.mem_iff_getElem?]
    refine ⟨(t + n - (p + 1) % n) % n, ?_⟩
    have hlt : (t + n - (p + 1) % n) % n < n := Nat.mod_lt _ (by omega)
    rw [hget _ hlt]
    congr 1
    have hq : (p + 1) % n < n := Nat.mod_lt _ (by omega)
    have e1 : (p + 1 + (t + n - (p + 1) % n) % n) % n =
        ((p + 1) % n + (t + n - (p + 1) % n)) % n := by
      generalize t + n - (p + 1) % n = x
      have l : (p + 1 + x % n) % n = ((p + 1) % n + x % n) % n := by
        rw [Nat.add_mod, Nat.mod_mod]
      have r : ((p + 1) % n + x) % n = ((p + 1) % n + x % n) % n := by
        rw [Nat.add_mod, Nat.mod_mod]
      rw [l, r]
    rw [e1]
    have e2 : (p + 1) % n + (t + n - (p + 1) % n) = t + n := by omega
    rw [e2, Nat.add_mod_right, Nat.mod_eq_of_lt ht]
  · have h0 := hget 0 (by omega)
    rw [List.head?_eq_getElem?, h0]
  · have hl := hget (n - 1) (by omega)
    rw [List.getLast?_eq_getElem?, hlen, hl]
    congr 1
    have : p + 1 + (n - 1) = p + n := by omega
    rw [this, Nat.add_mod_right, Nat.mod_eq_of_lt hp]

/-- With three threads and priority 1 the order is 2, 0, 1. -/
theorem roundRobinPriority_rotation_witness :
    (roundRobinPriority 3 1).length = 3 ∧
    (roundRobinPriority 3 1).head? = some ((1 + 1) % 3) ∧
    (roundRobinPriority 3 1).getLast? = some 1 :=
  have h := roundRobinPriority_rotation 3 1 (by decide) (by decide)
  ⟨h.1, h.2.2.2.2.1, h.2.2.2.2.2⟩

/-! ## The CPU while switched out -/

/-- C21, as stated, fails: on a switched out CPU at cycle 7 whose pipeline
last stopped at cycle 3, `drainResume` returns without an error and with
`lastStopped` reset to 7. -/
theorem drainResume_switched_out_resets :
    demoCPUEnv.switchedOut demoCPU.base = true ∧
    demoCPU.lastStopped = 3 ∧
    (CVA6CPU.drainResume demoCPUEnv demoCPU).map (fun cpu => cpu.lastStopped) =
      Except.ok 7 :=
  ⟨rfl, rfl, rfl⟩

/-- C21, amended: when the CPU is switched out, `drainResume` raises no error
and changes nothing but `lastStopped` of the pipeline, which it resets before
it tests `switchedOut()`: no thread and no fetch is woken and every other
member keeps its value. `drain`, when the CPU is switched out once the power
gating event is descheduled, returns `Drained` with that descheduling as its
only effect: the pipeline is not called. -/
theorem drainResume_switched_out {σ β : Type} (env : CPUCollaborators σ β)
    (cpu : CVA6CPU σ β) (hso : env.switchedOut cpu.base = true) :
    CVA6CPU.drainResume env cpu =
      Except.ok { cpu with lastStopped := env.curCycle cpu.base } ∧
    (env.switchedOut (env.deschedulePowerGatingEvent cpu.base) = true →
      CVA6CPU.drain env cpu =
        (DrainState.Drained, { cpu with base := env.deschedulePowerGatingEvent cpu.base })) := by
  refine ⟨?_, ?_⟩
  · simp [CVA6CPU.drainResume, CVA6CPU.resetLastStopped, hso]
  · intro h
    simp [CVA6CPU.drain, h]

/-- The switched out `demoCPU` comes back from `drainResume` with its
pipeline as it was. -/
theorem drainResume_switched_out_witness :
    CVA6CPU.drainResume demoCPUEnv demoCPU =
      Except.ok { demoCPU with lastStopped := demoCPUEnv.curCycle demoCPU.base } :=
  (drainResume_switched_out demoCPUEnv demoCPU rfl).1

/-! ## The cannot-forward set -/

/-- C25, evaluated on the code: for the configured list 5, 2 the constructor
leaves a bit vector of three bits with bit 2 set only. Bit 5, which is in the
list, is cut off by the `resize` for index 2, and `canInstIssue` does not take
functional unit 5 for one that cannot forward. -/
theorem cantForward_drops_earlier_index :
    (FUPipeline.new { stalled := false, alreadyPushed := false }
        { demoFU with cantForwardFromFUIndices := [5, 2] }).cantForwardFromFUIndices =
      [false, false, true] ∧
    Scoreboard.cantForward
      (some (FUPipeline.new { stalled := false, alreadyPushed := false }
        { demoFU with cantForwardFromFUIndices := [5, 2] }).cantForwardFromFUIndices) 5 =
      false ∧
    Scoreboard.cantForward
      (some (FUPipeline.new { stalled := false, alreadyPushed := false }
        { demoFU with cantForwardFromFUIndices := [2, 5] }).cantForwardFromFUIndices) 5 =
      true := by
  decide

/-! ## Forwarded instruction batches -/

theorem bubbleFillLoop_spec {ι : Type} (handles : InstHandles ι) :
    ∀ (n i : Nat) (insts : Nat → ι) (j : Nat),
      ForwardInstData.bubbleFillLoop handles n i insts j =
        if i ≤ j ∧ j < i + n then handles.bubble else insts j := by
  intro n
  induction n with
  | zero =>
    intro i insts j
    simp only [ForwardInstData.bubbleFillLoop]
    rw [if_neg (by omega)]
  | succ n ih =>
    intro i insts j
    simp only [ForwardInstData.bubbleFillLoop, ih]
    by_cases hj : j = i
    · subst hj
      rw [if_neg (by omega), if_pos (by omega)]
      simp [setAt]
    · by_cases hr : i + 1 ≤ j ∧ j < i + 1 + n
      · rw [if_pos hr, if_pos (by omega)]
      · rw [if_neg hr, if_neg (by omega)]
        simp [setAt, hj]

theorem assignLoop_spec {ι : Type} (src : Nat → ι) :
    ∀ (n i : Nat) (insts : Nat → ι) (j : Nat),
      ForwardInstData.assignLoop src n i insts j =
        if i ≤ j ∧ j < i + n then src j else insts j := by
  intro n
  induction n with
  | zero =>
    intro i insts j
    simp only [ForwardInstData.assignLoop]
    rw [if_neg (by omega)]
  | succ n ih =>
    intro i insts j
    simp only [ForwardInstData.assignLoop, ih]
    by_cases hj : j = i
    · subst hj
      rw [if_neg (by omega), if_pos (by omega)]
      simp [setAt]
    · by_cases hr : i + 1 ≤ j ∧ j < i + 1 + n
      · rw [if_pos hr, if_pos (by omega)]
      · rw [if_neg hr, if_neg (by omega)]
        simp [setAt, hj]

theorem bubbleFill_spec {ι : Type} (handles : InstHandles ι)
    (hbubble : handles.isBubble handles.bubble = true) (d : ForwardInstData ι) :
    (ForwardInstData.bubbleFill handles d).numInsts = d.numInsts ∧
      (∀ i, i < d.numInsts → (ForwardInstData.bubbleFill handles d).insts i = handles.bubble) ∧
      ForwardInstData.isBubble handles (ForwardInstData.bubbleFill handles d) = true := by
  have hslot : ∀ i, i < d.numInsts →
      (ForwardInstData.bubbleFill handles d).insts i = handles.bubble := by
    intro i hi
    simp only [ForwardInstData.bubbleFill, bubbleFillLoop_spec]
    rw [if_pos (by omega)]
  refine ⟨rfl, hslot, ?_⟩
  unfold ForwardInstData.isBubble
  rcases Nat.eq_zero_or_pos d.numInsts with h0 | hpos
  · have : (ForwardInstData.bubbleFill handles d).numInsts = 0 := h0
    simp [this]
  · rw [hslot 0 hpos, hbubble]
    simp

/-- C24, as stated, fails at width 0: `demoBatch` holds instruction 7 in its
first slot; resized to width 0 it is a bubble, and its first slot still holds
instruction 7, which is no bubble. -/
theorem width_zero_batch_is_bubble :
    (ForwardInstData.resize demoHandles 4 demoBatch 0).map
        (fun d => (d.numInsts, ForwardInstData.isBubble demoHandles d, d.insts 0,
          demoHandles.isBubble (d.insts 0))) =
      some (0, true, 7, false) := by
  decide

/-- C24, amended: `isBubble()` is true exactly when the width is 0 or the first
slot holds a bubble; so for a batch of width at least 1 it is true only if the
first slot holds a bubble. A batch constructed with width `w`, or resized to a
width `w` below `MAX_FORWARD_INSTS`, has width `w`, the bubble instruction in
every slot below `w`, and is a bubble. -/
theorem batch_bubble_rule {ι : Type} (handles : InstHandles ι)
    (hbubble : handles.isBubble handles.bubble = true) :
    (∀ d : ForwardInstData ι,
      ForwardInstData.isBubble handles d = true ↔
        (d.numInsts = 0 ∨ handles.isBubble (d.insts 0) = true)) ∧
    (∀ d : ForwardInstData ι, 1 ≤ d.numInsts →
      ForwardInstData.isBubble handles d = true → handles.isBubble (d.insts 0) = true) ∧
    (∀ (storage : Nat → ι) (w : Nat) (tid : Int),
      (ForwardInstData.new handles storage w tid).numInsts = w ∧
        (∀ i, i < w → (ForwardInstData.new handles storage w tid).insts i = handles.bubble) ∧
        ForwardInstData.isBubble handles (ForwardInstData.new handles storage w tid) = true) ∧
    (∀ (limit : Nat) (d : ForwardInstData ι) (w : Nat), w < limit →
      ∃ r, ForwardInstData.resize handles limit d w = some r ∧ r.numInsts = w ∧
        (∀ i, i < w → r.insts i = handles.bubble) ∧
        ForwardInstData.isBubble handles r = true) := by
  have hiff : ∀ d : ForwardInstData ι,
      ForwardInstData.isBubble handles d = true ↔
        (d.numInsts = 0 ∨ handles.isBubble (d.insts 0) = true) := by
    intro d
    simp [ForwardInstData.isBubble]
  refine ⟨hiff, ?_, ?_, ?_⟩
  · intro d hw hb
    rcases (hiff d).1 hb with h | h
    · omega
    · exact h
  · intro storage w tid
    exact bubbleFill_spec handles hbubble { insts := storage, numInsts := w, threadId := tid }
  · intro limit d w hw
    refine ⟨ForwardInstData.bubbleFill handles { d with numInsts := w }, ?_, ?_⟩
    · simp [ForwardInstData.resize, hw]
    · exact bubbleFill_spec handles hbubble { d with numInsts := w }

/-- A batch constructed with width 2 is a bubble of width 2. -/
theorem batch_bubble_rule_witness :
    (ForwardInstData.new demoHandles (fun _ => 7) 2 0).numInsts = 2 ∧
    ForwardInstData.isBubble demoHandles (ForwardInstData.new demoHandles (fun _ => 7) 2 0) =
      true :=
  have h := (batch_bubble_rule demoHandles rfl).2.2.1 (fun _ => 7) 2 0
  ⟨h.1, h.2.2⟩

theorem assign_spec {ι : Type} (handles : InstHandles ι) (dst src : ForwardInstData ι) :
    (ForwardInstData.assign dst src).threadId = dst.threadId ∧
      (ForwardInstData.assign dst src).numInsts = src.numInsts ∧
      (∀ i, i < src.numInsts → (ForwardInstData.assign dst src).insts i = src.insts i) ∧
      ForwardInstData.isBubble handles (ForwardInstData.assign dst src) =
        ForwardInstData.isBubble handles src := by
  have hslot : ∀ i, i < src.numInsts →
      (ForwardInstData.assign dst src).insts i = src.insts i := by
    intro i hi
    simp only [ForwardInstData.assign, assignLoop_spec]
    rw [if_pos (by omega)]
  refine ⟨rfl, rfl, hslot, ?_⟩
  unfold ForwardInstData.isBubble
  have hn : (ForwardInstData.assign dst src).numInsts = src.numInsts := rfl
  rw [hn]
  rcases Nat.eq_zero_or_pos src.numInsts with h0 | hpos
  · simp [h0]
  · rw [hslot 0 hpos]

/-- C29, evaluated on the code: assigning `demoBatch`, a batch of thread 1, to
a batch of thread 0 gives a batch with the width and the first slot of
`demoBatch` and with thread id 0; and the copy constructor gives the thread
id the new object had before its body ran. -/
theorem assign_keeps_thread_id :
    demoBatch.threadId = 1 ∧
    (ForwardInstData.assign demoEmptyBatch demoBatch).threadId = 0 ∧
    (ForwardInstData.copy demoEmptyBatch demoBatch).threadId = 0 ∧
    (ForwardInstData.assign demoEmptyBatch demoBatch).numInsts = 1 ∧
    (ForwardInstData.assign demoEmptyBatch demoBatch).insts 0 = 7 := by
  decide

end gem5.cva6
